import Mathlib

/-!
Student manager: a verification development

A shallow embedding of the client-side application (`script.js`, `app.js`):
the four global collections `students`, `schedule`, `planTemplates` and
`studentProgress`, the operations that mutate them, the monthly progress
summary and the export / import of the whole dataset.

JavaScript strings are modelled by `String` (every character the code tests
for lies in the basic multilingual plane), JavaScript objects by association
lists in key enumeration order, and the DOM (form fields, `confirm`, `alert`)
by explicit arguments and results. The last definitions cover the validation
of the backend example (`middleware/auth.js`, `routes/plans.js`).
-/

namespace StudentManager

/-! ## JavaScript string primitives -/

/-- White space and line terminators of ECMAScript: the characters removed by
`String.prototype.trim` and skipped by `parseInt` and `Number`. -/
def isJSWhitespace (c : Char) : Bool :=
  let n := c.toNat
  n == 0x09 || n == 0x0A || n == 0x0B || n == 0x0C || n == 0x0D || n == 0x20
    || n == 0xA0 || n == 0x1680 || (0x2000 ≤ n && n ≤ 0x200A) || n == 0x2028
    || n == 0x2029 || n == 0x202F || n == 0x205F || n == 0x3000 || n == 0xFEFF

/-- Characters of `s.trim()`: leading and trailing white space removed. -/
def trimChars (l : List Char) : List Char :=
  ((l.dropWhile isJSWhitespace).reverse.dropWhile isJSWhitespace).reverse

/-- The method `String.prototype.trim`. -/
def jsTrim (s : String) : String := ⟨trimChars s.data⟩

/-- Characters of `s.split(sep)` for a one-character separator: the pieces
between the occurrences of `sep`; the empty string gives one empty piece. -/
def splitChars (sep : Char) : List Char → List (List Char)
  | [] => [[]]
  | c :: cs =>
    if c = sep then [] :: splitChars sep cs
    else
      match splitChars sep cs with
      | [] => [[c]]
      | piece :: pieces => (c :: piece) :: pieces

/-- The method `String.prototype.split` with a one-character separator. -/
def jsSplit (sep : Char) (s : String) : List String :=
  (splitChars sep s.data).map String.mk

/-! ## JavaScript objects as association lists -/

/-- Property read `o[k]`: `none` is `undefined` (no such own property). -/
def Obj.get {κ α : Type} [DecidableEq κ] : List (κ × α) → κ → Option α
  | [], _ => none
  | (k', v) :: rest, k => if k' = k then some v else Obj.get rest k

/-- Property write `o[k] = v`: an existing property keeps its place, a new one
is added after the others. -/
def Obj.set {κ α : Type} [DecidableEq κ] : List (κ × α) → κ → α → List (κ × α)
  | [], k, v => [(k, v)]
  | (k', v') :: rest, k, v =>
    if k' = k then (k, v) :: rest else (k', v') :: Obj.set rest k v

/-- Property write `o[i] = v` for array-index keys, which JavaScript enumerates
in ascending numeric order: a new index is inserted at its numeric place. -/
def Obj.setIndex {α : Type} : List (Nat × α) → Nat → α → List (Nat × α)
  | [], k, v => [(k, v)]
  | (k', v') :: rest, k, v =>
    if k' = k then (k, v) :: rest
    else if k < k' then (k, v) :: (k', v') :: rest
    else (k', v') :: Obj.setIndex rest k v

/-- The operator `delete o[k]`. -/
def Obj.delete {κ α : Type} [DecidableEq κ] (o : List (κ × α)) (k : κ) : List (κ × α) :=
  o.filter (fun p => decide (p.1 ≠ k))

/-! ## Data model (`script.js`, lines 6-15) -/

/-- A student as created by `saveStudent`: `{ id: Date.now(), name, grade, planType }`,
where `planType` is the value of a select element, a string. -/
structure Student where
  id : Int
  name : String
  grade : String
  planType : String
  deriving DecidableEq, Repr

/-- A progress record `{ completed, date, time }`. -/
structure ProgressRecord where
  completed : Bool
  date : String
  time : String
  deriving DecidableEq, Repr

/-- The four global collections. `schedule` maps a day name to its array of
slots, each an array of student ids; `planTemplates` maps a plan key to its
activities; `studentProgress` maps a student id to a map from activity index
to record (the property keys are the decimal strings of these numbers). -/
structure State where
  students : List Student
  schedule : List (String × List (List Int))
  planTemplates : List (String × List String)
  studentProgress : List (Int × List (Nat × ProgressRecord))
  deriving DecidableEq, Repr

/-- Five empty slots, `[[], [], [], [], []]`. -/
def emptyDay : List (List Int) := [[], [], [], [], []]

/-- The schedule literal of `script.js` (lines 7-13) and of `clearSchedule`. -/
def emptySchedule : List (String × List (List Int)) :=
  [("monday", emptyDay), ("tuesday", emptyDay), ("wednesday", emptyDay),
   ("thursday", emptyDay), ("friday", emptyDay)]

/-- The state the script starts from before `loadData` (lines 6-15). -/
def initialState : State :=
  { students := []
    schedule := emptySchedule
    planTemplates := [("1", []), ("2", []), ("3", []), ("4", []), ("5", []), ("6", [])]
    studentProgress := [] }

/-! ## Plan templates (`app.js`) -/

/-- The expression `text.split('\n').map(a => a.trim()).filter(a => a.length > 0)`
of `createPlan` and `savePlanEdit`. -/
def parseActivities (activitiesText : String) : List String :=
  ((jsSplit '\n' activitiesText).map jsTrim).filter (fun a => decide (a.length > 0))

/-- The function `createPlan` (lines 121-135): `planType` and `text` are the
values of the form fields; the result is the new state and the alert shown. -/
def createPlan (s : State) (planType : String) (text : String) : State × String :=
  let activitiesText := jsTrim text
  if activitiesText = "" then
    (s, "Ве молиме внесете активности")
  else
    let activities := parseActivities activitiesText
    ({ s with planTemplates := Obj.set s.planTemplates planType activities },
     "Успешно креиран План " ++ planType ++ " со " ++ toString activities.length
       ++ " активности")

/-- The function `savePlanEdit` (lines 144-154): `currentEditingPlan` is the
global set by `editPlan` (`none` for `null`), `text` the value of the text
area; without a plan being edited nothing happens. -/
def savePlanEdit (s : State) (currentEditingPlan : Option Int) (text : String) :
    State × Option String :=
  match currentEditingPlan with
  | none => (s, none)
  | some planNumber =>
    if planNumber = 0 then (s, none)
    else
      let activitiesText := jsTrim text
      let activities := parseActivities activitiesText
      ({ s with planTemplates := Obj.set s.planTemplates (toString planNumber) activities },
       some ("План " ++ toString planNumber ++ " е успешно ажуриран"))

/-- The spec's reading of a plan replacement: the lines of the input as typed
(split at line feeds), each trimmed, the empty ones dropped, order kept. -/
def trimmedLines (text : String) : List String :=
  ((jsSplit '\n' text).map jsTrim).filter (fun a => decide (a ≠ ""))

/-- The pieces a plan replacement keeps, on characters: the lines of `l`, each
trimmed, the empty ones dropped (used to relate the code to `trimmedLines`). -/
def keptPieces (l : List Char) : List (List Char) :=
  ((splitChars '\n' l).map trimChars).filter (fun a => decide (a ≠ []))

/-- The list of pieces with `c` appended to the last piece. -/
def snocLast (c : Char) : List (List Char) → List (List Char)
  | [] => [[c]]
  | [p] => [p ++ [c]]
  | p :: q :: ps => p :: snocLast c (q :: ps)

/-! ## Students and schedule (`script.js`) -/

/-- The function `deleteStudent` (lines 98-113); `confirmed` is the answer to
the `confirm` dialog. Every slot of every day is replaced by the slot without
`id` (`Object.keys(schedule).forEach(day => schedule[day].forEach(...))`). -/
def deleteStudent (s : State) (id : Int) (confirmed : Bool) : State :=
  if confirmed then
    { s with
      students := s.students.filter (fun st => decide (st.id ≠ id))
      studentProgress := Obj.delete s.studentProgress id
      schedule := s.schedule.map (fun p =>
        (p.1, p.2.map (fun slot => slot.filter (fun sid => decide (sid ≠ id))))) }
  else s

/-- The expression `schedule[day][timeIdx]`: the ids held by a cell, `none`
when the day or the slot does not exist. -/
def getCell (s : State) (day : String) (timeIdx : Nat) : Option (List Int) :=
  match Obj.get s.schedule day with
  | none => none
  | some slots => slots[timeIdx]?

/-- The function `assignStudentsToSlot` (lines 217-227): `currentSlot` is the
global set by `openScheduleModal` (`none` for `null`) and `selectedIds` the
ids of the checked boxes in document order. The result is `none` when the
cell does not exist: a missing day makes the assignment throw, and an index
past the end of the day's array, which the rendered grid never produces,
would leave a sparse array that `State` does not hold. -/
def assignStudentsToSlot (s : State) (currentSlot : Option (String × Nat))
    (selectedIds : List Int) : Option State :=
  match currentSlot with
  | none => some s
  | some (day, timeIdx) =>
    match Obj.get s.schedule day with
    | none => none
    | some slots =>
      if timeIdx < slots.length then
        some { s with schedule := Obj.set s.schedule day (slots.set timeIdx selectedIds) }
      else none

/-- The function `removeStudentFromSlot` (lines 229-234); `none` when the cell
does not exist and reading it throws. -/
def removeStudentFromSlot (s : State) (day : String) (timeIdx : Nat) (studentId : Int) :
    Option State :=
  match Obj.get s.schedule day with
  | none => none
  | some slots =>
    match slots[timeIdx]? with
    | none => none
    | some slot =>
      some { s with
        schedule := Obj.set s.schedule day
          (slots.set timeIdx (slot.filter (fun id => decide (id ≠ studentId)))) }

/-- The function `clearSchedule` (lines 241-254). -/
def clearSchedule (s : State) (confirmed : Bool) : State :=
  if confirmed then { s with schedule := emptySchedule } else s

/-- The student list with the first student of the given id changed by `f`, as
`students.find(s => s.id === id)` followed by assignments to its fields;
`none` when no student has the id. -/
def updateStudent (id : Int) (f : Student → Student) : List Student → Option (List Student)
  | [] => none
  | st :: rest =>
    if st.id = id then some (f st :: rest)
    else (updateStudent id f rest).map (fun rest₁ => st :: rest₁)

/-- The function `saveStudent` (lines 59-86): the three field values, the
global `editingStudentId` (`none` for `null`) and `now`, the value of
`Date.now()`. The result is `none` when the edited student is not found
and the assignment to its field throws; a rejected call (empty name or
grade) returns the state it was given. -/
def saveStudent (s : State) (nameValue gradeValue planType : String)
    (editingStudentId : Option Int) (now : Int) : Option State :=
  let name := jsTrim nameValue
  let grade := jsTrim gradeValue
  if name = "" ∨ grade = "" then some s
  else if editingStudentId.isSome ∧ editingStudentId ≠ some 0 then
    (updateStudent (editingStudentId.getD 0)
        (fun st => { st with name := name, grade := grade, planType := planType })
        s.students).map
      (fun students => { s with students := students })
  else
    some { s with
      students := s.students ++ [{ id := now, name := name, grade := grade, planType := planType }]
      studentProgress := Obj.set s.studentProgress now [] }

/-- Every id held by a schedule cell is the id of a student of the roster. -/
def ScheduleValid (s : State) : Prop :=
  ∀ p ∈ s.schedule, ∀ slot ∈ p.2, ∀ id ∈ slot, ∃ st ∈ s.students, st.id = id

/-! ## Progress records (`app.js`) -/

/-- The function `toggleActivityProgress` (lines 242-255): `today` is the value
of `new Date().toLocaleDateString('mk-MK')`. -/
def toggleActivityProgress (s : State) (studentId : Int) (activityIndex : Nat)
    (completed : Bool) (today : String) : State :=
  let studentProgress :=
    match Obj.get s.studentProgress studentId with
    | none => Obj.set s.studentProgress studentId []
    | some _ => s.studentProgress
  let progress := (Obj.get studentProgress studentId).getD []
  let progress :=
    if completed then
      Obj.setIndex progress activityIndex { completed := true, date := today, time := "" }
    else Obj.delete progress activityIndex
  { s with studentProgress := Obj.set studentProgress studentId progress }

/-- The expression `studentProgress[studentId][activityIndex]` read safely: the
record of a student at an activity index, `none` when there is none. -/
def recordAt (s : State) (studentId : Int) (activityIndex : Nat) : Option ProgressRecord :=
  match Obj.get s.studentProgress studentId with
  | none => none
  | some progress => Obj.get progress activityIndex

/-- Lines 263-264 of `setActivityDate`: `[year, month, day] = dateValue.split('-')`
and then the text `${day}.${month}.${year}`. A piece that the split does
not yield is `undefined` and prints as "undefined". -/
def reformatDate (dateValue : String) : String :=
  let parts := jsSplit '-' dateValue
  let year := parts[0]?.getD "undefined"
  let month := parts[1]?.getD "undefined"
  let day := parts[2]?.getD "undefined"
  day ++ "." ++ month ++ "." ++ year

/-- The function `setActivityDate` (lines 257-266): `dateValue` is the value of
a date input, `YYYY-MM-DD` or empty. -/
def setActivityDate (s : State) (studentId : Int) (activityIndex : Nat)
    (dateValue : String) : State :=
  if dateValue = "" then s
  else
    let studentProgress :=
      match Obj.get s.studentProgress studentId with
      | none => Obj.set s.studentProgress studentId []
      | some _ => s.studentProgress
    let progress := (Obj.get studentProgress studentId).getD []
    let progress :=
      match Obj.get progress activityIndex with
      | none => Obj.setIndex progress activityIndex { completed := false, date := "", time := "" }
      | some _ => progress
    let record := (Obj.get progress activityIndex).getD { completed := false, date := "", time := "" }
    let record := { record with date := reformatDate dateValue }
    { s with
      studentProgress :=
        Obj.set studentProgress studentId (Obj.setIndex progress activityIndex record) }

/-- The function `setActivityTime` (lines 268-280): `time` is the value of the
time select, a slot label or empty. -/
def setActivityTime (s : State) (studentId : Int) (activityIndex : Nat)
    (time : String) : State :=
  if time = "" then s
  else
    let studentProgress :=
      match Obj.get s.studentProgress studentId with
      | none => Obj.set s.studentProgress studentId []
      | some _ => s.studentProgress
    let progress := (Obj.get studentProgress studentId).getD []
    let progress :=
      match Obj.get progress activityIndex with
      | none => Obj.setIndex progress activityIndex { completed := false, date := "", time := "" }
      | some _ => progress
    let record := (Obj.get progress activityIndex).getD { completed := false, date := "", time := "" }
    let record := { record with time := time }
    let record :=
      if record.date ≠ "" ∧ time ≠ "" then { record with completed := true } else record
    { s with
      studentProgress :=
        Obj.set studentProgress studentId (Obj.setIndex progress activityIndex record) }

/-- The progress states that the three progress operations produce, starting
from a state whose progress map is empty; the date that
`toLocaleDateString` returns is never the empty string. -/
inductive ProgressReachable : State → Prop where
  | start (s : State) (h : s.studentProgress = []) : ProgressReachable s
  | toggle (s : State) (studentId : Int) (activityIndex : Nat) (completed : Bool)
      (today : String) (htoday : today ≠ "") (h : ProgressReachable s) :
      ProgressReachable (toggleActivityProgress s studentId activityIndex completed today)
  | setDate (s : State) (studentId : Int) (activityIndex : Nat) (dateValue : String)
      (h : ProgressReachable s) :
      ProgressReachable (setActivityDate s studentId activityIndex dateValue)
  | setTime (s : State) (studentId : Int) (activityIndex : Nat) (time : String)
      (h : ProgressReachable s) :
      ProgressReachable (setActivityTime s studentId activityIndex time)

/-! ## JavaScript values and JSON -/

/-- JavaScript values as far as the code tells them apart: the numbers are the
integers and `NaN` (no arithmetic is done on any other number here). An
object lists its own properties in enumeration order. -/
inductive JSVal where
  | undefined
  | null
  | bool (b : Bool)
  | num (n : Int)
  | nan
  | str (s : String)
  | arr (xs : List JSVal)
  | obj (fields : List (String × JSVal))

/-- A JSON document: the content of a JSON text. -/
inductive Json where
  | null
  | bool (b : Bool)
  | num (n : Int)
  | str (s : String)
  | arr (xs : List Json)
  | obj (fields : List (String × Json))

/-- The conversion `ToBoolean`: what an `if (x)` tests. -/
def JSVal.toBoolean : JSVal → Bool
  | .undefined => false
  | .null => false
  | .bool b => b
  | .num n => decide (n ≠ 0)
  | .nan => false
  | .str s => decide (s ≠ "")
  | .arr _ => true
  | .obj _ => true

mutual
/-- The document written by `JSON.stringify(v)`; `none` when it returns
`undefined`. `NaN` is written as `null`. -/
def JSON.stringify : JSVal → Option Json
  | .undefined => none
  | .null => some .null
  | .bool b => some (.bool b)
  | .num n => some (.num n)
  | .nan => some .null
  | .str s => some (.str s)
  | .arr xs => some (.arr (JSON.stringifyElems xs))
  | .obj fields => some (.obj (JSON.stringifyProps fields))
/-- Array elements: an `undefined` element is written as `null`. -/
def JSON.stringifyElems : List JSVal → List Json
  | [] => []
  | x :: xs => (JSON.stringify x).getD .null :: JSON.stringifyElems xs
/-- Object properties, in enumeration order: a property whose value is
`undefined` is left out. -/
def JSON.stringifyProps : List (String × JSVal) → List (String × Json)
  | [] => []
  | (k, v) :: fields =>
    match JSON.stringify v with
    | none => JSON.stringifyProps fields
    | some j => (k, j) :: JSON.stringifyProps fields
end

mutual
/-- The value built by `JSON.parse` from a document whose objects have
distinct keys written in enumeration order, as `JSON.stringify` writes them:
the properties are rebuilt in that order. -/
def JSON.parse : Json → JSVal
  | .null => .null
  | .bool b => .bool b
  | .num n => .num n
  | .str s => .str s
  | .arr xs => .arr (JSON.parseElems xs)
  | .obj fields => .obj (JSON.parseProps fields)
/-- Array elements of a parsed document. -/
def JSON.parseElems : List Json → List JSVal
  | [] => []
  | x :: xs => JSON.parse x :: JSON.parseElems xs
/-- Object properties of a parsed document. -/
def JSON.parseProps : List (String × Json) → List (String × JSVal)
  | [] => []
  | (k, j) :: fields => (k, JSON.parse j) :: JSON.parseProps fields
end

/-- Property read `data.name` for one of the four collection names: `none`
when the read throws a TypeError (`data` is `null` or `undefined`); a value
without such an own property gives `undefined`. -/
def JSVal.getProp : JSVal → String → Option JSVal
  | .undefined, _ => none
  | .null, _ => none
  | .obj fields, name => some ((Obj.get fields name).getD .undefined)
  | _, _ => some .undefined

/-! ## Bulk import of a plan from spreadsheet rows (`app.js`) -/

/-- The row loop of `uploadPlanFile` (lines 92-97): `jsonData` is the result of
`XLSX.utils.sheet_to_json(worksheet, { header: 1 })`, an array of rows; a row
contributes when `row.length > 1 && row[1] && typeof row[1] === 'string'`. -/
def extractActivities (jsonData : List (List JSVal)) : List String :=
  jsonData.filterMap (fun row =>
    match row[1]? with
    | some (JSVal.str cell) => if cell ≠ "" then some (jsTrim cell) else none
    | _ => none)

/-- The function `uploadPlanFile` (lines 77-113): `file` is `none` when no file
is chosen, an error message when reading the workbook throws, and the rows
of the first sheet otherwise; the result is the new state and the alert. -/
def uploadPlanFile (s : State) (planType : String)
    (file : Option (Except String (List (List JSVal)))) : State × String :=
  match file with
  | none => (s, "Ве молиме изберете датотека")
  | some (.error message) => (s, "Грешка при вчитување на датофиката: " ++ message)
  | some (.ok jsonData) =>
    let activities := extractActivities jsonData
    if activities.length = 0 then
      (s, "Не се пронајдени активности во датотеката")
    else
      ({ s with planTemplates := Obj.set s.planTemplates planType activities },
       "Успешно вчитани " ++ toString activities.length ++ " активности во План " ++ planType)

/-- The function `addActivity` (lines 48-60): `planType` and `text` are the
values of the form fields. The result is `none` when
`planTemplates[planType]` does not exist and `push` throws; a rejected call
returns the state it was given, with the alert. -/
def addActivity (s : State) (planType : String) (text : String) :
    Option (State × Option String) :=
  let text := jsTrim text
  if text = "" then some (s, some "Ве молиме внесете активност")
  else
    match Obj.get s.planTemplates planType with
    | none => none
    | some activities =>
      some ({ s with planTemplates := Obj.set s.planTemplates planType (activities ++ [text]) },
        none)

/-- The function `deleteActivity` (lines 62-69): `planNum` and `idx` are the
numbers written into the button by `renderPlanTemplates`, `confirmed` the
answer to the dialog; `splice(idx, 1)` removes the element at `idx` when
there is one. The result is `none` when the plan does not exist. -/
def deleteActivity (s : State) (planNum : Int) (idx : Nat) (confirmed : Bool) : Option State :=
  if confirmed then
    match Obj.get s.planTemplates (toString planNum) with
    | none => none
    | some activities =>
      some { s with
        planTemplates := Obj.set s.planTemplates (toString planNum) (activities.eraseIdx idx) }
  else some s

/-- The function `deletePlan` (lines 156-166). -/
def deletePlan (s : State) (currentEditingPlan : Option Int) (confirmed : Bool) :
    State × Option String :=
  match currentEditingPlan with
  | none => (s, none)
  | some planNumber =>
    if planNumber = 0 then (s, none)
    else if confirmed then
      ({ s with planTemplates := Obj.set s.planTemplates (toString planNumber) [] },
       some ("План " ++ toString planNumber ++ " е избришан"))
    else (s, none)

/-- The keys of `planTemplates` in the literal of `script.js` (line 14). -/
def planKeys : List String := ["1", "2", "3", "4", "5", "6"]

/-- One operation on the plan of key `k`: `addActivity`, `deleteActivity`,
`createPlan`, `savePlanEdit`, `deletePlan` or the bulk import. -/
inductive PlanStep : String → State → State → Prop where
  | addActivity (s : State) (planType text : String) (r : State × Option String)
      (h : addActivity s planType text = some r) : PlanStep planType s r.1
  | deleteActivity (s : State) (planNum : Int) (idx : Nat) (confirmed : Bool) (s₁ : State)
      (h : deleteActivity s planNum idx confirmed = some s₁) :
      PlanStep (toString planNum) s s₁
  | createPlan (s : State) (planType text : String) :
      PlanStep planType s (createPlan s planType text).1
  | savePlanEdit (s : State) (planNumber : Int) (text : String) :
      PlanStep (toString planNumber) s (savePlanEdit s (some planNumber) text).1
  | deletePlan (s : State) (planNumber : Int) (confirmed : Bool) :
      PlanStep (toString planNumber) s (deletePlan s (some planNumber) confirmed).1
  | uploadPlanFile (s : State) (planType : String)
      (file : Option (Except String (List (List JSVal)))) :
      PlanStep planType s (uploadPlanFile s planType file).1

/-- The states that plan operations with a plan type in 1..6 produce from the
initial state. -/
inductive PlanReachable : State → Prop where
  | start : PlanReachable initialState
  | step (k : String) (hk : k ∈ planKeys) (s s₁ : State) (h : PlanReachable s)
      (hstep : PlanStep k s s₁) : PlanReachable s₁

/-! ## Export and import of the dataset (`app.js`) -/

/-- The four globals as JavaScript values: what `exportData` serialises and
what `importData` and `loadData` assign, whatever the document holds. -/
structure JSState where
  students : JSVal
  schedule : JSVal
  planTemplates : JSVal
  studentProgress : JSVal

/-- The object `{ id, name, grade, planType }` of a student. -/
def Student.toJS (st : Student) : JSVal :=
  .obj [("id", .num st.id), ("name", .str st.name), ("grade", .str st.grade),
    ("planType", .str st.planType)]

/-- The object `{ completed, date, time }` of a progress record. -/
def ProgressRecord.toJS (r : ProgressRecord) : JSVal :=
  .obj [("completed", .bool r.completed), ("date", .str r.date), ("time", .str r.time)]

/-- The JavaScript values of a state of the data model; numeric keys become
their decimal strings. -/
def State.toJS (s : State) : JSState :=
  { students := .arr (s.students.map Student.toJS)
    schedule := .obj (s.schedule.map (fun p =>
      (p.1, JSVal.arr (p.2.map (fun slot => JSVal.arr (slot.map JSVal.num))))))
    planTemplates := .obj (s.planTemplates.map (fun p =>
      (p.1, JSVal.arr (p.2.map JSVal.str))))
    studentProgress := .obj (s.studentProgress.map (fun p =>
      (toString p.1, JSVal.obj (p.2.map (fun q => (toString q.1, q.2.toJS)))))) }

/-- The object `{students, schedule, planTemplates, studentProgress}` built by
`exportData` (line 361) and `saveData` (line 463). -/
def dataObject (s : JSState) : JSVal :=
  .obj [("students", s.students), ("schedule", s.schedule),
    ("planTemplates", s.planTemplates), ("studentProgress", s.studentProgress)]

/-- The function `exportData` (lines 360-368): the document offered for download. -/
def exportData (s : JSState) : Option Json :=
  JSON.stringify (dataObject s)

/-- The function `saveData` (lines 462-465): the document put in local storage. -/
def saveData (s : JSState) : Option Json :=
  JSON.stringify (dataObject s)

/-- The four conditional assignments `if (data.x) x = data.x` (lines 377-380
and 472-475); `none` when reading a property of `data` throws, which happens
before anything is assigned. -/
def assignCollections (s : JSState) (data : JSVal) : Option JSState :=
  match data.getProp "students", data.getProp "schedule", data.getProp "planTemplates",
      data.getProp "studentProgress" with
  | some students, some schedule, some planTemplates, some studentProgress =>
    some
      { students := if students.toBoolean then students else s.students
        schedule := if schedule.toBoolean then schedule else s.schedule
        planTemplates := if planTemplates.toBoolean then planTemplates else s.planTemplates
        studentProgress :=
          if studentProgress.toBoolean then studentProgress else s.studentProgress }
  | _, _, _, _ => none

/-- The four globals after the handler of `importData` (lines 370-394) has run:
`file` is `none` when no file is chosen, `some none` when the text of the
file is not valid JSON, and the document otherwise. An exception is caught
by the handler and leaves the assignments made so far. -/
def importData (s : JSState) (file : Option (Option Json)) : JSState :=
  match file with
  | none => s
  | some none => s
  | some (some document) => (assignCollections s (JSON.parse document)).getD s

/-- The four globals after `loadData` (lines 467-480): `saved` is `none` when
local storage holds no text, `some none` when the text is not valid JSON. -/
def loadData (s : JSState) (saved : Option (Option Json)) : JSState :=
  match saved with
  | none => s
  | some none => s
  | some (some document) => (assignCollections s (JSON.parse document)).getD s

/-- The test `Array.isArray`: only an array has the method `forEach` that
`renderStudents` calls on `students`. -/
def JSVal.isArray : JSVal → Bool
  | .arr _ => true
  | _ => false

/-- The two alerts of the handler of `importData`: "data loaded successfully"
(line 387) and "error while loading the data" (line 389). -/
inductive ImportAlert where
  | success
  | error
  deriving DecidableEq, Repr

/-- The alert of the handler of `importData` (lines 374-391); `none` when no
file is chosen. An error is reported when `JSON.parse` throws, when reading
a property of the document throws, and when a step after the four
assignments throws: `renderStudents` does so at `students.forEach` when
`students` is not an array, and `laterThrows` stands for an exception of
`saveData` or of the rest of the rendering. -/
def importDataAlert (s : JSState) (file : Option (Option Json)) (laterThrows : Bool) :
    Option ImportAlert :=
  match file with
  | none => none
  | some none => some .error
  | some (some document) =>
    match assignCollections s (JSON.parse document) with
    | none => some .error
    | some s₁ => if s₁.students.isArray && !laterThrows then some .success else some .error

/-- Whether `loadData` (lines 467-480) logs an error: its `try` holds only
`JSON.parse` and the four assignments. -/
def loadDataReportsError (s : JSState) (saved : Option (Option Json)) : Bool :=
  match saved with
  | none => false
  | some none => true
  | some (some document) => (assignCollections s (JSON.parse document)).isNone

/-- The spec's reading of "the document has that field": the parsed value of a
top-level field of an object document, `none` when the document is not an
object or has no field of that name. -/
def documentField (document : Json) (name : String) : Option JSVal :=
  match document with
  | .obj fields => Obj.get (JSON.parseProps fields) name
  | _ => none

mutual
/-- No `undefined` and no `NaN` anywhere inside: the values that a JSON
document holds as they are. -/
def JSVal.jsonClean : JSVal → Bool
  | .undefined => false
  | .nan => false
  | .arr xs => jsonCleanElems xs
  | .obj fields => jsonCleanProps fields
  | _ => true
/-- Every element is clean. -/
def jsonCleanElems : List JSVal → Bool
  | [] => true
  | x :: xs => x.jsonClean && jsonCleanElems xs
/-- Every property value is clean. -/
def jsonCleanProps : List (String × JSVal) → Bool
  | [] => true
  | (_, v) :: fields => v.jsonClean && jsonCleanProps fields
end

/-! ## Numbers in strings: `parseInt` and `Number` -/

/-- Value of a character as a digit of a radix up to 16. -/
def digitValue (c : Char) : Option Nat :=
  let n := c.toNat
  if 48 ≤ n ∧ n ≤ 57 then some (n - 48)
  else if 97 ≤ n ∧ n ≤ 102 then some (n - 87)
  else if 65 ≤ n ∧ n ≤ 70 then some (n - 55)
  else none

/-- The values of the longest prefix of digits of the radix. -/
def leadingDigits (radix : Nat) : List Char → List Nat
  | [] => []
  | c :: cs =>
    match digitValue c with
    | some d => if d < radix then d :: leadingDigits radix cs else []
    | none => []

/-- The number written by a list of digit values, most significant first. -/
def digitsValue (radix : Nat) (ds : List Nat) : Nat :=
  ds.foldl (fun acc d => acc * radix + d) 0

/-- The function `parseInt(s)` on the characters of `s`: leading white space
is skipped, then an optional sign, then `0x` or `0X` selects radix 16, then
the longest run of digits is read; `none` is `NaN`. The result is the exact
integer: JavaScript rounds it to a double, which changes nothing below 2^53
and never makes a larger value equal to a smaller one. -/
def parseIntChars (l : List Char) : Option Int :=
  let l := l.dropWhile isJSWhitespace
  let negative := l.head? = some '-'
  let l := if l.head? = some '-' ∨ l.head? = some '+' then l.tail else l
  let hex := l.take 2 = ['0', 'x'] ∨ l.take 2 = ['0', 'X']
  let radix := if hex then 16 else 10
  let l := if hex then l.drop 2 else l
  match leadingDigits radix l with
  | [] => none
  | ds => some (if negative then -(digitsValue radix ds : Int) else (digitsValue radix ds : Int))

/-- The function `parseInt` applied to a destructured array element: a missing
element is `undefined`, which reads as the text "undefined" and gives `NaN`. -/
def parseInt (s : Option String) : Option Int :=
  match s with
  | none => none
  | some s => parseIntChars s.data

/-- The function `Number(s)` where it yields an integer from a decimal literal:
surrounding white space is ignored, the empty string is 0, an optionally
signed run of decimal digits is its value. `none` stands for every other
string: `NaN`, and also the literals with a fraction, an exponent or another
radix and `Infinity`, which are left outside the model. -/
def jsNumberInt (s : String) : Option Int :=
  let l := trimChars s.data
  let negative := l.head? = some '-'
  let ds := if l.head? = some '-' ∨ l.head? = some '+' then l.tail else l
  if l = [] then some 0
  else if ds ≠ [] ∧ (leadingDigits 10 ds).length = ds.length then
    some (if negative then -(digitsValue 10 (leadingDigits 10 ds) : Int)
      else (digitsValue 10 (leadingDigits 10 ds) : Int))
  else none

/-! ## Dates -/

/-- Day number, counted from 1 January 1970, of the first day of month
`monthIndex` (0 for January .. 11) of a year of the proleptic Gregorian
calendar. -/
def daysFromCivil (year monthIndex : Int) : Int :=
  let y := if monthIndex < 2 then year - 1 else year
  let mp := if monthIndex < 2 then monthIndex + 10 else monthIndex - 2
  let era := y / 400
  let yoe := y % 400
  let doy := (153 * mp + 2) / 5
  let doe := yoe * 365 + yoe / 4 - yoe / 100 + doy
  era * 146097 + doe - 719468

/-- The time value of `new Date(year, monthIndex, day)` in days: a year from 0
to 99 means 1900 + year, months and days outside their range carry over, and
a time beyond 100,000,000 days from the epoch is an invalid date (`none`).
The offset of the local time zone, which shifts every value alike or by an
hour, is left out. -/
def dateValue (year monthIndex day : Int) : Option Int :=
  let fullYear := if 0 ≤ year ∧ year ≤ 99 then 1900 + year else year
  let ym := fullYear + monthIndex / 12
  let mn := monthIndex % 12
  let t := daysFromCivil ym mn + day - 1
  if -100000000 ≤ t ∧ t ≤ 100000000 then some t else none

/-! ## Monthly progress (`app.js`, `loadMonthlyProgress`) -/

/-- An element of `completedInMonth`: `{ index, text, date, time }`; `text` is
`none` when `activities[idx]` is `undefined`. -/
structure MonthlyEntry where
  index : Nat
  text : Option String
  date : String
  time : String
  deriving DecidableEq, Repr

/-- The test of lines 299-303 on a stored date for the requested `year` and
`month`: the date is not empty and the second and third pieces of
`date.split('.')` are read by `parseInt` as `month` and `year`. -/
def dateInMonth (date : String) (year month : Int) : Bool :=
  if date = "" then false
  else
    let parts := jsSplit '.' date
    let activityMonth := parseInt parts[1]?
    let activityYear := parseInt parts[2]?
    decide (activityMonth = some month ∧ activityYear = some year)

/-- The loop of lines 296-311 over the keys of one student's progress map, in
enumeration order: the list `completedInMonth` before it is sorted. -/
def completedInMonth (progress : List (Nat × ProgressRecord)) (activities : List String)
    (year month : Int) : List MonthlyEntry :=
  progress.filterMap (fun p =>
    if dateInMonth p.2.date year month then
      some { index := p.1, text := activities[p.1]?, date := p.2.date, time := p.2.time }
    else none)

/-- The number that the comparator of lines 312-318 computes for one date:
`[day, month, year] = date.split('.').map(Number)` and then the time value
of `new Date(year, month - 1, day)`. `none` is `NaN`, or a piece outside
the model of `jsNumberInt`. -/
def sortKey (date : String) : Option Int :=
  match jsSplit '.' date with
  | day :: month :: year :: _ =>
    match jsNumberInt day, jsNumberInt month, jsNumberInt year with
    | some d, some m, some y => dateValue y (m - 1) d
    | _, _, _ => none
  | _ => none

/-- The call `completedInMonth.sort(...)` of lines 312-318. When every date has
a key the comparator is a consistent order and the result is the stable sort
by ascending key (insertion sort computes it). Otherwise a comparison yields
`NaN`, the order is left to the implementation, and the model gives `none`. -/
def sortCompletedInMonth (l : List MonthlyEntry) : Option (List MonthlyEntry) :=
  if l.all (fun e => (sortKey e.date).isSome) then
    some (l.insertionSort (fun a b => (sortKey a.date).getD 0 ≤ (sortKey b.date).getD 0))
  else none

/-! ## Double-precision arithmetic for the percentage -/

/-- Binary logarithm by halving, with `fuel` steps at most. -/
def log2Fuel : Nat → Nat → Nat
  | 0, _ => 0
  | fuel + 1, n => if n < 2 then 0 else log2Fuel fuel (n / 2) + 1

/-- The integer part of the binary logarithm of a positive number. -/
def ilog2 (n : Nat) : Nat := log2Fuel n n

/-- The natural number nearest to `n / d`, a tie going to the even one. -/
def roundHalfEven (n d : Nat) : Nat :=
  let q := n / d
  let r := n % d
  if 2 * r < d then q else if d < 2 * r then q + 1 else if q % 2 = 0 then q else q + 1

/-- A finite double that is not negative, as a fraction whose denominator is a
power of two. -/
structure Double where
  num : Nat
  den : Nat
  deriving DecidableEq, Repr

/-- The exponent `e` of the unit in the last place of the double nearest to
`n / d` (both positive): the one with `2^52 ≤ n / (d * 2^e) < 2^53`. -/
def ulpExponent (n d : Nat) : Int :=
  let e : Int := (ilog2 n : Int) - (ilog2 d : Int) - 52
  if n * 2 ^ (-e).toNat < 2 ^ 52 * (d * 2 ^ e.toNat) then e - 1 else e

/-- The double nearest to the positive rational `n / d`: IEEE 754 binary64,
round to nearest, ties to even (53 significant bits; the quotients and
products formed here lie far inside the normal range). -/
def roundDouble (n d : Nat) : Double :=
  let e := ulpExponent n d
  { num := roundHalfEven (n * 2 ^ (-e).toNat) (d * 2 ^ e.toNat) * 2 ^ e.toNat
    den := 2 ^ (-e).toNat }

/-- The quotient `a / b` of two array lengths (exact doubles), `b` positive. -/
def Double.ofDiv (a b : Nat) : Double :=
  if a = 0 then { num := 0, den := 1 } else roundDouble a b

/-- The product `x * k` of a double and a small positive integer. -/
def Double.mulNat (x : Double) (k : Nat) : Double :=
  if x.num * k = 0 then { num := 0, den := 1 } else roundDouble (x.num * k) x.den

/-- The function `Math.round`: the nearest integer, a tie going up. -/
def Double.round (x : Double) : Nat :=
  (2 * x.num + x.den) / (2 * x.den)

/-- The expression of line 323 (and 429):
`totalCount > 0 ? Math.round((completedCount / totalCount) * 100) : 0`. -/
def percentageOf (completedCount totalCount : Nat) : Nat :=
  if totalCount > 0 then
    Double.round (Double.mulNat (Double.ofDiv completedCount totalCount) 100)
  else 0

/-- A small state used to instantiate the theorems: two students, the first
one scheduled on Monday in the first slot, a plan 1 with three activities. -/
def sampleState : State :=
  { students :=
      [{ id := 1, name := "Ana", grade := "III", planType := "1" },
       { id := 2, name := "Bojan", grade := "IV", planType := "2" }]
    schedule :=
      [("monday", [[1], [], [], [], []]), ("tuesday", emptyDay), ("wednesday", emptyDay),
       ("thursday", emptyDay), ("friday", emptyDay)]
    planTemplates :=
      [("1", ["Say hello", "Count to ten", "Name colours"]), ("2", []), ("3", []), ("4", []),
       ("5", []), ("6", [])]
    studentProgress :=
      [(1, [(0, { completed := true, date := "05.03.2024", time := "08:00-08:20" }),
            (1, { completed := true, date := "10.04.2024", time := "" })]),
       (2, [])] }

/-! ## Monthly summary and progress report per student (`app.js`) -/

/-- What `loadMonthlyProgress` computes for one student (lines 294-323) apart
from the order of the list: `completedInMonth` in the order of the loop, the
two counts and the percentage. -/
structure MonthlySummary where
  completedInMonth : List MonthlyEntry
  totalCount : Nat
  completedCount : Nat
  percentage : Nat
  deriving DecidableEq, Repr

/-- The body of the loop of `loadMonthlyProgress` for one student: `progress`
is `studentProgress[student.id] || {}` and `activities` is
`planTemplates[student.planType]`; `none` when there is no such plan and
`activities.length` throws. The sort of lines 312-318 reorders the list and
changes neither its members nor its length. -/
def monthlySummary (s : State) (student : Student) (year month : Int) :
    Option MonthlySummary :=
  let progress := (Obj.get s.studentProgress student.id).getD []
  match Obj.get s.planTemplates student.planType with
  | none => none
  | some activities =>
    let completed := completedInMonth progress activities year month
    some
      { completedInMonth := completed
        totalCount := activities.length
        completedCount := completed.length
        percentage := percentageOf completed.length activities.length }

/-- The pieces that `generateProgressReport` appends to the report for one
student (lines 425-438), in order; `none` when the student's plan does not
exist. An index without an activity prints as "undefined". -/
def progressReportSection (s : State) (student : Student) : Option (List String) :=
  let progress := (Obj.get s.studentProgress student.id).getD []
  match Obj.get s.planTemplates student.planType with
  | none => none
  | some activities =>
    let completedCount := progress.length
    let totalCount := activities.length
    let percentage := percentageOf completedCount totalCount
    some
      ([student.grade ++ " - " ++ student.name ++ "\nЗавршени активности: "
          ++ toString completedCount ++ "/" ++ toString totalCount
          ++ " (" ++ toString percentage ++ "%)\n"]
        ++ (if completedCount > 0 then
              "Завршени активности:\n" ::
                progress.map (fun p =>
                  "  - " ++ (activities[p.1]?).getD "undefined" ++ " (" ++ p.2.date ++ " "
                    ++ p.2.time ++ ")\n")
            else [])
        ++ ["\n"])

/-- The text built by `generateProgressReport` (lines 418-441) for the current
`month` and `year`; `none` when it throws for some student. -/
def generateProgressReport (s : State) (month year : Nat) : Option String :=
  (s.students.mapM (progressReportSection s)).map (fun sections =>
    "Извештај за Напредок - Кабинет за слух, говор, глас, алтернатива и аугментативна комуникација\n\n"
      ++ "Месец: " ++ toString month ++ "/" ++ toString year ++ "\n\n"
      ++ String.join (sections.map String.join))

/-- The sample state after plan 1 shrank to one activity while the first
student keeps a record at index 1. -/
def staleState : State :=
  { sampleState with
    planTemplates := [("1", ["Say hello"]), ("2", []), ("3", []), ("4", []), ("5", []), ("6", [])]
    studentProgress :=
      [(1, [(0, { completed := true, date := "05.03.2024", time := "08:00-08:20" }),
            (1, { completed := true, date := "10.03.2024", time := "" })]),
       (2, [])] }

/-! ## Backend example: authentication middleware (`middleware/auth.js`) -/

/-- What the middleware does with a request: it sends a response with a status
and an error text and does not call `next`, or it sets `req.user` and calls
`next` without responding. -/
inductive AuthOutcome (Payload : Type) where
  | respond (status : Nat) (error : String)
  | next (user : Payload)

/-- The expression `authHeader && authHeader.split(' ')[1]` followed by the
test `!token` (lines 9-12): the token, or `none` when the expression is
`undefined` or the empty string. -/
def bearerToken (authHeader : Option String) : Option String :=
  match authHeader with
  | none => none
  | some header =>
    if header = "" then none
    else
      match (jsSplit ' ' header)[1]? with
      | none => none
      | some token => if token = "" then none else some token

/-- The function `authenticateToken` (lines 7-33): `authHeader` is
`req.headers['authorization']` and `verify` stands for
`jwt.verify(token, process.env.JWT_SECRET)`, which returns the payload or
throws an error of which only the `name` is read. -/
def authenticateToken {Payload : Type} (authHeader : Option String)
    (verify : String → Except String Payload) : AuthOutcome Payload :=
  match bearerToken authHeader with
  | none => .respond 401 "Access denied. No token provided."
  | some token =>
    match verify token with
    | .ok verified => .next verified
    | .error name =>
      if name = "TokenExpiredError" then .respond 401 "Token expired. Please login again."
      else .respond 403 "Invalid token."

/-! ## Backend example: validation of the plan type (`routes/plans.js`, `routes/students.js`) -/

/-- What `ToNumber` makes of a string, as far as the model follows it: an
integer for an optionally signed run of decimal digits between white space
(0 for a blank string), `NaN` for a string whose first character after the
white space can start no numeric literal, and `unmodelled` for the rest
(fractions, exponents, other radices, `Infinity`, and malformed literals). -/
inductive NumberRead where
  | int (n : Int)
  | nan
  | unmodelled
  deriving DecidableEq, Repr

/-- The conversion `ToNumber` of a string, see `NumberRead`. -/
def toNumberRead (s : String) : NumberRead :=
  match jsNumberInt s with
  | some n => .int n
  | none =>
    match (trimChars s.data).head? with
    | none => .unmodelled
    | some c =>
      if (48 ≤ c.toNat ∧ c.toNat ≤ 57) ∨ c = '+' ∨ c = '-' ∨ c = '.' ∨ c = 'I' then .unmodelled
      else .nan

/-- The test `planType < 1 || planType > 6` on a route parameter, a string that
both comparisons convert with `ToNumber`; a comparison with `NaN` is false.
`none` when the model does not follow the conversion. -/
def planTypeOutOfRange (planType : String) : Option Bool :=
  match toNumberRead planType with
  | .int n => some (decide (n < 1 ∨ n > 6))
  | .nan => some false
  | .unmodelled => none

/-- A response of a route handler: the status, and how many database queries
the handler issued before it. -/
structure RouteResult where
  status : Nat
  queries : Nat
  deriving DecidableEq, Repr

/-- The handler of `GET /api/plans/:planType` (`plans.js`, lines 13-34) for an
authenticated request; `queryFails` says whether `db.query` throws. -/
def getPlanRoute (planType : String) (queryFails : Bool) : Option RouteResult :=
  match planTypeOutOfRange planType with
  | none => none
  | some true => some { status := 400, queries := 0 }
  | some false =>
    some (if queryFails then { status := 500, queries := 1 } else { status := 200, queries := 1 })

/-- The handler of `DELETE /api/plans/:planType/clear` (`plans.js`, lines
161-179), with the same validation. -/
def clearPlanRoute (planType : String) (queryFails : Bool) : Option RouteResult :=
  match planTypeOutOfRange planType with
  | none => none
  | some true => some { status := 400, queries := 0 }
  | some false =>
    some (if queryFails then { status := 500, queries := 1 } else { status := 200, queries := 1 })

/-! ## Dates in the form DD.MM.YYYY (for the statement of the sort order) -/

/-- A decimal digit `0` .. `9`. -/
def isDecimalDigit (c : Char) : Bool :=
  decide (48 ≤ c.toNat ∧ c.toNat ≤ 57)

/-- The day, month and year of a date written as DD.MM.YYYY: two digits, a dot,
two digits, a dot and four digits; `none` for any other text. -/
def readDDMMYYYY (date : String) : Option (Nat × Nat × Nat) :=
  match date.data with
  | [d₁, d₂, '.', m₁, m₂, '.', y₁, y₂, y₃, y₄] =>
    if [d₁, d₂, m₁, m₂, y₁, y₂, y₃, y₄].all isDecimalDigit then
      some (digitsValue 10 ([d₁, d₂].map (fun c => c.toNat - 48)),
        digitsValue 10 ([m₁, m₂].map (fun c => c.toNat - 48)),
        digitsValue 10 ([y₁, y₂, y₃, y₄].map (fun c => c.toNat - 48)))
    else none
  | _ => none

/-- The first date, in the form DD.MM.YYYY, is on or before the second: the
order of the calendar, by year, then month, then day. -/
def onOrBefore (a b : String) : Prop :=
  match readDDMMYYYY a, readDDMMYYYY b with
  | some (d₁, m₁, y₁), some (d₂, m₂, y₂) =>
    y₁ < y₂ ∨ (y₁ = y₂ ∧ (m₁ < m₂ ∨ (m₁ = m₂ ∧ d₁ ≤ d₂)))
  | _, _ => False

/-- The spec's formula `round(100 * count / total)` in exact arithmetic, a half
rounding up as `Math.round` does, and 0 for an empty plan. -/
def exactPercentage (count total : Nat) : Nat :=
  if total > 0 then (200 * count + total) / (2 * total) else 0

/-- A state with one student, a plan of 40 activities and 23 of them completed
on 5 March 2024. -/
def fortyState : State :=
  { students := [{ id := 1, name := "Ana", grade := "III", planType := "1" }]
    schedule := emptySchedule
    planTemplates :=
      [("1", List.replicate 40 "Say hello"), ("2", []), ("3", []), ("4", []), ("5", []),
       ("6", [])]
    studentProgress :=
      [(1, (List.range 23).map (fun i =>
        (i, { completed := true, date := "05.03.2024", time := "" })))] }

/-! ## Schedule report and grid (`app.js`, `script.js`) -/

/-- An entry of the constant `timeSlots` (`script.js`, lines 17-23). -/
structure TimeSlot where
  label : String
  early : String
  late : String
  deriving DecidableEq, Repr

/-- The constant `timeSlots` (`script.js`, lines 17-23). -/
def timeSlots : List TimeSlot :=
  [{ label := "I", early := "08:00 - 08:20", late := "08:20 - 08:40" },
   { label := "II", early := "08:45 - 09:05", late := "09:05 - 09:25" },
   { label := "III", early := "09:40 - 10:00", late := "10:00 - 10:20" },
   { label := "IV", early := "10:25 - 10:45", late := "10:45 - 11:05" },
   { label := "V", early := "11:10 - 11:30", late := "11:30 - 11:50" }]

/-- The constant `days` (`script.js`, line 25). -/
def days : List String := ["Пон", "Вто", "Сре", "Чет", "Пет"]

/-- The constant `daysEng` (`script.js`, line 26). -/
def daysEng : List String := ["monday", "tuesday", "wednesday", "thursday", "friday"]

/-- The expression `students.find(s => s.id === sid)`: the first student of the
roster with the id, `none` for `undefined`. -/
def findStudent (s : State) (sid : Int) : Option Student :=
  s.students.find? (fun student => student.id == sid)

/-- The slots that `renderSchedule` appends to one cell of the grid
(`script.js`, lines 171-189), in order: for every id of the cell that
`students.find` resolves, the value of `dataset.studentId` and the text of
the slot. -/
def renderCell (s : State) (studentIds : List Int) : List (Int × String) :=
  studentIds.filterMap (fun sid =>
    (findStudent s sid).map (fun student => (sid, student.grade ++ " - " ++ student.name)))

/-- The pieces that `generateScheduleReport` appends for one time slot
(`app.js`, lines 402-410): nothing for an empty cell, else the line of the
time slot and one line for every id that `students.find` resolves. -/
def slotReport (s : State) (time : TimeSlot) (studentIds : List Int) : List String :=
  if studentIds.length > 0 then
    (time.label ++ " (" ++ time.early ++ " / " ++ time.late ++ "):\n") ::
      studentIds.filterMap (fun sid =>
        (findStudent s sid).map (fun student =>
          "  - " ++ student.grade ++ " - " ++ student.name ++ "\n"))
  else []

/-- The cells `schedule[day][timeIdx]` that the loop of line 401 reads for one
day, one for each entry of `timeSlots`; `none` when one of them does not
exist and reading its `length` throws. -/
def dayCells (s : State) (day : String) : Option (List (List Int)) :=
  (List.range timeSlots.length).mapM (fun timeIdx => getCell s day timeIdx)

/-- The pieces that `generateScheduleReport` appends for one day (lines
399-413): the heading, the pieces of the five time slots, the line
"Нема закажани сесии" when `hasSessions` stayed false, and an empty line. -/
def dayReport (s : State) (dayIdx : Nat) (day : String) : Option (List String) :=
  (dayCells s day).map (fun cells =>
    [(days[dayIdx]?).getD "undefined" ++ "\n" ++ String.mk (List.replicate 30 '=') ++ "\n"]
      ++ ((timeSlots.zip cells).map (fun p => slotReport s p.1 p.2)).flatten
      ++ (if cells.any (fun studentIds => decide (studentIds.length > 0)) then []
          else ["Нема закажани сесии\n"])
      ++ ["\n"])

/-- The text built by `generateScheduleReport` (`app.js`, lines 396-416);
`none` when it throws. -/
def generateScheduleReport (s : State) : Option String :=
  (daysEng.enum.mapM (fun p => dayReport s p.1 p.2)).map (fun sections =>
    "Неделен Распоред - Кабинет за слух, говор, глас, алтернатива и аугментативна комуникација\n\n"
      ++ String.join (sections.map String.join))

/-- The sample state with an id of no student, 99, in the cell of Monday's
first slot, after the id of the first student. -/
def orphanState : State :=
  { sampleState with
    schedule :=
      [("monday", [[1, 99], [], [], [], []]), ("tuesday", emptyDay), ("wednesday", emptyDay),
       ("thursday", emptyDay), ("friday", emptyDay)] }


/-! ## Overall statistics of a student (`app.js`, `routes/progress.js`) -/

/-- The three numbers that `generateProgressReport` computes for one student
(`app.js`, lines 427-429). -/
structure OverallSummary where
  completedCount : Nat
  totalCount : Nat
  percentage : Nat
  deriving DecidableEq, Repr

/-- Lines 425-429 of `generateProgressReport` for one student: `completedCount`
is `Object.keys(progress).length` and `totalCount` is `activities.length`;
`none` when there is no such plan and `activities.length` throws. -/
def overallSummary (s : State) (student : Student) : Option OverallSummary :=
  let progress := (Obj.get s.studentProgress student.id).getD []
  match Obj.get s.planTemplates student.planType with
  | none => none
  | some activities =>
    some
      { completedCount := progress.length
        totalCount := activities.length
        percentage := percentageOf progress.length activities.length }

/-- A row of the table `students`, with the columns that the statistics route
names in its queries. -/
structure StudentRow where
  id : Int
  userId : Int
  planType : Int
  deriving DecidableEq, Repr

/-- A row of the table `plan_templates`, one activity of a plan of a user, with
the columns that the statistics route names. -/
structure PlanTemplateRow where
  planType : Int
  userId : Int
  deriving DecidableEq, Repr

/-- A row of the table `student_progress`, with the columns `student_id`,
`activity_index`, `completed` and `completion_date`; the upsert of
`POST /api/progress` (lines 70-85) keeps one row for each pair of student and
activity index and stores `completed || false`. -/
structure ProgressRow where
  studentId : Int
  activityIndex : Int
  completed : Bool
  completionDate : Option String
  deriving DecidableEq, Repr

/-- The three tables that the statistics route queries. -/
structure Database where
  students : List StudentRow
  planTemplates : List PlanTemplateRow
  studentProgress : List ProgressRow
  deriving DecidableEq, Repr

/-- The body of the response of `GET /api/progress/stats/:studentId` with
status 200 (lines 213-219). -/
structure ProgressStats where
  studentId : Int
  totalActivities : Nat
  completedActivities : Nat
  percentage : Nat
  remaining : Int
  deriving DecidableEq, Repr

/-- The handler of `GET /api/progress/stats/:studentId` (`progress.js`, lines
181-224) for the authenticated user `userId`; `queryFails` says whether
`db.query` throws. The three queries are read by their text: the rows of
`students` with the id and the user, then `COUNT(*)` of the rows of
`plan_templates` with the plan type of the first such row and the user, and
`COUNT(*)` of the rows of `student_progress` with the student id and
`completed = true`; `parseInt` reads each count back as a number. An error
is the status and the text of the response. -/
def getStatsRoute (db : Database) (userId studentId : Int) (queryFails : Bool) :
    Except (Nat × String) ProgressStats :=
  if queryFails then .error (500, "Failed to fetch progress stats")
  else
    match db.students.filter (fun row => row.id == studentId && row.userId == userId) with
    | [] => .error (404, "Student not found")
    | row :: _ =>
      let total :=
        (db.planTemplates.filter (fun template =>
          template.planType == row.planType && template.userId == userId)).length
      let completed :=
        (db.studentProgress.filter (fun progress =>
          progress.studentId == studentId && progress.completed)).length
      .ok
        { studentId := studentId
          totalActivities := total
          completedActivities := completed
          percentage := percentageOf completed total
          remaining := (total : Int) - (completed : Int) }

/-- A database with one student of user 1 on plan 1, two activities in the
plan, and two progress rows of the student, the second one not completed. -/
def sampleDatabase : Database :=
  { students := [{ id := 1, userId := 1, planType := 1 }]
    planTemplates := [{ planType := 1, userId := 1 }, { planType := 1, userId := 1 }]
    studentProgress :=
      [{ studentId := 1, activityIndex := 0, completed := true,
         completionDate := some "05.03.2024" },
       { studentId := 1, activityIndex := 1, completed := false, completionDate := none }] }


/-! ## Theorems -/

/-! ### Strings -/

theorem splitChars_ne_nil (sep : Char) (l : List Char) : splitChars sep l ≠ [] := by
  cases l with
  | nil => simp [splitChars]
  | cons c cs =>
    unfold splitChars
    split
    · simp
    · split <;> simp

theorem trimChars_nil : trimChars [] = [] := by
  simp [trimChars]

theorem trimChars_cons_ws (c : Char) (l : List Char) (hc : isJSWhitespace c = true) :
    trimChars (c :: l) = trimChars l := by
  simp [trimChars, List.dropWhile, hc]

theorem dropWhile_ws_snoc (c : Char) (hc : isJSWhitespace c = true) (l : List Char) :
    (l ++ [c]).dropWhile isJSWhitespace =
      if l.dropWhile isJSWhitespace = [] then [] else l.dropWhile isJSWhitespace ++ [c] := by
  induction l with
  | nil => simp [List.dropWhile, hc]
  | cons d l ih =>
    by_cases hd : isJSWhitespace d = true
    · simp [List.dropWhile, hd, ih]
    · simp [List.dropWhile, hd]

theorem trimChars_snoc_ws (c : Char) (l : List Char) (hc : isJSWhitespace c = true) :
    trimChars (l ++ [c]) = trimChars l := by
  unfold trimChars
  rw [dropWhile_ws_snoc c hc]
  split
  · next h => simp [h]
  · simp [List.dropWhile, hc]

theorem keptPieces_cons_ws (c : Char) (hc : isJSWhitespace c = true) (l : List Char) :
    keptPieces (c :: l) = keptPieces l := by
  have hne := splitChars_ne_nil '\n' l
  unfold keptPieces
  by_cases hsep : c = '\n'
  · simp [splitChars, hsep, trimChars_nil]
  · cases h : splitChars '\n' l with
    | nil => exact absurd h hne
    | cons piece pieces => simp [splitChars, hsep, h, trimChars_cons_ws c piece hc]

theorem splitChars_snoc (sep c : Char) (l : List Char) :
    splitChars sep (l ++ [c]) =
      if c = sep then splitChars sep l ++ [[]] else snocLast c (splitChars sep l) := by
  induction l with
  | nil =>
    by_cases hc : c = sep <;> simp [splitChars, snocLast, hc]
  | cons d l ih =>
    have hne := splitChars_ne_nil sep l
    cases h : splitChars sep l with
    | nil => exact absurd h hne
    | cons piece pieces =>
      rw [h] at ih
      by_cases hd : d = sep <;> by_cases hc : c = sep
      · simp [splitChars, hd, hc, h] at ih ⊢
        simpa [hc] using ih
      · simp [splitChars, hd, hc, h, snocLast] at ih ⊢
        simpa [hc] using ih
      · simp [splitChars, hd, hc, h] at ih ⊢
        simp [ih]
      · simp [splitChars, hd, hc, h] at ih ⊢
        rw [ih]
        cases pieces <;> simp [snocLast]

theorem filter_map_trim_snocLast (c : Char) (hc : isJSWhitespace c = true)
    (ps : List (List Char)) :
    ((snocLast c ps).map trimChars).filter (fun a => decide (a ≠ [])) =
      (ps.map trimChars).filter (fun a => decide (a ≠ [])) := by
  induction ps with
  | nil =>
    have h : trimChars [c] = [] := by
      have := trimChars_cons_ws c [] hc
      simpa [trimChars_nil] using this
    simp [snocLast, h]
  | cons p ps ih =>
    cases ps with
    | nil => simp [snocLast, trimChars_snoc_ws c p hc]
    | cons q qs =>
      simp only [snocLast, List.map_cons, List.filter_cons] at ih ⊢
      rw [ih]

theorem keptPieces_snoc_ws (c : Char) (hc : isJSWhitespace c = true) (l : List Char) :
    keptPieces (l ++ [c]) = keptPieces l := by
  unfold keptPieces
  rw [splitChars_snoc]
  split
  · simp [trimChars_nil]
  · exact filter_map_trim_snocLast c hc _

theorem keptPieces_ws_append (w l : List Char) (hw : ∀ c ∈ w, isJSWhitespace c = true) :
    keptPieces (w ++ l) = keptPieces l := by
  induction w with
  | nil => rfl
  | cons c w ih =>
    rw [List.cons_append, keptPieces_cons_ws c (hw c (List.mem_cons_self _ _))]
    exact ih (fun d hd => hw d (List.mem_cons_of_mem _ hd))

theorem keptPieces_append_ws (w : List Char) (hw : ∀ c ∈ w, isJSWhitespace c = true) :
    ∀ l : List Char, keptPieces (l ++ w) = keptPieces l := by
  induction w with
  | nil => intro l; simp
  | cons c w ih =>
    intro l
    have h1 : l ++ c :: w = (l ++ [c]) ++ w := by simp
    rw [h1, ih (fun d hd => hw d (List.mem_cons_of_mem _ hd)) (l ++ [c])]
    exact keptPieces_snoc_ws c (hw c (List.mem_cons_self _ _)) l

/-- Trimming the whole text first does not change the kept pieces. -/
theorem keptPieces_trimChars (l : List Char) : keptPieces (trimChars l) = keptPieces l := by
  have h1 : l = l.takeWhile isJSWhitespace ++ l.dropWhile isJSWhitespace :=
    (List.takeWhile_append_dropWhile _ _).symm
  set m := l.dropWhile isJSWhitespace with hm
  have h2 : m = trimChars l ++ (m.reverse.takeWhile isJSWhitespace).reverse := by
    have := List.takeWhile_append_dropWhile isJSWhitespace m.reverse
    have h3 := congrArg List.reverse this
    simp only [List.reverse_append, List.reverse_reverse] at h3
    rw [← h3]
    simp [trimChars, hm]
  have e1 : keptPieces l = keptPieces m := by
    conv_lhs => rw [h1]
    exact keptPieces_ws_append _ _ (fun c hc => List.mem_takeWhile_imp hc)
  have e2 : keptPieces m = keptPieces (trimChars l) := by
    conv_lhs => rw [h2]
    refine keptPieces_append_ws _ ?_ _
    intro c hc
    exact List.mem_takeWhile_imp (List.mem_reverse.mp hc)
  rw [e1, e2]

theorem head_dropWhile_ws (l : List Char) (c : Char)
    (h : (l.dropWhile isJSWhitespace).head? = some c) : isJSWhitespace c = false := by
  induction l with
  | nil => simp at h
  | cons d l ih =>
    by_cases hd : isJSWhitespace d = true
    · simp [List.dropWhile, hd] at h
      exact ih h
    · simp [List.dropWhile, hd] at h
      subst h
      simpa using hd

theorem dropWhile_eq_trimChars_append (l : List Char) :
    l.dropWhile isJSWhitespace =
      trimChars l ++ ((l.dropWhile isJSWhitespace).reverse.takeWhile isJSWhitespace).reverse := by
  have := List.takeWhile_append_dropWhile isJSWhitespace (l.dropWhile isJSWhitespace).reverse
  have h3 := congrArg List.reverse this
  simp only [List.reverse_append, List.reverse_reverse] at h3
  rw [← h3]
  simp [trimChars]

/-- A trimmed string does not start with white space. -/
theorem trimChars_head (l : List Char) (c : Char) (h : (trimChars l).head? = some c) :
    isJSWhitespace c = false := by
  apply head_dropWhile_ws l c
  rw [dropWhile_eq_trimChars_append l]
  cases ht : trimChars l with
  | nil => rw [ht] at h; simp at h
  | cons d rest =>
    rw [ht] at h
    simpa using h

/-- A trimmed string does not end with white space. -/
theorem trimChars_getLast (l : List Char) (c : Char) (h : (trimChars l).getLast? = some c) :
    isJSWhitespace c = false := by
  unfold trimChars at h
  rw [List.getLast?_reverse] at h
  exact head_dropWhile_ws _ c h

theorem parseActivities_eq (t : String) :
    parseActivities t = (keptPieces t.data).map String.mk := by
  unfold parseActivities keptPieces jsSplit
  rw [List.map_map, List.filter_map, List.filter_map, List.map_map]
  congr 1
  apply List.filter_congr
  intro p _
  show decide ((String.mk (trimChars p)).length > 0) = decide (trimChars p ≠ [])
  generalize trimChars p = q
  cases q <;> simp [String.length]

theorem trimmedLines_eq (t : String) :
    trimmedLines t = (keptPieces t.data).map String.mk := by
  unfold trimmedLines keptPieces jsSplit
  rw [List.map_map, List.filter_map, List.filter_map, List.map_map]
  congr 1
  apply List.filter_congr
  intro p _
  simp [jsTrim, String.ext_iff]

/-- The code trims the whole text before splitting it; the stored list is the
same as for the text as typed. -/
theorem parseActivities_jsTrim (t : String) : parseActivities (jsTrim t) = trimmedLines t := by
  rw [parseActivities_eq, trimmedLines_eq]
  simp [jsTrim, keptPieces_trimChars]

theorem mem_trimmedLines_clean (t a : String) (ha : a ∈ trimmedLines t) :
    a ≠ "" ∧ (∀ c, a.data.head? = some c → isJSWhitespace c = false) ∧
      (∀ c, a.data.getLast? = some c → isJSWhitespace c = false) := by
  unfold trimmedLines at ha
  rw [List.mem_filter, List.mem_map] at ha
  obtain ⟨⟨x, _, rfl⟩, hne⟩ := ha
  refine ⟨by simpa using hne, ?_, ?_⟩
  · intro c hc
    exact trimChars_head x.data c hc
  · intro c hc
    exact trimChars_getLast x.data c hc

/-! ### Association lists -/

theorem Obj.get_set_self {κ α : Type} [DecidableEq κ] (o : List (κ × α)) (k : κ) (v : α) :
    Obj.get (Obj.set o k v) k = some v := by
  induction o with
  | nil => simp [Obj.set, Obj.get]
  | cons p o ih =>
    obtain ⟨k', v'⟩ := p
    by_cases h : k' = k
    · simp [Obj.set, Obj.get, h]
    · simp [Obj.set, Obj.get, h, ih]

theorem Obj.get_set_other {κ α : Type} [DecidableEq κ] (o : List (κ × α)) (k k₂ : κ) (v : α)
    (hk : k₂ ≠ k) : Obj.get (Obj.set o k v) k₂ = Obj.get o k₂ := by
  induction o with
  | nil => simp [Obj.set, Obj.get, Ne.symm hk]
  | cons p o ih =>
    obtain ⟨k', v'⟩ := p
    by_cases h : k' = k
    · subst h
      simp [Obj.set, Obj.get, Ne.symm hk]
    · by_cases h2 : k' = k₂
      · subst h2
        simp [Obj.set, Obj.get, h]
      · simp [Obj.set, Obj.get, h, h2, ih]

/-! ### Plan replacement -/

/-- C3, as amended: for a plan number in 1..6, `savePlanEdit` with any text and
`createPlan` with any text that is not blank store exactly the lines of the
input, each trimmed, the blank and white-space-only ones dropped, in order
(the lines "a", "", "  b  " give ["a", "b"]); `createPlan` with a blank text
is rejected and leaves the state as it was; every stored entry is non-empty
and neither starts nor ends with white space. -/
theorem replacePlan_stores_trimmedLines (s : State) (n : Int) (h1 : 1 ≤ n) (h6 : n ≤ 6)
    (text : String) :
    Obj.get (savePlanEdit s (some n) text).1.planTemplates (toString n)
        = some (trimmedLines text) ∧
      (jsTrim text ≠ "" →
        Obj.get (createPlan s (toString n) text).1.planTemplates (toString n)
          = some (trimmedLines text)) ∧
      (jsTrim text = "" → (createPlan s (toString n) text).1 = s) ∧
      trimmedLines "a\n\n  b  " = ["a", "b"] ∧
      (∀ a ∈ trimmedLines text, a ≠ "" ∧
        (∀ c, a.data.head? = some c → isJSWhitespace c = false) ∧
        (∀ c, a.data.getLast? = some c → isJSWhitespace c = false)) := by
  have hn : n ≠ 0 := by omega
  refine ⟨?_, ?_, ?_, by decide, fun a ha => mem_trimmedLines_clean text a ha⟩
  · simp only [savePlanEdit, hn, if_false]
    rw [parseActivities_jsTrim]
    exact Obj.get_set_self _ _ _
  · intro hne
    simp only [createPlan, hne, if_false]
    rw [parseActivities_jsTrim]
    exact Obj.get_set_self _ _ _
  · intro he
    simp only [createPlan, he, if_true]

theorem replacePlan_stores_trimmedLines_witness :
    (1 : Int) ≤ 2 ∧ (2 : Int) ≤ 6 ∧
      (Obj.get (savePlanEdit initialState (some 2) "a\n\n  b  ").1.planTemplates
          (toString (2 : Int)) = some (trimmedLines "a\n\n  b  ") ∧
        (jsTrim "a\n\n  b  " ≠ "" →
          Obj.get (createPlan initialState (toString (2 : Int)) "a\n\n  b  ").1.planTemplates
            (toString (2 : Int)) = some (trimmedLines "a\n\n  b  ")) ∧
        (jsTrim "a\n\n  b  " = "" →
          (createPlan initialState (toString (2 : Int)) "a\n\n  b  ").1 = initialState) ∧
        trimmedLines "a\n\n  b  " = ["a", "b"] ∧
        (∀ a ∈ trimmedLines "a\n\n  b  ", a ≠ "" ∧
          (∀ c, a.data.head? = some c → isJSWhitespace c = false) ∧
          (∀ c, a.data.getLast? = some c → isJSWhitespace c = false))) :=
  ⟨by decide, by decide,
    replacePlan_stores_trimmedLines initialState 2 (by decide) (by decide) "a\n\n  b  "⟩

/-- C3 as stated fails for `createPlan`: a blank text does not replace plan 1
by the (empty) list of the lines of the input; the plan keeps its activities. -/
theorem createPlan_blank_keeps_plan :
    Obj.get (createPlan
        { initialState with
          planTemplates := [("1", ["x"]), ("2", []), ("3", []), ("4", []), ("5", []), ("6", [])] }
        "1" "  ").1.planTemplates "1" = some ["x"] ∧
      Obj.get (createPlan
        { initialState with
          planTemplates := [("1", ["x"]), ("2", []), ("3", []), ("4", []), ("5", []), ("6", [])] }
        "1" "  ").1.planTemplates "1" ≠ some (trimmedLines "  ") := by
  decide

theorem Obj.get_delete_self {κ α : Type} [DecidableEq κ] (o : List (κ × α)) (k : κ) :
    Obj.get (Obj.delete o k) k = none := by
  induction o with
  | nil => simp [Obj.delete, Obj.get]
  | cons p o ih =>
    obtain ⟨k', v'⟩ := p
    by_cases h : k' = k
    · simpa [Obj.delete, List.filter, h] using ih
    · simp only [Obj.delete] at ih
      simpa [Obj.delete, List.filter, h, Obj.get] using ih

theorem Obj.delete_delete {κ α : Type} [DecidableEq κ] (o : List (κ × α)) (k : κ) :
    Obj.delete (Obj.delete o k) k = Obj.delete o k := by
  simp [Obj.delete, List.filter_filter]

theorem Obj.mem_of_get {κ α : Type} [DecidableEq κ] (o : List (κ × α)) (k : κ) (v : α)
    (h : Obj.get o k = some v) : (k, v) ∈ o := by
  induction o with
  | nil => simp [Obj.get] at h
  | cons p o ih =>
    obtain ⟨k', v'⟩ := p
    by_cases hk : k' = k
    · simp [Obj.get, hk] at h
      simp [hk, h]
    · simp [Obj.get, hk] at h
      exact List.mem_cons_of_mem _ (ih h)

theorem Obj.set_of_get {κ α : Type} [DecidableEq κ] (o : List (κ × α)) (k : κ) (v : α)
    (h : Obj.get o k = some v) : Obj.set o k v = o := by
  induction o with
  | nil => simp [Obj.get] at h
  | cons p o ih =>
    obtain ⟨k', v'⟩ := p
    by_cases hk : k' = k
    · simp [Obj.get, hk] at h
      simp [Obj.set, hk, h]
    · simp [Obj.get, hk] at h
      simp [Obj.set, hk, ih h]

theorem Obj.set_set {κ α : Type} [DecidableEq κ] (o : List (κ × α)) (k : κ) (v w : α) :
    Obj.set (Obj.set o k v) k w = Obj.set o k w := by
  induction o with
  | nil => simp [Obj.set]
  | cons p o ih =>
    obtain ⟨k', v'⟩ := p
    by_cases hk : k' = k
    · simp [Obj.set, hk]
    · simp [Obj.set, hk, ih]

/-! ### Deleting a student -/

/-- C2: after a confirmed `deleteStudent(id)` the id occurs in no slot of any
day of the schedule (so no cell read returns it), the roster holds no student
with that id, and `studentProgress` has no entry for the id. -/
theorem deleteStudent_purges (s : State) (id : Int) :
    (∀ day slots, (day, slots) ∈ (deleteStudent s id true).schedule →
        ∀ slot ∈ slots, id ∉ slot) ∧
      (∀ day timeIdx cell, getCell (deleteStudent s id true) day timeIdx = some cell →
        id ∉ cell) ∧
      (∀ st ∈ (deleteStudent s id true).students, st.id ≠ id) ∧
      Obj.get (deleteStudent s id true).studentProgress id = none := by
  have hmem : ∀ day slots, (day, slots) ∈ (deleteStudent s id true).schedule →
      ∀ slot ∈ slots, id ∉ slot := by
    intro day slots h slot hslot
    simp only [deleteStudent, if_true, List.mem_map] at h
    obtain ⟨p, _, hp⟩ := h
    have h2 : slots = p.2.map (fun slot => slot.filter (fun sid => decide (sid ≠ id))) :=
      (congrArg Prod.snd hp).symm
    rw [h2, List.mem_map] at hslot
    obtain ⟨old, _, rfl⟩ := hslot
    simp [List.mem_filter]
  refine ⟨hmem, ?_, ?_, ?_⟩
  · intro day timeIdx cell h
    unfold getCell at h
    cases hg : Obj.get (deleteStudent s id true).schedule day with
    | none => simp [hg] at h
    | some slots =>
      simp only [hg] at h
      exact hmem day slots (Obj.mem_of_get _ _ _ hg) cell (List.getElem?_mem h)
  · intro st hst
    simp only [deleteStudent, if_true, List.mem_filter] at hst
    simpa using hst.2
  · simp only [deleteStudent, if_true]
    exact Obj.get_delete_self _ _

/-! ### Toggling a progress record -/

theorem toggle_false_studentProgress (s : State) (sid : Int) (i : Nat) (today : String) :
    ∃ m, Obj.get (toggleActivityProgress s sid i false today).studentProgress sid = some m ∧
      Obj.get m i = none := by
  refine ⟨Obj.delete ((Obj.get (match Obj.get s.studentProgress sid with
        | none => Obj.set s.studentProgress sid []
        | some _ => s.studentProgress) sid).getD []) i, ?_, ?_⟩
  · simp only [toggleActivityProgress, Bool.false_eq_true, if_false]
    exact Obj.get_set_self _ _ _
  · exact Obj.get_delete_self _ _

theorem toggle_false_of_absent (s : State) (sid : Int) (i : Nat) (today : String)
    (m : List (Nat × ProgressRecord)) (hm : Obj.get s.studentProgress sid = some m)
    (hi : Obj.delete m i = m) : toggleActivityProgress s sid i false today = s := by
  simp only [toggleActivityProgress, hm, Option.getD_some, Bool.false_eq_true, if_false, hi]
  rw [Obj.set_of_get _ _ _ hm]

/-- C4: `toggleActivityProgress(sid, i, true)` followed by
`toggleActivityProgress(sid, i, false)` leaves the student's progress map
without a record for index `i`; setting `false` once more changes nothing,
from that state and from any other state that a `false` call produced; and
after a `false` call, from any state, there is no record at index `i` (so
none with `completed = false`). -/
theorem toggle_true_then_false (s : State) (sid : Int) (i : Nat) (d₁ d₂ d₃ : String) :
    (∃ m, Obj.get (toggleActivityProgress (toggleActivityProgress s sid i true d₁)
          sid i false d₂).studentProgress sid = some m ∧ Obj.get m i = none) ∧
      toggleActivityProgress (toggleActivityProgress (toggleActivityProgress s sid i true d₁)
          sid i false d₂) sid i false d₃
        = toggleActivityProgress (toggleActivityProgress s sid i true d₁) sid i false d₂ ∧
      toggleActivityProgress (toggleActivityProgress s sid i false d₂) sid i false d₃
        = toggleActivityProgress s sid i false d₂ ∧
      (∃ m, Obj.get (toggleActivityProgress s sid i false d₂).studentProgress sid = some m ∧
        ∀ r, Obj.get m i ≠ some r) := by
  have key : ∀ (t : State) (d e : String),
      toggleActivityProgress (toggleActivityProgress t sid i false d) sid i false e
        = toggleActivityProgress t sid i false d := by
    intro t d e
    apply toggle_false_of_absent _ sid i e
      (Obj.delete ((Obj.get (match Obj.get t.studentProgress sid with
        | none => Obj.set t.studentProgress sid []
        | some _ => t.studentProgress) sid).getD []) i)
    · simp only [toggleActivityProgress, Bool.false_eq_true, if_false]
      exact Obj.get_set_self _ _ _
    · exact Obj.delete_delete _ _
  refine ⟨toggle_false_studentProgress _ sid i d₂, key _ d₂ d₃, key s d₂ d₃, ?_⟩
  obtain ⟨m, hm, hi⟩ := toggle_false_studentProgress s sid i d₂
  exact ⟨m, hm, fun r hr => by rw [hi] at hr; cases hr⟩

/-! ### Assigning students to a slot -/

theorem getCell_assign (s : State) (day : String) (timeIdx : Nat) (ids : List Int)
    (slots : List (List Int)) (d : String) (i : Nat) :
    getCell { s with schedule := Obj.set s.schedule day (slots.set timeIdx ids) } d i =
      if d = day then (slots.set timeIdx ids)[i]? else getCell s d i := by
  unfold getCell
  by_cases hd : d = day
  · subst hd
    simp [Obj.get_set_self]
  · simp [Obj.get_set_other _ _ _ _ hd, hd]

/-- C5: for a cell of the grid (an existing day and a slot index within the
day's array), `assignStudentsToSlot` succeeds and replaces the whole cell:
the cell then reads exactly the assigned ids in the order given, whatever it
held before (an earlier assignment of any other list to the same cell leaves
no trace), every other cell and the other three collections are unchanged,
and assigning the same list once more gives the same state. -/
theorem assignStudentsToSlot_replaces (s : State) (day : String) (timeIdx : Nat)
    (slots : List (List Int)) (hday : Obj.get s.schedule day = some slots)
    (hidx : timeIdx < slots.length) (ids ids₀ : List Int) :
    ∃ s₁ s₀, assignStudentsToSlot s (some (day, timeIdx)) ids = some s₁ ∧
      getCell s₁ day timeIdx = some ids ∧
      (∀ d i, (d, i) ≠ (day, timeIdx) → getCell s₁ d i = getCell s d i) ∧
      s₁.students = s.students ∧ s₁.planTemplates = s.planTemplates ∧
      s₁.studentProgress = s.studentProgress ∧
      assignStudentsToSlot s₁ (some (day, timeIdx)) ids = some s₁ ∧
      assignStudentsToSlot s (some (day, timeIdx)) ids₀ = some s₀ ∧
      assignStudentsToSlot s₀ (some (day, timeIdx)) ids = some s₁ := by
  have hlen : ∀ l : List Int, timeIdx < (slots.set timeIdx l).length := by
    intro l; simpa using hidx
  have hassign : ∀ l : List Int, assignStudentsToSlot s (some (day, timeIdx)) l =
      some { s with schedule := Obj.set s.schedule day (slots.set timeIdx l) } := by
    intro l
    simp [assignStudentsToSlot, hday, hidx]
  have hagain : ∀ l : List Int, assignStudentsToSlot
      { s with schedule := Obj.set s.schedule day (slots.set timeIdx l) }
      (some (day, timeIdx)) ids =
      some { s with schedule := Obj.set s.schedule day (slots.set timeIdx ids) } := by
    intro l
    simp [assignStudentsToSlot, Obj.get_set_self, hidx, Obj.set_set, List.set_set]
  refine ⟨_, _, hassign ids, ?_, ?_, rfl, rfl, rfl, hagain ids, hassign ids₀, hagain ids₀⟩
  · rw [getCell_assign]
    simp [hidx]
  · intro d i hne
    rw [getCell_assign]
    by_cases hd : d = day
    · subst hd
      have hi : timeIdx ≠ i := by
        intro h
        exact hne (by rw [h])
      simp [getCell, hday, List.getElem?_set_ne hi]
    · simp [hd]

theorem assignStudentsToSlot_replaces_witness :
    Obj.get initialState.schedule "tuesday" = some emptyDay ∧ 3 < emptyDay.length ∧
      ∃ s₁ s₀, assignStudentsToSlot initialState (some ("tuesday", 3)) [1, 2] = some s₁ ∧
        getCell s₁ "tuesday" 3 = some [1, 2] ∧
        (∀ d i, (d, i) ≠ ("tuesday", 3) → getCell s₁ d i = getCell initialState d i) ∧
        s₁.students = initialState.students ∧
        s₁.planTemplates = initialState.planTemplates ∧
        s₁.studentProgress = initialState.studentProgress ∧
        assignStudentsToSlot s₁ (some ("tuesday", 3)) [1, 2] = some s₁ ∧
        assignStudentsToSlot initialState (some ("tuesday", 3)) [] = some s₀ ∧
        assignStudentsToSlot s₀ (some ("tuesday", 3)) [1, 2] = some s₁ :=
  ⟨by decide, by decide,
    assignStudentsToSlot_replaces initialState "tuesday" 3 emptyDay (by decide) (by decide)
      [1, 2] []⟩

/-! ### Bulk import -/

theorem extractActivities_eq_nil_iff (jsonData : List (List JSVal)) :
    extractActivities jsonData = [] ↔
      ∀ row ∈ jsonData, ∀ cell, row[1]? = some (JSVal.str cell) → cell = "" := by
  unfold extractActivities
  rw [List.filterMap_eq_nil_iff]
  constructor
  · intro h row hrow cell hcell
    have := h row hrow
    rw [hcell] at this
    by_contra hne
    simp [hne] at this
  · intro h row hrow
    split
    · next cell hcell => simp [h row hrow cell hcell]
    · rfl

/-- C9, failing input: a row whose column 1 is a white-space-only string passes
the test of the row loop (`row[1]` is a non-empty string) and contributes its
trimmed value, the empty string, which is then stored in the plan; the sibling
`createPlan` trims before it tests and keeps no such line. The rows of the
claim's example give the two activities stated. -/
theorem extractActivities_blank_cell :
    extractActivities [[JSVal.str "x", JSVal.str "  "]] = [""] ∧
      Obj.get (uploadPlanFile initialState "1"
        (some (.ok [[JSVal.str "x", JSVal.str "  "]]))).1.planTemplates "1" = some [""] ∧
      parseActivities "  " = [] ∧
      extractActivities [[JSVal.str "x", JSVal.str "Say hello"], [JSVal.str "y", JSVal.str ""],
        [JSVal.str "z", JSVal.str "Count to ten"]] = ["Say hello", "Count to ten"] := by
  decide

/-- C10: when no row has a non-empty string in column 1, the row loop derives
no activity and `uploadPlanFile` is rejected with the alert "no activities
found in the file", returning the state it was given: the plan template of
the chosen type and everything else are unchanged. -/
theorem uploadPlanFile_no_activities (s : State) (planType : String)
    (jsonData : List (List JSVal))
    (h : ∀ row ∈ jsonData, ∀ cell, row[1]? = some (JSVal.str cell) → cell = "") :
    extractActivities jsonData = [] ∧
      uploadPlanFile s planType (some (.ok jsonData))
        = (s, "Не се пронајдени активности во датотеката") := by
  have he := (extractActivities_eq_nil_iff jsonData).mpr h
  refine ⟨he, ?_⟩
  simp [uploadPlanFile, he]

theorem uploadPlanFile_no_activities_witness :
    (∀ row ∈ [[JSVal.str "y", JSVal.str ""], [JSVal.num 3, JSVal.num 4], [JSVal.str "lone"]],
        ∀ cell, row[1]? = some (JSVal.str cell) → cell = "") ∧
      extractActivities [[JSVal.str "y", JSVal.str ""], [JSVal.num 3, JSVal.num 4],
        [JSVal.str "lone"]] = [] ∧
      uploadPlanFile initialState "1"
          (some (.ok [[JSVal.str "y", JSVal.str ""], [JSVal.num 3, JSVal.num 4],
            [JSVal.str "lone"]]))
        = (initialState, "Не се пронајдени активности во датотеката") :=
  ⟨by
      intro row hrow cell hcell
      simp only [List.mem_cons, List.mem_singleton, List.not_mem_nil, or_false] at hrow
      rcases hrow with rfl | rfl | rfl <;> simp at hcell
      exact hcell.symm,
    uploadPlanFile_no_activities initialState "1" _ (by
      intro row hrow cell hcell
      simp only [List.mem_cons, List.mem_singleton, List.not_mem_nil, or_false] at hrow
      rcases hrow with rfl | rfl | rfl <;> simp at hcell
      exact hcell.symm)⟩

/-! ### JSON round trip -/

mutual
theorem JSON.parse_stringify :
    ∀ v : JSVal, v.jsonClean = true → (JSON.stringify v).map JSON.parse = some v
  | .undefined, h => by simp [JSVal.jsonClean] at h
  | .nan, h => by simp [JSVal.jsonClean] at h
  | .null, _ => by simp [JSON.stringify, JSON.parse]
  | .bool _, _ => by simp [JSON.stringify, JSON.parse]
  | .num _, _ => by simp [JSON.stringify, JSON.parse]
  | .str _, _ => by simp [JSON.stringify, JSON.parse]
  | .arr xs, h => by
    simp only [JSVal.jsonClean] at h
    simp [JSON.stringify, JSON.parse, JSON.parseElems_stringifyElems xs h]
  | .obj fields, h => by
    simp only [JSVal.jsonClean] at h
    simp [JSON.stringify, JSON.parse, JSON.parseProps_stringifyProps fields h]
theorem JSON.parseElems_stringifyElems :
    ∀ xs : List JSVal, jsonCleanElems xs = true →
      JSON.parseElems (JSON.stringifyElems xs) = xs
  | [], _ => by simp [JSON.stringifyElems, JSON.parseElems]
  | x :: xs, h => by
    simp only [jsonCleanElems, Bool.and_eq_true] at h
    have hx := JSON.parse_stringify x h.1
    have hxs := JSON.parseElems_stringifyElems xs h.2
    cases hj : JSON.stringify x with
    | none => simp [hj] at hx
    | some j =>
      simp only [hj, Option.map_some', Option.some.injEq] at hx
      simp [JSON.stringifyElems, JSON.parseElems, hj, hx, hxs]
theorem JSON.parseProps_stringifyProps :
    ∀ fields : List (String × JSVal), jsonCleanProps fields = true →
      JSON.parseProps (JSON.stringifyProps fields) = fields
  | [], _ => by simp [JSON.stringifyProps, JSON.parseProps]
  | (k, v) :: fields, h => by
    simp only [jsonCleanProps, Bool.and_eq_true] at h
    have hv := JSON.parse_stringify v h.1
    have hfs := JSON.parseProps_stringifyProps fields h.2
    cases hj : JSON.stringify v with
    | none => simp [hj] at hv
    | some j =>
      simp only [hj, Option.map_some', Option.some.injEq] at hv
      simp [JSON.stringifyProps, JSON.parseProps, hj, hv, hfs]
end

theorem jsonCleanElems_map {α : Type} (f : α → JSVal) (l : List α)
    (h : ∀ x ∈ l, (f x).jsonClean = true) : jsonCleanElems (l.map f) = true := by
  induction l with
  | nil => simp [jsonCleanElems]
  | cons x l ih =>
    simp only [List.map_cons, jsonCleanElems, Bool.and_eq_true]
    exact ⟨h x (List.mem_cons_self _ _), ih (fun y hy => h y (List.mem_cons_of_mem _ hy))⟩

theorem jsonCleanProps_map {α : Type} (k : α → String) (f : α → JSVal) (l : List α)
    (h : ∀ x ∈ l, (f x).jsonClean = true) :
    jsonCleanProps (l.map (fun x => (k x, f x))) = true := by
  induction l with
  | nil => simp [jsonCleanProps]
  | cons x l ih =>
    simp only [List.map_cons, jsonCleanProps, Bool.and_eq_true]
    exact ⟨h x (List.mem_cons_self _ _), ih (fun y hy => h y (List.mem_cons_of_mem _ hy))⟩

/-- A document written from clean values is read back as these values, and the
four assignments then install them in any state when each is truthy. -/
theorem assignCollections_parse_stringify (js t : JSState)
    (h₁ : js.students.jsonClean = true) (h₂ : js.schedule.jsonClean = true)
    (h₃ : js.planTemplates.jsonClean = true) (h₄ : js.studentProgress.jsonClean = true)
    (b₁ : js.students.toBoolean = true) (b₂ : js.schedule.toBoolean = true)
    (b₃ : js.planTemplates.toBoolean = true) (b₄ : js.studentProgress.toBoolean = true) :
    ∃ document, JSON.stringify (dataObject js) = some document ∧
      assignCollections t (JSON.parse document) = some js := by
  have hclean : (dataObject js).jsonClean = true := by
    simp [dataObject, JSVal.jsonClean, jsonCleanProps, h₁, h₂, h₃, h₄]
  have hrt := JSON.parse_stringify (dataObject js) hclean
  cases hd : JSON.stringify (dataObject js) with
  | none => simp [hd] at hrt
  | some document =>
    simp only [hd, Option.map_some', Option.some.injEq] at hrt
    refine ⟨document, rfl, ?_⟩
    rw [hrt]
    simp [assignCollections, dataObject, JSVal.getProp, Obj.get, b₁, b₂, b₃, b₄]

theorem State.toJS_clean (s : State) :
    s.toJS.students.jsonClean = true ∧ s.toJS.schedule.jsonClean = true ∧
      s.toJS.planTemplates.jsonClean = true ∧ s.toJS.studentProgress.jsonClean = true := by
  refine ⟨?_, ?_, ?_, ?_⟩
  · simp only [State.toJS, JSVal.jsonClean]
    apply jsonCleanElems_map
    intro st _
    simp [Student.toJS, JSVal.jsonClean, jsonCleanProps]
  · simp only [State.toJS, JSVal.jsonClean]
    apply jsonCleanProps_map
    intro p _
    simp only [JSVal.jsonClean]
    apply jsonCleanElems_map
    intro slot _
    simp only [JSVal.jsonClean]
    apply jsonCleanElems_map
    intro n _
    simp [JSVal.jsonClean]
  · simp only [State.toJS, JSVal.jsonClean]
    apply jsonCleanProps_map
    intro p _
    simp only [JSVal.jsonClean]
    apply jsonCleanElems_map
    intro a _
    simp [JSVal.jsonClean]
  · simp only [State.toJS, JSVal.jsonClean]
    apply jsonCleanProps_map
    intro p _
    simp only [JSVal.jsonClean]
    apply jsonCleanProps_map
    intro q _
    simp [ProgressRecord.toJS, JSVal.jsonClean, jsonCleanProps]

/-- C1: for every state of the data model, `exportData` (and `saveData`) writes
a document, and importing that document with `importData` (applying it with
`loadData`) leaves the four collections equal to what they were; the same
document installs these collections in any other state as well. -/
theorem export_import_roundTrip (s : State) :
    (∃ document, exportData s.toJS = some document ∧
        importData s.toJS (some (some document)) = s.toJS ∧
        ∀ t : JSState, importData t (some (some document)) = s.toJS) ∧
      (∃ document, saveData s.toJS = some document ∧
        loadData s.toJS (some (some document)) = s.toJS ∧
        ∀ t : JSState, loadData t (some (some document)) = s.toJS) := by
  obtain ⟨h₁, h₂, h₃, h₄⟩ := State.toJS_clean s
  have key : ∀ t : JSState, ∃ document, JSON.stringify (dataObject s.toJS) = some document ∧
      assignCollections t (JSON.parse document) = some s.toJS := fun t =>
    assignCollections_parse_stringify s.toJS t h₁ h₂ h₃ h₄ (by simp [State.toJS, JSVal.toBoolean])
      (by simp [State.toJS, JSVal.toBoolean]) (by simp [State.toJS, JSVal.toBoolean])
      (by simp [State.toJS, JSVal.toBoolean])
  obtain ⟨document, hdoc, _⟩ := key s.toJS
  have hall : ∀ t : JSState, assignCollections t (JSON.parse document) = some s.toJS := by
    intro t
    obtain ⟨d, hd, ht⟩ := key t
    rw [hdoc] at hd
    cases hd
    exact ht
  constructor
  · refine ⟨document, hdoc, ?_, ?_⟩
    · simp [importData, hall]
    · intro t; simp [importData, hall]
  · refine ⟨document, hdoc, ?_, ?_⟩
    · simp [loadData, hall]
    · intro t; simp [loadData, hall]

/-! ### Progress records -/

theorem Obj.get_setIndex_self {α : Type} (o : List (Nat × α)) (k : Nat) (v : α) :
    Obj.get (Obj.setIndex o k v) k = some v := by
  induction o with
  | nil => simp [Obj.setIndex, Obj.get]
  | cons p o ih =>
    obtain ⟨k', v'⟩ := p
    by_cases h : k' = k
    · simp [Obj.setIndex, Obj.get, h]
    · by_cases h2 : k < k'
      · simp [Obj.setIndex, Obj.get, h, h2]
      · simp [Obj.setIndex, Obj.get, h, h2, ih]

theorem Obj.get_setIndex_other {α : Type} (o : List (Nat × α)) (k k₂ : Nat) (v : α)
    (hk : k₂ ≠ k) : Obj.get (Obj.setIndex o k v) k₂ = Obj.get o k₂ := by
  induction o with
  | nil => simp [Obj.setIndex, Obj.get, Ne.symm hk]
  | cons p o ih =>
    obtain ⟨k', v'⟩ := p
    by_cases h : k' = k
    · subst h
      simp [Obj.setIndex, Obj.get, Ne.symm hk]
    · by_cases h2 : k < k'
      · simp [Obj.setIndex, Obj.get, h, h2, Ne.symm hk]
      · by_cases h3 : k' = k₂
        · subst h3
          simp [Obj.setIndex, Obj.get, h, h2]
        · simp [Obj.setIndex, Obj.get, h, h2, h3, ih]

theorem Obj.get_delete_other {κ α : Type} [DecidableEq κ] (o : List (κ × α)) (k k₂ : κ)
    (hk : k₂ ≠ k) : Obj.get (Obj.delete o k) k₂ = Obj.get o k₂ := by
  induction o with
  | nil => simp [Obj.delete, Obj.get]
  | cons p o ih =>
    obtain ⟨k', v'⟩ := p
    simp only [Obj.delete] at ih
    by_cases h : k' = k
    · subst h
      simpa [Obj.delete, List.filter, Obj.get, Ne.symm hk] using ih
    · by_cases h3 : k' = k₂
      · subst h3
        simp [Obj.delete, List.filter, Obj.get, h]
      · simpa [Obj.delete, List.filter, Obj.get, h, h3] using ih

/-- Reading a record after the progress map of one student was replaced. -/
theorem recordAt_set (s : State) (sp : List (Int × List (Nat × ProgressRecord)))
    (sid : Int) (m : List (Nat × ProgressRecord)) (sid₂ : Int) (i₂ : Nat) :
    recordAt { s with studentProgress := Obj.set sp sid m } sid₂ i₂ =
      if sid₂ = sid then Obj.get m i₂
      else match Obj.get sp sid₂ with
        | none => none
        | some progress => Obj.get progress i₂ := by
  unfold recordAt
  by_cases h : sid₂ = sid
  · subst h
    simp [Obj.get_set_self]
  · simp [Obj.get_set_other _ _ _ _ h, h]

/-- The progress map of a student once `studentProgress[studentId]` has been
created when absent: the other students keep theirs. -/
theorem get_ensured (sp : List (Int × List (Nat × ProgressRecord))) (sid sid₂ : Int) :
    Obj.get (match Obj.get sp sid with
      | none => Obj.set sp sid []
      | some _ => sp) sid₂ =
      if sid₂ = sid then some ((Obj.get sp sid).getD []) else Obj.get sp sid₂ := by
  cases h : Obj.get sp sid with
  | none =>
    by_cases h2 : sid₂ = sid
    · subst h2; simp [Obj.get_set_self]
    · simp [Obj.get_set_other _ _ _ _ h2, h2]
  | some m =>
    by_cases h2 : sid₂ = sid
    · subst h2; simp [h]
    · simp [h2]

theorem recordAt_toggle (s : State) (sid : Int) (i : Nat) (completed : Bool) (today : String)
    (sid₂ : Int) (i₂ : Nat) :
    recordAt (toggleActivityProgress s sid i completed today) sid₂ i₂ =
      if sid₂ = sid ∧ i₂ = i then
        (if completed then some { completed := true, date := today, time := "" } else none)
      else recordAt s sid₂ i₂ := by
  unfold toggleActivityProgress
  rw [recordAt_set]
  by_cases h : sid₂ = sid
  · subst h
    simp only [get_ensured, if_true, Option.getD_some, true_and]
    by_cases hi : i₂ = i
    · subst hi
      cases completed
      · simp [Obj.get_delete_self]
      · simp [Obj.get_setIndex_self]
    · cases completed
      · simp only [Bool.false_eq_true, if_false, hi, Obj.get_delete_other _ _ _ hi, recordAt]
        cases Obj.get s.studentProgress sid₂ <;> simp [Obj.get]
      · simp only [if_true, hi, if_false, Obj.get_setIndex_other _ _ _ _ hi, recordAt]
        cases Obj.get s.studentProgress sid₂ <;> simp [Obj.get]
  · simp only [h, false_and, if_false, get_ensured, recordAt]

/-- The record that `setActivityDate` and `setActivityTime` work on: the stored
one, or the fresh `{completed: false, date: '', time: ''}`. -/
theorem recordAt_ensured (s : State) (sid : Int) (i : Nat) :
    (Obj.get (match Obj.get ((Obj.get (match Obj.get s.studentProgress sid with
          | none => Obj.set s.studentProgress sid []
          | some _ => s.studentProgress) sid).getD []) i with
        | none => Obj.setIndex ((Obj.get (match Obj.get s.studentProgress sid with
            | none => Obj.set s.studentProgress sid []
            | some _ => s.studentProgress) sid).getD []) i
            { completed := false, date := "", time := "" }
        | some _ => (Obj.get (match Obj.get s.studentProgress sid with
            | none => Obj.set s.studentProgress sid []
            | some _ => s.studentProgress) sid).getD []) i).getD
        { completed := false, date := "", time := "" } =
      (recordAt s sid i).getD { completed := false, date := "", time := "" } := by
  simp only [get_ensured, if_true, Option.getD_some, recordAt]
  cases h : Obj.get s.studentProgress sid with
  | none => simp [Obj.get, Obj.get_setIndex_self]
  | some m =>
    simp only [Option.getD_some]
    cases h2 : Obj.get m i with
    | none => simp [Obj.get_setIndex_self]
    | some r => simp [h2]

theorem get_ensuredRecord_other (m : List (Nat × ProgressRecord)) (i i₂ : Nat)
    (r : ProgressRecord) (h : i₂ ≠ i) :
    Obj.get (match Obj.get m i with
      | none => Obj.setIndex m i r
      | some _ => m) i₂ = Obj.get m i₂ := by
  cases Obj.get m i with
  | none => exact Obj.get_setIndex_other _ _ _ _ h
  | some _ => rfl

theorem recordAt_setActivityDate (s : State) (sid : Int) (i : Nat) (dateValue : String)
    (hd : dateValue ≠ "") (sid₂ : Int) (i₂ : Nat) :
    recordAt (setActivityDate s sid i dateValue) sid₂ i₂ =
      if sid₂ = sid ∧ i₂ = i then
        some { (recordAt s sid i).getD { completed := false, date := "", time := "" } with
          date := reformatDate dateValue }
      else recordAt s sid₂ i₂ := by
  unfold setActivityDate
  simp only [hd, if_false]
  rw [recordAt_set]
  by_cases h : sid₂ = sid
  · subst h
    by_cases hi : i₂ = i
    · subst hi
      simp only [and_self, if_true, Obj.get_setIndex_self, recordAt_ensured]
    · simp only [if_true, hi, and_false, if_false, Obj.get_setIndex_other _ _ _ _ hi,
        get_ensuredRecord_other _ _ _ _ hi, get_ensured, Option.getD_some, recordAt]
      cases Obj.get s.studentProgress sid₂ <;> simp [Obj.get]
  · simp only [h, false_and, if_false, get_ensured, recordAt]

theorem recordAt_setActivityTime (s : State) (sid : Int) (i : Nat) (time : String)
    (ht : time ≠ "") (sid₂ : Int) (i₂ : Nat) :
    recordAt (setActivityTime s sid i time) sid₂ i₂ =
      if sid₂ = sid ∧ i₂ = i then
        some { completed :=
                ((recordAt s sid i).getD { completed := false, date := "", time := "" }).completed
                  || decide (((recordAt s sid i).getD
                    { completed := false, date := "", time := "" }).date ≠ "")
               date := ((recordAt s sid i).getD
                 { completed := false, date := "", time := "" }).date
               time := time }
      else recordAt s sid₂ i₂ := by
  unfold setActivityTime
  simp only [ht, if_false]
  rw [recordAt_set]
  by_cases h : sid₂ = sid
  · subst h
    by_cases hi : i₂ = i
    · subst hi
      simp only [and_self, if_true, Obj.get_setIndex_self, recordAt_ensured]
      generalize (recordAt s sid₂ i₂).getD { completed := false, date := "", time := "" } = r
      by_cases hdate : r.date = ""
      · simp [hdate]
      · simp [hdate, ht]
    · simp only [if_true, hi, and_false, if_false, Obj.get_setIndex_other _ _ _ _ hi,
        get_ensuredRecord_other _ _ _ _ hi, get_ensured, Option.getD_some, recordAt]
      cases Obj.get s.studentProgress sid₂ <;> simp [Obj.get]
  · simp only [h, false_and, if_false, get_ensured, recordAt]

/-- C13: `toggleActivityProgress(sid, i, true)` leaves at index `i` of student
`sid` the record `{completed: true, date: today, time: ''}`, whatever was
stored there before, leaves every other record of every student as it was,
and does not touch the roster, the schedule or the plan templates. -/
theorem toggle_true_stamps (s : State) (sid : Int) (i : Nat) (today : String) :
    recordAt (toggleActivityProgress s sid i true today) sid i
        = some { completed := true, date := today, time := "" } ∧
      (∀ sid₂ i₂, (sid₂, i₂) ≠ (sid, i) →
        recordAt (toggleActivityProgress s sid i true today) sid₂ i₂ = recordAt s sid₂ i₂) ∧
      (toggleActivityProgress s sid i true today).students = s.students ∧
      (toggleActivityProgress s sid i true today).schedule = s.schedule ∧
      (toggleActivityProgress s sid i true today).planTemplates = s.planTemplates := by
  refine ⟨?_, ?_, rfl, rfl, rfl⟩
  · rw [recordAt_toggle]; simp
  · intro sid₂ i₂ hne
    rw [recordAt_toggle]
    have : ¬(sid₂ = sid ∧ i₂ = i) := by
      rintro ⟨h1, h2⟩
      exact hne (by rw [h1, h2])
    simp [this]

theorem splitChars_of_not_mem (sep : Char) (l : List Char) (h : sep ∉ l) :
    splitChars sep l = [l] := by
  induction l with
  | nil => rfl
  | cons c l ih =>
    have hc : c ≠ sep := fun e => h (e ▸ List.mem_cons_self _ _)
    have hl : sep ∉ l := fun e => h (List.mem_cons_of_mem _ e)
    simp [splitChars, hc, ih hl]

theorem splitChars_append_sep (sep : Char) (a b : List Char) (h : sep ∉ a) :
    splitChars sep (a ++ sep :: b) = a :: splitChars sep b := by
  induction a with
  | nil => simp [splitChars]
  | cons c a ih =>
    have hc : c ≠ sep := fun e => h (e ▸ List.mem_cons_self _ _)
    have ha : sep ∉ a := fun e => h (List.mem_cons_of_mem _ e)
    simp [splitChars, hc, ih ha]

/-- A date input value `YYYY-MM-DD` is rewritten as `DD.MM.YYYY`. -/
theorem reformatDate_ymd (y m d : String) (hy : '-' ∉ y.data) (hm : '-' ∉ m.data)
    (hd : '-' ∉ d.data) :
    reformatDate (y ++ "-" ++ m ++ "-" ++ d) = d ++ "." ++ m ++ "." ++ y := by
  have hsplit : jsSplit '-' (y ++ "-" ++ m ++ "-" ++ d) = [y, m, d] := by
    unfold jsSplit
    have : (y ++ "-" ++ m ++ "-" ++ d).data = y.data ++ '-' :: (m.data ++ '-' :: d.data) := by
      simp [String.data_append]
    rw [this, splitChars_append_sep _ _ _ hy, splitChars_append_sep _ _ _ hm,
      splitChars_of_not_mem _ _ hd]
    rfl
  simp [reformatDate, hsplit]

theorem reformatDate_ne_empty (dateValue : String) : reformatDate dateValue ≠ "" := by
  intro h
  have := congrArg String.data h
  simp [reformatDate, String.data_append] at this

/-- C14: with a non-empty value, `setActivityDate` and `setActivityTime` work on
the stored record, or on a fresh `{completed: false, date: '', time: ''}`
when none exists; the first sets the date (an input `YYYY-MM-DD` becomes
`DD.MM.YYYY`) and keeps the rest, the second sets the time, keeps the date
and leaves `completed` true exactly when it was true already or the date is
non-empty; no other record changes. With an empty value both leave the
state unchanged. -/
theorem setActivityDate_setActivityTime_spec (s : State) (sid : Int) (i : Nat)
    (dateValue time : String) (hd : dateValue ≠ "") (ht : time ≠ "") :
    recordAt (setActivityDate s sid i dateValue) sid i
        = some { (recordAt s sid i).getD { completed := false, date := "", time := "" } with
            date := reformatDate dateValue } ∧
      (∀ y m d : String, '-' ∉ y.data → '-' ∉ m.data → '-' ∉ d.data →
        reformatDate (y ++ "-" ++ m ++ "-" ++ d) = d ++ "." ++ m ++ "." ++ y) ∧
      (∃ r, recordAt (setActivityTime s sid i time) sid i = some r ∧ r.time = time ∧
        r.date = ((recordAt s sid i).getD { completed := false, date := "", time := "" }).date ∧
        (r.completed = true ↔
          ((recordAt s sid i).getD
              { completed := false, date := "", time := "" }).completed = true ∨
            r.date ≠ "")) ∧
      (∀ sid₂ i₂, (sid₂, i₂) ≠ (sid, i) →
        recordAt (setActivityDate s sid i dateValue) sid₂ i₂ = recordAt s sid₂ i₂ ∧
        recordAt (setActivityTime s sid i time) sid₂ i₂ = recordAt s sid₂ i₂) ∧
      setActivityDate s sid i "" = s ∧ setActivityTime s sid i "" = s := by
  refine ⟨?_, fun y m d => reformatDate_ymd y m d, ?_, ?_, ?_, ?_⟩
  · rw [recordAt_setActivityDate _ _ _ _ hd]; simp
  · refine ⟨{ completed :=
                ((recordAt s sid i).getD { completed := false, date := "", time := "" }).completed
                  || decide (((recordAt s sid i).getD
                    { completed := false, date := "", time := "" }).date ≠ "")
              date := ((recordAt s sid i).getD
                 { completed := false, date := "", time := "" }).date
              time := time }, ?_, rfl, rfl, ?_⟩
    · rw [recordAt_setActivityTime _ _ _ _ ht]; simp
    · simp
  · intro sid₂ i₂ hne
    have : ¬(sid₂ = sid ∧ i₂ = i) := by
      rintro ⟨h1, h2⟩
      exact hne (by rw [h1, h2])
    rw [recordAt_setActivityDate _ _ _ _ hd, recordAt_setActivityTime _ _ _ _ ht]
    simp [this]
  · simp [setActivityDate]
  · simp [setActivityTime]

theorem setActivityDate_setActivityTime_spec_witness :
    ("2024-03-05" : String) ≠ "" ∧ ("08:00 - 08:20" : String) ≠ "" ∧
      (recordAt (setActivityDate initialState 7 2 "2024-03-05") 7 2
          = some { (recordAt initialState 7 2).getD
              { completed := false, date := "", time := "" } with
              date := reformatDate "2024-03-05" } ∧
        (∀ y m d : String, '-' ∉ y.data → '-' ∉ m.data → '-' ∉ d.data →
          reformatDate (y ++ "-" ++ m ++ "-" ++ d) = d ++ "." ++ m ++ "." ++ y) ∧
        (∃ r, recordAt (setActivityTime initialState 7 2 "08:00 - 08:20") 7 2 = some r ∧
          r.time = "08:00 - 08:20" ∧
          r.date = ((recordAt initialState 7 2).getD
            { completed := false, date := "", time := "" }).date ∧
          (r.completed = true ↔
            ((recordAt initialState 7 2).getD
                { completed := false, date := "", time := "" }).completed = true ∨
              r.date ≠ "")) ∧
        (∀ sid₂ i₂, (sid₂, i₂) ≠ ((7 : Int), 2) →
          recordAt (setActivityDate initialState 7 2 "2024-03-05") sid₂ i₂
            = recordAt initialState sid₂ i₂ ∧
          recordAt (setActivityTime initialState 7 2 "08:00 - 08:20") sid₂ i₂
            = recordAt initialState sid₂ i₂) ∧
        setActivityDate initialState 7 2 "" = initialState ∧
        setActivityTime initialState 7 2 "" = initialState) :=
  ⟨by decide, by decide,
    setActivityDate_setActivityTime_spec initialState 7 2 "2024-03-05" "08:00 - 08:20"
      (by decide) (by decide)⟩

/-- C15, as amended: in every progress state reachable from an empty progress
map by `toggleActivityProgress`, `setActivityDate` and `setActivityTime`,
every record with `completed = true` has its date set (non-empty). -/
theorem completed_has_date (s : State) (h : ProgressReachable s) (sid : Int) (i : Nat)
    (r : ProgressRecord) (hr : recordAt s sid i = some r) (hc : r.completed = true) :
    r.date ≠ "" := by
  induction h generalizing sid i r with
  | start s h0 => simp [recordAt, h0, Obj.get] at hr
  | toggle s sid₁ i₁ completed today htoday _ ih =>
    rw [recordAt_toggle] at hr
    by_cases hk : sid = sid₁ ∧ i = i₁
    · cases completed
      · simp [hk] at hr
      · simp [hk] at hr
        subst hr
        exact htoday
    · simp only [hk, if_false] at hr
      exact ih sid i r hr hc
  | setDate s sid₁ i₁ dateValue _ ih =>
    by_cases hd : dateValue = ""
    · have : setActivityDate s sid₁ i₁ dateValue = s := by simp [setActivityDate, hd]
      rw [this] at hr
      exact ih sid i r hr hc
    · rw [recordAt_setActivityDate _ _ _ _ hd] at hr
      by_cases hk : sid = sid₁ ∧ i = i₁
      · simp only [hk, and_self, if_true, Option.some.injEq] at hr
        subst hr
        exact reformatDate_ne_empty dateValue
      · simp only [hk, if_false] at hr
        exact ih sid i r hr hc
  | setTime s sid₁ i₁ time _ ih =>
    by_cases ht : time = ""
    · have : setActivityTime s sid₁ i₁ time = s := by simp [setActivityTime, ht]
      rw [this] at hr
      exact ih sid i r hr hc
    · rw [recordAt_setActivityTime _ _ _ _ ht] at hr
      by_cases hk : sid = sid₁ ∧ i = i₁
      · simp only [hk, and_self, if_true, Option.some.injEq] at hr
        subst hr
        simp only [Bool.or_eq_true, decide_eq_true_eq] at hc
        rcases hc with hc | hc
        · cases hrec : recordAt s sid₁ i₁ with
          | none => simp [hrec] at hc
          | some r₀ =>
            simp only [hrec, Option.getD_some] at hc ⊢
            exact ih sid₁ i₁ r₀ hrec hc
        · exact hc
      · simp only [hk, if_false] at hr
        exact ih sid i r hr hc

theorem completed_has_date_witness :
    ProgressReachable
        (setActivityTime (setActivityDate initialState 7 2 "2024-03-05") 7 2 "08:00 - 08:20") ∧
      recordAt (setActivityTime (setActivityDate initialState 7 2 "2024-03-05") 7 2
          "08:00 - 08:20") 7 2
        = some { completed := true, date := "05.03.2024", time := "08:00 - 08:20" } ∧
      ({ completed := true, date := "05.03.2024", time := "08:00 - 08:20" } :
        ProgressRecord).completed = true ∧
      ({ completed := true, date := "05.03.2024", time := "08:00 - 08:20" } :
        ProgressRecord).date ≠ "" :=
  ⟨ProgressReachable.setTime _ 7 2 _ (ProgressReachable.setDate _ 7 2 _
      (ProgressReachable.start initialState rfl)),
    by decide, rfl,
    completed_has_date
      (setActivityTime (setActivityDate initialState 7 2 "2024-03-05") 7 2 "08:00 - 08:20")
      (ProgressReachable.setTime _ 7 2 _ (ProgressReachable.setDate _ 7 2 _
        (ProgressReachable.start initialState rfl)))
      7 2 { completed := true, date := "05.03.2024", time := "08:00 - 08:20" }
      (by decide) rfl⟩

/-- C15 as stated fails: one `toggleActivityProgress(7, 2, true)` from the empty
progress map gives a reachable state in which a record is completed and has
no time. -/
theorem completed_without_time :
    ¬ ∀ s : State, ProgressReachable s → ∀ (sid : Int) (i : Nat) (r : ProgressRecord),
        recordAt s sid i = some r → r.completed = true → r.date ≠ "" ∧ r.time ≠ "" := by
  intro h
  have hreach : ProgressReachable (toggleActivityProgress initialState 7 2 true "5.3.2024") :=
    ProgressReachable.toggle initialState 7 2 true "5.3.2024" (by decide)
      (ProgressReachable.start initialState rfl)
  have hrec : recordAt (toggleActivityProgress initialState 7 2 true "5.3.2024") 7 2
      = some { completed := true, date := "5.3.2024", time := "" } := by decide
  exact (h _ hreach 7 2 _ hrec rfl).2 rfl

/-! ### Referential integrity of the schedule -/

theorem Obj.mem_set {κ α : Type} [DecidableEq κ] (o : List (κ × α)) (k : κ) (v : α)
    (p : κ × α) (h : p ∈ Obj.set o k v) : p ∈ o ∨ p = (k, v) := by
  induction o with
  | nil =>
    simp [Obj.set] at h
    exact Or.inr h
  | cons q o ih =>
    obtain ⟨k', v'⟩ := q
    by_cases hk : k' = k
    · simp only [Obj.set, hk, if_true, List.mem_cons] at h
      rcases h with h | h
      · exact Or.inr h
      · exact Or.inl (List.mem_cons_of_mem _ h)
    · simp only [Obj.set, hk, if_false, List.mem_cons] at h
      rcases h with h | h
      · exact Or.inl (h ▸ List.mem_cons_self _ _)
      · rcases ih h with h | h
        · exact Or.inl (List.mem_cons_of_mem _ h)
        · exact Or.inr h

theorem updateStudent_ids (id : Int) (f : Student → Student) (hf : ∀ st, (f st).id = st.id)
    (l l₁ : List Student) (h : updateStudent id f l = some l₁) :
    l₁.map (fun st => st.id) = l.map (fun st => st.id) := by
  induction l generalizing l₁ with
  | nil => simp [updateStudent] at h
  | cons st rest ih =>
    by_cases hid : st.id = id
    · simp only [updateStudent, hid, if_true, Option.some.injEq] at h
      subst h
      simp [hf]
    · simp only [updateStudent, hid, if_false, Option.map_eq_some'] at h
      obtain ⟨rest₁, hr, rfl⟩ := h
      simp [ih rest₁ hr]

/-- The schedule stays valid when one cell is replaced by ids of the roster and
the roster keeps its ids. -/
theorem scheduleValid_setCell (s : State) (h : ScheduleValid s) (day : String)
    (slots : List (List Int)) (hday : Obj.get s.schedule day = some slots) (timeIdx : Nat)
    (cell : List Int) (hcell : ∀ id ∈ cell, ∃ st ∈ s.students, st.id = id) :
    ScheduleValid { s with schedule := Obj.set s.schedule day (slots.set timeIdx cell) } := by
  intro p hp slot hslot id hid
  rcases Obj.mem_set _ _ _ _ hp with hp | hp
  · exact h p hp slot hslot id hid
  · subst hp
    rcases List.mem_or_eq_of_mem_set hslot with hs | hs
    · exact h (day, slots) (Obj.mem_of_get _ _ _ hday) slot hs id hid
    · subst hs
      exact hcell id hid

/-- C17: referential integrity of the schedule is kept by `deleteStudent`,
`removeStudentFromSlot`, `clearSchedule`, `saveStudent` (adding or editing)
and by `assignStudentsToSlot` with ids selected from the roster: if every id
in every cell is the id of a student of the roster before the call, the same
holds for the state after the call (the state is unchanged when a call
throws). -/
theorem scheduleValid_preserved (s : State) (h : ScheduleValid s) :
    (∀ id confirmed, ScheduleValid (deleteStudent s id confirmed)) ∧
      (∀ day timeIdx studentId,
        ScheduleValid ((removeStudentFromSlot s day timeIdx studentId).getD s)) ∧
      (∀ confirmed, ScheduleValid (clearSchedule s confirmed)) ∧
      (∀ nameValue gradeValue planType editingStudentId now,
        ScheduleValid
          ((saveStudent s nameValue gradeValue planType editingStudentId now).getD s)) ∧
      (∀ currentSlot selectedIds, (∀ id ∈ selectedIds, ∃ st ∈ s.students, st.id = id) →
        ScheduleValid ((assignStudentsToSlot s currentSlot selectedIds).getD s)) := by
  refine ⟨?_, ?_, ?_, ?_, ?_⟩
  · intro id confirmed
    cases confirmed
    · simpa [deleteStudent] using h
    · intro p hp slot hslot id₂ hid
      simp only [deleteStudent, if_true, List.mem_map] at hp
      obtain ⟨q, hq, rfl⟩ := hp
      simp only [List.mem_map] at hslot
      obtain ⟨old, hold, rfl⟩ := hslot
      simp only [List.mem_filter, decide_eq_true_eq] at hid
      obtain ⟨st, hst, hstid⟩ := h q hq old hold id₂ hid.1
      refine ⟨st, ?_, hstid⟩
      simp only [deleteStudent, if_true, List.mem_filter, decide_eq_true_eq]
      exact ⟨hst, by rw [hstid]; exact hid.2⟩
  · intro day timeIdx studentId
    unfold removeStudentFromSlot
    split
    · simpa using h
    · next slots hday =>
      split
      · simpa using h
      · next slot hslot =>
        simp only [Option.getD_some]
        apply scheduleValid_setCell s h day slots hday
        intro id hid
        simp only [List.mem_filter] at hid
        exact h (day, slots) (Obj.mem_of_get _ _ _ hday) slot (List.getElem?_mem hslot) id hid.1
  · intro confirmed
    cases confirmed
    · simpa [clearSchedule] using h
    · intro p hp slot hslot id hid
      simp only [clearSchedule, if_true, emptySchedule, emptyDay, List.mem_cons,
        List.mem_singleton, List.not_mem_nil, or_false] at hp
      rcases hp with rfl | rfl | rfl | rfl | rfl <;>
        · simp only [List.mem_cons, List.mem_singleton, List.not_mem_nil, or_false, or_self]
            at hslot
          subst hslot
          simp at hid
  · intro nameValue gradeValue planType editingStudentId now
    unfold saveStudent
    simp only
    split
    · simpa using h
    · split
      · cases hu : updateStudent (editingStudentId.getD 0) _ s.students with
        | none => simpa using h
        | some students =>
          have hids := updateStudent_ids _ _ (by intro st; rfl) _ _ hu
          simp only [Option.map_some', Option.getD_some]
          intro p hp slot hslot id hid
          obtain ⟨st, hst, hstid⟩ := h p hp slot hslot id hid
          have hmem : id ∈ students.map (fun st => st.id) := by
            rw [hids]
            exact List.mem_map.mpr ⟨st, hst, hstid⟩
          obtain ⟨st₁, hst₁, hid₁⟩ := List.mem_map.mp hmem
          exact ⟨st₁, hst₁, hid₁⟩
      · simp only [Option.getD_some]
        intro p hp slot hslot id hid
        obtain ⟨st, hst, hstid⟩ := h p hp slot hslot id hid
        exact ⟨st, List.mem_append_left _ hst, hstid⟩
  · intro currentSlot selectedIds hsel
    unfold assignStudentsToSlot
    split
    · simpa using h
    · next day timeIdx =>
      split
      · simpa using h
      · next slots hday =>
        split
        · simp only [Option.getD_some]
          exact scheduleValid_setCell s h day slots hday timeIdx selectedIds hsel
        · simpa using h

theorem scheduleValid_preserved_witness :
    ScheduleValid sampleState ∧
      ((∀ id confirmed, ScheduleValid (deleteStudent sampleState id confirmed)) ∧
        (∀ day timeIdx studentId,
          ScheduleValid ((removeStudentFromSlot sampleState day timeIdx studentId).getD
            sampleState)) ∧
        (∀ confirmed, ScheduleValid (clearSchedule sampleState confirmed)) ∧
        (∀ nameValue gradeValue planType editingStudentId now,
          ScheduleValid
            ((saveStudent sampleState nameValue gradeValue planType editingStudentId now).getD
              sampleState)) ∧
        (∀ currentSlot selectedIds,
          (∀ id ∈ selectedIds, ∃ st ∈ sampleState.students, st.id = id) →
          ScheduleValid
            ((assignStudentsToSlot sampleState currentSlot selectedIds).getD sampleState))) :=
  ⟨by unfold ScheduleValid; decide,
    scheduleValid_preserved sampleState (by unfold ScheduleValid; decide)⟩

/-! ### The six plan slots -/

theorem Obj.keys_set_of_mem {κ α : Type} [DecidableEq κ] (o : List (κ × α)) (k : κ) (v : α)
    (h : k ∈ o.map Prod.fst) : (Obj.set o k v).map Prod.fst = o.map Prod.fst := by
  induction o with
  | nil => simp at h
  | cons p o ih =>
    obtain ⟨k', v'⟩ := p
    by_cases hk : k' = k
    · simp [Obj.set, hk]
    · have : k ∈ o.map Prod.fst := by
        simp only [List.map_cons, List.mem_cons] at h
        rcases h with h | h
        · exact absurd h.symm hk
        · exact h
      simp [Obj.set, hk, ih this]

/-- One plan operation rewrites the slot of its own key only, or nothing. -/
theorem PlanStep.planTemplates_eq (k : String) (s s₁ : State) (h : PlanStep k s s₁) :
    s₁.planTemplates = s.planTemplates ∨ ∃ v, s₁.planTemplates = Obj.set s.planTemplates k v := by
  cases h with
  | addActivity s planType text r h =>
    unfold StudentManager.addActivity at h
    simp only at h
    split at h
    · cases h; exact Or.inl rfl
    · split at h
      · cases h
      · cases h; exact Or.inr ⟨_, rfl⟩
  | deleteActivity s planNum idx confirmed s₁ h =>
    unfold StudentManager.deleteActivity at h
    split at h
    · split at h
      · cases h
      · cases h; exact Or.inr ⟨_, rfl⟩
    · cases h; exact Or.inl rfl
  | createPlan s planType text =>
    unfold StudentManager.createPlan
    simp only
    split
    · exact Or.inl rfl
    · exact Or.inr ⟨_, rfl⟩
  | savePlanEdit s planNumber text =>
    unfold StudentManager.savePlanEdit
    simp only
    split
    · exact Or.inl rfl
    · exact Or.inr ⟨_, rfl⟩
  | deletePlan s planNumber confirmed =>
    unfold StudentManager.deletePlan
    simp only
    split
    · exact Or.inl rfl
    · split
      · exact Or.inr ⟨_, rfl⟩
      · exact Or.inl rfl
  | uploadPlanFile s planType file =>
    unfold StudentManager.uploadPlanFile
    split
    · exact Or.inl rfl
    · exact Or.inl rfl
    · simp only
      split
      · exact Or.inl rfl
      · exact Or.inr ⟨_, rfl⟩

/-- C18: starting from the initial state, after any sequence of `addActivity`,
`deleteActivity`, `createPlan`, `savePlanEdit`, `deletePlan` and bulk imports
with a plan type in 1..6, `planTemplates` has exactly the keys 1..6, each
mapped to a list of activities; and each such operation leaves the slot of
every other plan type, the roster, the schedule and the progress map as they
were. -/
theorem six_plan_slots :
    (∀ s : State, PlanReachable s →
        s.planTemplates.map Prod.fst = planKeys ∧
        ∀ k ∈ planKeys, ∃ activities, Obj.get s.planTemplates k = some activities) ∧
      (∀ (k : String) (s s₁ : State), PlanStep k s s₁ →
        (∀ k₂, k₂ ≠ k → Obj.get s₁.planTemplates k₂ = Obj.get s.planTemplates k₂) ∧
        s₁.students = s.students ∧ s₁.schedule = s.schedule ∧
        s₁.studentProgress = s.studentProgress) := by
  have hkeys : ∀ s : State, PlanReachable s → s.planTemplates.map Prod.fst = planKeys := by
    intro s hs
    induction hs with
    | start => rfl
    | step k hk s s₁ _ hstep ih =>
      rcases PlanStep.planTemplates_eq k s s₁ hstep with h | ⟨v, h⟩
      · rw [h, ih]
      · rw [h, Obj.keys_set_of_mem _ _ _ (by rw [ih]; exact hk), ih]
  have hget : ∀ (o : List (String × List String)) (k : String), k ∈ o.map Prod.fst →
      ∃ activities, Obj.get o k = some activities := by
    intro o k hk
    induction o with
    | nil => simp at hk
    | cons p o ih =>
      obtain ⟨k', v'⟩ := p
      by_cases h : k' = k
      · exact ⟨v', by simp [Obj.get, h]⟩
      · simp only [List.map_cons, List.mem_cons] at hk
        rcases hk with hk | hk
        · exact absurd hk.symm h
        · obtain ⟨a, ha⟩ := ih hk
          exact ⟨a, by simp [Obj.get, h, ha]⟩
  refine ⟨fun s hs => ⟨hkeys s hs, fun k hk => hget _ k (by rw [hkeys s hs]; exact hk)⟩, ?_⟩
  intro k s s₁ hstep
  refine ⟨?_, ?_⟩
  · intro k₂ hk₂
    rcases PlanStep.planTemplates_eq k s s₁ hstep with h | ⟨v, h⟩
    · rw [h]
    · rw [h, Obj.get_set_other _ _ _ _ hk₂]
  · cases hstep with
    | addActivity s planType text r h =>
      unfold StudentManager.addActivity at h
      simp only at h
      split at h
      · cases h; exact ⟨rfl, rfl, rfl⟩
      · split at h
        · cases h
        · cases h; exact ⟨rfl, rfl, rfl⟩
    | deleteActivity s planNum idx confirmed s₁ h =>
      unfold StudentManager.deleteActivity at h
      split at h
      · split at h
        · cases h
        · cases h; exact ⟨rfl, rfl, rfl⟩
      · cases h; exact ⟨rfl, rfl, rfl⟩
    | createPlan s planType text =>
      unfold StudentManager.createPlan
      simp only
      split <;> exact ⟨rfl, rfl, rfl⟩
    | savePlanEdit s planNumber text =>
      unfold StudentManager.savePlanEdit
      simp only
      split <;> exact ⟨rfl, rfl, rfl⟩
    | deletePlan s planNumber confirmed =>
      unfold StudentManager.deletePlan
      simp only
      split
      · exact ⟨rfl, rfl, rfl⟩
      · split <;> exact ⟨rfl, rfl, rfl⟩
    | uploadPlanFile s planType file =>
      unfold StudentManager.uploadPlanFile
      split
      · exact ⟨rfl, rfl, rfl⟩
      · exact ⟨rfl, rfl, rfl⟩
      · simp only
        split <;> exact ⟨rfl, rfl, rfl⟩

theorem six_plan_slots_witness :
    PlanReachable (createPlan initialState "3" "Say hello\nCount to ten").1 ∧
      (createPlan initialState "3" "Say hello\nCount to ten").1.planTemplates.map Prod.fst
        = planKeys ∧
      (∀ k ∈ planKeys, ∃ activities,
        Obj.get (createPlan initialState "3" "Say hello\nCount to ten").1.planTemplates k
          = some activities) :=
  ⟨PlanReachable.step "3" (by decide) initialState _ PlanReachable.start
      (PlanStep.createPlan initialState "3" "Say hello\nCount to ten"),
    six_plan_slots.1 _
      (PlanReachable.step "3" (by decide) initialState _ PlanReachable.start
        (PlanStep.createPlan initialState "3" "Say hello\nCount to ten"))⟩

/-! ### Importing a document -/

theorem getProp_parse (document : Json) (name : String) (h : document ≠ Json.null) :
    (JSON.parse document).getProp name
      = some ((documentField document name).getD .undefined) := by
  cases document <;> simp [JSON.parse, JSVal.getProp, documentField] at h ⊢

theorem parse_falsy_iff (j : Json) :
    (JSON.parse j).toBoolean = false ↔
      j = .null ∨ j = .bool false ∨ j = .num 0 ∨ j = .str "" := by
  cases j <;> simp [JSON.parse, JSVal.toBoolean]

/-- The state after an import of a document that is not `null`, collection by
collection. -/
theorem assignCollections_parse (s : JSState) (document : Json) (h : document ≠ Json.null) :
    assignCollections s (JSON.parse document) = some
      { students :=
          if ((documentField document "students").getD .undefined).toBoolean then
            (documentField document "students").getD .undefined else s.students
        schedule :=
          if ((documentField document "schedule").getD .undefined).toBoolean then
            (documentField document "schedule").getD .undefined else s.schedule
        planTemplates :=
          if ((documentField document "planTemplates").getD .undefined).toBoolean then
            (documentField document "planTemplates").getD .undefined else s.planTemplates
        studentProgress :=
          if ((documentField document "studentProgress").getD .undefined).toBoolean then
            (documentField document "studentProgress").getD .undefined
          else s.studentProgress } := by
  simp only [assignCollections, getProp_parse _ _ h]

/-- C11, as amended: `importData` and `loadData` replace each of the four
collections by the document's value exactly when the document has that field
with a truthy value (in a JSON document: any value but `null`, `false`, `0`
and the empty string); a collection whose field is absent, or present with
one of these four values, keeps the value it had. -/
theorem importData_replaces_truthy (s : JSState) (document : Json) :
    (importData s (some (some document))).students =
        (match documentField document "students" with
          | some v => if v.toBoolean then v else s.students
          | none => s.students) ∧
      (importData s (some (some document))).schedule =
        (match documentField document "schedule" with
          | some v => if v.toBoolean then v else s.schedule
          | none => s.schedule) ∧
      (importData s (some (some document))).planTemplates =
        (match documentField document "planTemplates" with
          | some v => if v.toBoolean then v else s.planTemplates
          | none => s.planTemplates) ∧
      (importData s (some (some document))).studentProgress =
        (match documentField document "studentProgress" with
          | some v => if v.toBoolean then v else s.studentProgress
          | none => s.studentProgress) ∧
      loadData s (some (some document)) = importData s (some (some document)) ∧
      (∀ j : Json, (JSON.parse j).toBoolean = false ↔
        j = .null ∨ j = .bool false ∨ j = .num 0 ∨ j = .str "") := by
  have hload : loadData s (some (some document)) = importData s (some (some document)) := rfl
  by_cases h : document = Json.null
  · subst h
    refine ⟨?_, ?_, ?_, ?_, hload, parse_falsy_iff⟩ <;>
      simp [importData, assignCollections, JSON.parse, JSVal.getProp, documentField]
  · refine ⟨?_, ?_, ?_, ?_, hload, parse_falsy_iff⟩ <;>
      simp only [importData, assignCollections_parse s document h, Option.getD_some]
    · cases documentField document "students" <;> simp [JSVal.toBoolean]
    · cases documentField document "schedule" <;> simp [JSVal.toBoolean]
    · cases documentField document "planTemplates" <;> simp [JSVal.toBoolean]
    · cases documentField document "studentProgress" <;> simp [JSVal.toBoolean]

/-- C11 as stated fails: the document `{"students": null}` has the field
`students`, and the import leaves the roster as it was instead of replacing
it by the document's value. -/
theorem importData_null_field_ignored :
    documentField (Json.obj [("students", Json.null)]) "students" = some JSVal.null ∧
      (importData initialState.toJS (some (some (Json.obj [("students", Json.null)])))).students
        = initialState.toJS.students ∧
      (importData initialState.toJS (some (some (Json.obj [("students", Json.null)])))).students
        ≠ JSVal.null := by
  refine ⟨rfl, rfl, ?_⟩
  intro h
  have h2 : (importData initialState.toJS
      (some (some (Json.obj [("students", Json.null)])))).students = JSVal.arr [] := rfl
  rw [h2] at h
  cases h

/-- C12, as amended: a text that is not valid JSON, and the document `null`,
make `importData` and `loadData` report an error and leave all four
collections as they were; `loadData` reports no other error, so whenever it
reports one the state is unchanged. When `importData` reports an error that
a later step raised, the four assignments have been made: the state is the
one a successful import of the same document gives. -/
theorem import_error_cases (s : JSState) (laterThrows : Bool) :
    (importDataAlert s (some none) laterThrows = some ImportAlert.error ∧
        importData s (some none) = s) ∧
      (importDataAlert s (some (some Json.null)) laterThrows = some ImportAlert.error ∧
        importData s (some (some Json.null)) = s) ∧
      (∀ saved, loadDataReportsError s saved = true → loadData s saved = s) ∧
      loadDataReportsError s (some none) = true ∧
      (∀ document s₁, assignCollections s (JSON.parse document) = some s₁ →
        importData s (some (some document)) = s₁ ∧
        (importDataAlert s (some (some document)) laterThrows = some ImportAlert.error ↔
          (s₁.students.isArray = false ∨ laterThrows = true))) := by
  refine ⟨⟨rfl, rfl⟩, ⟨rfl, rfl⟩, ?_, rfl, ?_⟩
  · intro saved h
    match saved, h with
    | some none, _ => rfl
    | some (some document), h =>
      simp only [loadDataReportsError, Option.isNone_iff_eq_none] at h
      simp [loadData, h]
  · intro document s₁ h
    refine ⟨by simp [importData, h], ?_⟩
    simp only [importDataAlert, h]
    cases s₁.students.isArray <;> cases laterThrows <;> simp

/-- C12 as stated fails: for the document `{"students": "abc"}` the handler of
`importData` reports an error, because `renderStudents` throws on a roster
that is not an array, and yet the roster has been replaced. -/
theorem importData_error_after_assignment :
    (∀ laterThrows, importDataAlert initialState.toJS
        (some (some (Json.obj [("students", Json.str "abc")]))) laterThrows
          = some ImportAlert.error) ∧
      (importData initialState.toJS
        (some (some (Json.obj [("students", Json.str "abc")])))).students = JSVal.str "abc" ∧
      (importData initialState.toJS
        (some (some (Json.obj [("students", Json.str "abc")])))).students
          ≠ initialState.toJS.students := by
  refine ⟨?_, rfl, ?_⟩
  · intro laterThrows
    cases laterThrows <;> rfl
  · intro h
    have h2 : (importData initialState.toJS
        (some (some (Json.obj [("students", Json.str "abc")])))).students = JSVal.str "abc" := rfl
    have h3 : initialState.toJS.students = JSVal.arr [] := rfl
    rw [h2, h3] at h
    cases h

/-! ### Monthly summary -/

theorem mem_completedInMonth (progress : List (Nat × ProgressRecord)) (activities : List String)
    (year month : Int) (e : MonthlyEntry) :
    e ∈ completedInMonth progress activities year month ↔
      ∃ idx r, (idx, r) ∈ progress ∧ dateInMonth r.date year month = true ∧
        e = { index := idx, text := activities[idx]?, date := r.date, time := r.time } := by
  unfold completedInMonth
  rw [List.mem_filterMap]
  constructor
  · rintro ⟨⟨idx, r⟩, hp, h⟩
    by_cases hd : dateInMonth r.date year month = true
    · simp only [hd, if_true, Option.some.injEq] at h
      exact ⟨idx, r, hp, hd, h.symm⟩
    · simp [hd] at h
  · rintro ⟨idx, r, hp, hd, rfl⟩
    exact ⟨(idx, r), hp, by simp [hd]⟩

theorem dateInMonth_iff (date : String) (year month : Int) :
    dateInMonth date year month = true ↔
      date ≠ "" ∧ parseInt (jsSplit '.' date)[1]? = some month ∧
        parseInt (jsSplit '.' date)[2]? = some year := by
  unfold dateInMonth
  by_cases h : date = ""
  · simp [h]
  · simp [h]

theorem mem_sortCompletedInMonth (l sorted : List MonthlyEntry)
    (h : sortCompletedInMonth l = some sorted) : sorted.Perm l := by
  unfold sortCompletedInMonth at h
  split at h
  · cases h
    exact List.perm_insertionSort _ _
  · cases h

/-- C6: for a student whose plan exists, the monthly summary is produced, and a
progress record is in the student's monthly list if and only if its stored
date is non-empty and, split at '.', has a second piece that `parseInt` reads
as the requested month and a third that it reads as the requested year; the
entry carries the record's index, date and time and the activity at that
index of the current plan. Sorting the list keeps exactly these entries. -/
theorem completedInMonth_iff (s : State) (student : Student) (year month : Int)
    (activities : List String)
    (hplan : Obj.get s.planTemplates student.planType = some activities) :
    ∃ summary, monthlySummary s student year month = some summary ∧
      (∀ e, e ∈ summary.completedInMonth ↔
        ∃ idx r, (idx, r) ∈ (Obj.get s.studentProgress student.id).getD [] ∧
          r.date ≠ "" ∧ parseInt (jsSplit '.' r.date)[1]? = some month ∧
          parseInt (jsSplit '.' r.date)[2]? = some year ∧
          e = { index := idx, text := activities[idx]?, date := r.date, time := r.time }) ∧
      (∀ sorted, sortCompletedInMonth summary.completedInMonth = some sorted →
        ∀ e, e ∈ sorted ↔ e ∈ summary.completedInMonth) := by
  have hsum : monthlySummary s student year month = some
      { completedInMonth :=
          completedInMonth ((Obj.get s.studentProgress student.id).getD []) activities year month
        totalCount := activities.length
        completedCount :=
          (completedInMonth ((Obj.get s.studentProgress student.id).getD []) activities
            year month).length
        percentage :=
          percentageOf (completedInMonth ((Obj.get s.studentProgress student.id).getD [])
            activities year month).length activities.length } := by
    simp only [monthlySummary, hplan]
  refine ⟨_, hsum, ?_, ?_⟩
  · intro e
    simp only [mem_completedInMonth, dateInMonth_iff]
    constructor
    · rintro ⟨idx, r, hp, ⟨h1, h2, h3⟩, he⟩
      exact ⟨idx, r, hp, h1, h2, h3, he⟩
    · rintro ⟨idx, r, hp, h1, h2, h3, he⟩
      exact ⟨idx, r, hp, ⟨h1, h2, h3⟩, he⟩
  · intro sorted hs e
    exact (mem_sortCompletedInMonth _ _ hs).mem_iff

theorem completedInMonth_iff_witness :
    Obj.get sampleState.planTemplates
        ({ id := 1, name := "Ana", grade := "III", planType := "1" } : Student).planType
      = some ["Say hello", "Count to ten", "Name colours"] ∧
    ∃ summary, monthlySummary sampleState
        { id := 1, name := "Ana", grade := "III", planType := "1" } 2024 3 = some summary ∧
      (∀ e, e ∈ summary.completedInMonth ↔
        ∃ idx r, (idx, r) ∈ (Obj.get sampleState.studentProgress
            ({ id := 1, name := "Ana", grade := "III", planType := "1" } : Student).id).getD [] ∧
          r.date ≠ "" ∧ parseInt (jsSplit '.' r.date)[1]? = some 3 ∧
          parseInt (jsSplit '.' r.date)[2]? = some 2024 ∧
          e = { index := idx,
                text := (["Say hello", "Count to ten", "Name colours"] : List String)[idx]?,
                date := r.date, time := r.time }) ∧
      (∀ sorted, sortCompletedInMonth summary.completedInMonth = some sorted →
        ∀ e, e ∈ sorted ↔ e ∈ summary.completedInMonth) :=
  ⟨by decide,
    completedInMonth_iff sampleState { id := 1, name := "Ana", grade := "III", planType := "1" }
      2024 3 ["Say hello", "Count to ten", "Name colours"] (by decide)⟩

/-- C16, as amended: for a student whose plan exists and whose progress map
holds a record at an index not less than the length of the plan, the monthly
summary and the progress report are produced (nothing throws), and the stale
record is not skipped: when its date lies in the month the summary lists it,
without activity text, and counts it; the report counts every record of the
map and prints the stale one with the text "undefined". -/
theorem stale_record_listed_and_counted (s : State) (student : Student) (year month : Int)
    (activities : List String)
    (hplan : Obj.get s.planTemplates student.planType = some activities)
    (i : Nat) (r : ProgressRecord) (hi : activities.length ≤ i)
    (hr : (i, r) ∈ (Obj.get s.studentProgress student.id).getD []) :
    ∃ summary pieces, monthlySummary s student year month = some summary ∧
      progressReportSection s student = some pieces ∧
      (dateInMonth r.date year month = true →
        { index := i, text := none, date := r.date, time := r.time }
          ∈ summary.completedInMonth) ∧
      summary.completedCount = summary.completedInMonth.length ∧
      pieces.head? = some (student.grade ++ " - " ++ student.name ++ "\nЗавршени активности: "
          ++ toString ((Obj.get s.studentProgress student.id).getD []).length ++ "/"
          ++ toString activities.length ++ " ("
          ++ toString (percentageOf ((Obj.get s.studentProgress student.id).getD []).length
              activities.length) ++ "%)\n") ∧
      ("  - undefined (" ++ r.date ++ " " ++ r.time ++ ")\n") ∈ pieces := by
  have hnone : activities[i]? = none := List.getElem?_eq_none hi
  have hpos : ((Obj.get s.studentProgress student.id).getD []).length > 0 :=
    List.length_pos_of_mem hr
  have hsum : monthlySummary s student year month = some
      { completedInMonth :=
          completedInMonth ((Obj.get s.studentProgress student.id).getD []) activities year month
        totalCount := activities.length
        completedCount :=
          (completedInMonth ((Obj.get s.studentProgress student.id).getD []) activities
            year month).length
        percentage :=
          percentageOf (completedInMonth ((Obj.get s.studentProgress student.id).getD [])
            activities year month).length activities.length } := by
    simp only [monthlySummary, hplan]
  cases hrep : progressReportSection s student with
  | none => simp [progressReportSection, hplan] at hrep
  | some pieces =>
  simp only [progressReportSection, hplan, Option.some.injEq] at hrep
  subst hrep
  refine ⟨_, _, hsum, rfl, ?_, rfl, ?_, ?_⟩
  · intro hd
    rw [mem_completedInMonth]
    exact ⟨i, r, hr, hd, by rw [hnone]⟩
  · simp
  · simp only [hpos, if_true, List.mem_append, List.mem_cons, List.mem_map]
    refine Or.inl (Or.inr (Or.inr ⟨(i, r), hr, ?_⟩))
    simp [hnone]

theorem stale_record_listed_and_counted_witness :
    Obj.get staleState.planTemplates
        ({ id := 1, name := "Ana", grade := "III", planType := "1" } : Student).planType
      = some ["Say hello"] ∧
    ["Say hello"].length ≤ 1 ∧
    ((1 : Nat), ({ completed := true, date := "10.03.2024", time := "" } : ProgressRecord))
      ∈ (Obj.get staleState.studentProgress
          ({ id := 1, name := "Ana", grade := "III", planType := "1" } : Student).id).getD [] ∧
    ∃ summary pieces, monthlySummary staleState
        { id := 1, name := "Ana", grade := "III", planType := "1" } 2024 3 = some summary ∧
      progressReportSection staleState { id := 1, name := "Ana", grade := "III", planType := "1" }
        = some pieces ∧
      (dateInMonth "10.03.2024" 2024 3 = true →
        { index := 1, text := none, date := "10.03.2024", time := "" }
          ∈ summary.completedInMonth) ∧
      summary.completedCount = summary.completedInMonth.length ∧
      pieces.head? = some ("III" ++ " - " ++ "Ana" ++ "\nЗавршени активности: "
          ++ toString ((Obj.get staleState.studentProgress
              ({ id := 1, name := "Ana", grade := "III", planType := "1" } : Student).id).getD
                []).length ++ "/"
          ++ toString ["Say hello"].length ++ " ("
          ++ toString (percentageOf ((Obj.get staleState.studentProgress
              ({ id := 1, name := "Ana", grade := "III", planType := "1" } : Student).id).getD
                []).length ["Say hello"].length) ++ "%)\n") ∧
      ("  - undefined (" ++ "10.03.2024" ++ " " ++ "" ++ ")\n") ∈ pieces :=
  ⟨by decide, by decide, by decide,
    stale_record_listed_and_counted staleState
      { id := 1, name := "Ana", grade := "III", planType := "1" } 2024 3 ["Say hello"]
      (by decide) 1 { completed := true, date := "10.03.2024", time := "" } (by decide)
      (by decide)⟩

set_option maxRecDepth 100000 in
/-- C16 as stated fails: with plan 1 shrunk to one activity, the record that
the first student keeps at index 1 is listed in the monthly summary of March
2024 and counted, so that 2 of 1 activities are completed (200 percent), and
the progress report counts it as well. -/
theorem stale_record_not_skipped :
    monthlySummary staleState { id := 1, name := "Ana", grade := "III", planType := "1" } 2024 3
        = some
          { completedInMonth :=
              [{ index := 0, text := some "Say hello", date := "05.03.2024",
                 time := "08:00-08:20" },
               { index := 1, text := none, date := "10.03.2024", time := "" }]
            totalCount := 1
            completedCount := 2
            percentage := 200 } ∧
      progressReportSection staleState { id := 1, name := "Ana", grade := "III", planType := "1" }
        = some ["III - Ana\nЗавршени активности: 2/1 (200%)\n", "Завршени активности:\n",
            "  - Say hello (05.03.2024 08:00-08:20)\n", "  - undefined (10.03.2024 )\n", "\n"] := by
  constructor
  · decide
  · rfl

/-! ### Backend example -/

/-- C20: `authenticateToken` responds 401 when no token is present (no header,
or no non-empty second piece in it), 401 when verification throws an error
named `TokenExpiredError`, and 403 for every other verification error, in
none of these cases calling `next`; when verification succeeds it sets
`req.user` to the verified payload and calls `next` without responding. -/
theorem authenticateToken_taxonomy {Payload : Type} (authHeader : Option String)
    (verify : String → Except String Payload) :
    (bearerToken authHeader = none →
        authenticateToken authHeader verify
          = AuthOutcome.respond 401 "Access denied. No token provided.") ∧
      (∀ token, bearerToken authHeader = some token →
        (verify token = Except.error "TokenExpiredError" →
          authenticateToken authHeader verify
            = AuthOutcome.respond 401 "Token expired. Please login again.") ∧
        (∀ name, name ≠ "TokenExpiredError" → verify token = Except.error name →
          authenticateToken authHeader verify = AuthOutcome.respond 403 "Invalid token.") ∧
        (∀ verified, verify token = Except.ok verified →
          authenticateToken authHeader verify = AuthOutcome.next verified)) ∧
      bearerToken none = none ∧ bearerToken (some "Bearer") = none ∧
      bearerToken (some "Bearer abc.def.ghi") = some "abc.def.ghi" := by
  refine ⟨?_, ?_, rfl, by decide, by decide⟩
  · intro h
    simp [authenticateToken, h]
  · intro token h
    refine ⟨?_, ?_, ?_⟩
    · intro hv
      simp [authenticateToken, h, hv]
    · intro name hname hv
      simp [authenticateToken, h, hv, hname]
    · intro verified hv
      simp [authenticateToken, h, hv]

/-- C19, failing input: the plan type "abc" converts to `NaN`, both comparisons
of `planType < 1 || planType > 6` are false, and the handlers of
`GET /api/plans/abc` and `DELETE /api/plans/abc/clear` go on to query the
database instead of answering 400; the plan types "0" and "7" are rejected
with 400 before any query. -/
theorem planType_abc_not_rejected :
    planTypeOutOfRange "abc" = some false ∧
      getPlanRoute "abc" false = some { status := 200, queries := 1 } ∧
      getPlanRoute "abc" true = some { status := 500, queries := 1 } ∧
      clearPlanRoute "abc" false = some { status := 200, queries := 1 } ∧
      getPlanRoute "0" false = some { status := 400, queries := 0 } ∧
      getPlanRoute "7" false = some { status := 400, queries := 0 } := by
  decide

/-! ### Dates in the form DD.MM.YYYY -/

theorem digit_toNat (c : Char) (h : isDecimalDigit c = true) :
    48 ≤ c.toNat ∧ c.toNat ≤ 57 := by
  simpa [isDecimalDigit] using h

theorem digit_not_ws (c : Char) (h : isDecimalDigit c = true) : isJSWhitespace c = false := by
  have h := digit_toNat c h
  simp only [isJSWhitespace, Bool.or_eq_false_iff, beq_eq_false_iff_ne, ne_eq,
    Bool.and_eq_false_iff, decide_eq_false_iff_not]
  refine ⟨⟨⟨⟨⟨⟨⟨⟨⟨⟨⟨⟨⟨⟨?_, ?_⟩, ?_⟩, ?_⟩, ?_⟩, ?_⟩, ?_⟩, ?_⟩, ?_⟩, ?_⟩, ?_⟩, ?_⟩, ?_⟩, ?_⟩, ?_⟩ <;>
    omega

theorem digit_ne (c d : Char) (h : isDecimalDigit c = true) (hd : isDecimalDigit d = false) :
    c ≠ d := by
  intro e
  rw [e, hd] at h
  cases h

theorem digit_value (c : Char) (h : isDecimalDigit c = true) :
    digitValue c = some (c.toNat - 48) ∧ c.toNat - 48 < 10 := by
  have h := digit_toNat c h
  simp only [digitValue, h, and_self, if_true, true_and]
  omega

theorem leadingDigits_digits (l : List Char) (h : ∀ c ∈ l, isDecimalDigit c = true) :
    leadingDigits 10 l = l.map (fun c => c.toNat - 48) := by
  induction l with
  | nil => rfl
  | cons c l ih =>
    have hc := digit_value c (h c (List.mem_cons_self _ _))
    simp [leadingDigits, hc.1, hc.2, ih (fun d hd => h d (List.mem_cons_of_mem _ hd))]

theorem dropWhile_ws_digits (l : List Char) (h : ∀ c ∈ l, isDecimalDigit c = true) :
    l.dropWhile isJSWhitespace = l := by
  cases l with
  | nil => rfl
  | cons c l => simp [List.dropWhile, digit_not_ws c (h c (List.mem_cons_self _ _))]

theorem trimChars_digits (l : List Char) (h : ∀ c ∈ l, isDecimalDigit c = true) :
    trimChars l = l := by
  unfold trimChars
  rw [dropWhile_ws_digits l h, dropWhile_ws_digits l.reverse (by simpa using h)]
  simp

/-- On a run of decimal digits `Number` gives the number written. -/
theorem jsNumberInt_digits (l : List Char) (hl : l ≠ [])
    (h : ∀ c ∈ l, isDecimalDigit c = true) :
    jsNumberInt ⟨l⟩ = some (digitsValue 10 (l.map (fun c => c.toNat - 48)) : Int) := by
  cases l with
  | nil => exact absurd rfl hl
  | cons c l =>
    have hc := h c (List.mem_cons_self _ _)
    have h1 : c ≠ '-' := digit_ne c '-' hc (by decide)
    have h2 : c ≠ '+' := digit_ne c '+' hc (by decide)
    simp [jsNumberInt, trimChars_digits _ h, h1, h2, leadingDigits_digits _ h]

/-- On a run of decimal digits `parseInt` gives the number written. -/
theorem parseIntChars_digits (l : List Char) (hl : l ≠ [])
    (h : ∀ c ∈ l, isDecimalDigit c = true) :
    parseIntChars l = some (digitsValue 10 (l.map (fun c => c.toNat - 48)) : Int) := by
  cases l with
  | nil => exact absurd rfl hl
  | cons c l =>
    have hc := h c (List.mem_cons_self _ _)
    have h1 : c ≠ '-' := digit_ne c '-' hc (by decide)
    have h2 : c ≠ '+' := digit_ne c '+' hc (by decide)
    have hhex : ¬((c :: l).take 2 = ['0', 'x'] ∨ (c :: l).take 2 = ['0', 'X']) := by
      cases l with
      | nil => simp
      | cons d l =>
        have hd := h d (List.mem_cons_of_mem _ (List.mem_cons_self _ _))
        have h3 : d ≠ 'x' := digit_ne d 'x' hd (by decide)
        have h4 : d ≠ 'X' := digit_ne d 'X' hd (by decide)
        simp [h3, h4]
    have hlead := leadingDigits_digits _ h
    simp only [parseIntChars, dropWhile_ws_digits _ h, List.head?_cons, Option.some.injEq, h1,
      h2, or_self, if_false, hhex, hlead, decide_False]
    simp

theorem daysFromCivil_bounds (y m : Int) (hy : -1 ≤ y) (hy2 : y ≤ 10100) (hm : 0 ≤ m)
    (hm2 : m ≤ 11) : -1000000 ≤ daysFromCivil y m ∧ daysFromCivil y m ≤ 4000000 := by
  unfold daysFromCivil
  simp only
  split_ifs <;> omega

/-- The time value of a date whose year has at most four digits and whose month
and day have at most two is in range: the date is valid, and the value is
the start of its month plus the day. -/
theorem dateValue_small (y m d : Int) (hy : 0 ≤ y) (hy2 : y ≤ 9999) (hm : 0 ≤ m)
    (hm2 : m ≤ 99) (hd : 0 ≤ d) (hd2 : d ≤ 99) :
    dateValue y (m - 1) d =
      some (daysFromCivil ((if 0 ≤ y ∧ y ≤ 99 then 1900 + y else y) + (m - 1) / 12)
        ((m - 1) % 12) + d - 1) := by
  have hb := daysFromCivil_bounds ((if 0 ≤ y ∧ y ≤ 99 then 1900 + y else y) + (m - 1) / 12)
    ((m - 1) % 12) (by split_ifs <;> omega) (by split_ifs <;> omega) (by omega) (by omega)
  unfold dateValue
  simp only
  rw [if_pos]
  constructor <;> omega

theorem digitsValue_two (a b : Nat) : digitsValue 10 [a, b] = a * 10 + b := by
  simp [digitsValue]

theorem digitsValue_four (a b c d : Nat) :
    digitsValue 10 [a, b, c, d] = ((a * 10 + b) * 10 + c) * 10 + d := by
  simp [digitsValue]

/-- What the code reads in a date of the form DD.MM.YYYY: the comparator's key is
the time value of that day, and the month test compares its month and year. -/
theorem readDDMMYYYY_spec (date : String) (d m y : Nat)
    (h : readDDMMYYYY date = some (d, m, y)) :
    sortKey date = some (daysFromCivil
        ((if 0 ≤ (y : Int) ∧ (y : Int) ≤ 99 then 1900 + (y : Int) else (y : Int))
          + ((m : Int) - 1) / 12) (((m : Int) - 1) % 12) + (d : Int) - 1) ∧
      (∀ year month : Int, dateInMonth date year month = true ↔
        ((m : Int) = month ∧ (y : Int) = year)) := by
  unfold readDDMMYYYY at h
  split at h
  · next d₁ d₂ m₁ m₂ y₁ y₂ y₃ y₄ hdata =>
    split at h
    · next hall =>
      simp only [List.all_cons, List.all_nil, Bool.and_true, Bool.and_eq_true] at hall
      obtain ⟨hd₁, hd₂, hm₁, hm₂, hy₁, hy₂, hy₃, hy₄⟩ := hall
      simp only [Option.some.injEq, Prod.mk.injEq] at h
      obtain ⟨hd, hm, hy⟩ := h
      have ne : ∀ c, isDecimalDigit c = true → c ≠ '.' := fun c hc =>
        digit_ne c '.' hc (by decide)
      have hsplit : jsSplit '.' date = [⟨[d₁, d₂]⟩, ⟨[m₁, m₂]⟩, ⟨[y₁, y₂, y₃, y₄]⟩] := by
        unfold jsSplit
        rw [hdata]
        simp [splitChars, ne d₁ hd₁, ne d₂ hd₂, ne m₁ hm₁, ne m₂ hm₂, ne y₁ hy₁, ne y₂ hy₂,
          ne y₃ hy₃, ne y₄ hy₄]
      have hD : ∀ c ∈ [d₁, d₂], isDecimalDigit c = true := by
        intro c hc; simp at hc; rcases hc with rfl | rfl <;> assumption
      have hM : ∀ c ∈ [m₁, m₂], isDecimalDigit c = true := by
        intro c hc; simp at hc; rcases hc with rfl | rfl <;> assumption
      have hY : ∀ c ∈ [y₁, y₂, y₃, y₄], isDecimalDigit c = true := by
        intro c hc; simp at hc; rcases hc with rfl | rfl | rfl | rfl <;> assumption
      have nD := jsNumberInt_digits _ (by simp) hD
      have nM := jsNumberInt_digits _ (by simp) hM
      have nY := jsNumberInt_digits _ (by simp) hY
      have pM := parseIntChars_digits _ (by simp) hM
      have pY := parseIntChars_digits _ (by simp) hY
      rw [hd] at nD
      rw [hm] at nM pM
      rw [hy] at nY pY
      have bd : d ≤ 99 := by
        have b₁ := (digit_value d₁ hd₁).2
        have b₂ := (digit_value d₂ hd₂).2
        rw [← hd, List.map_cons, List.map_cons, List.map_nil, digitsValue_two]
        omega
      have bm : m ≤ 99 := by
        have b₁ := (digit_value m₁ hm₁).2
        have b₂ := (digit_value m₂ hm₂).2
        rw [← hm, List.map_cons, List.map_cons, List.map_nil, digitsValue_two]
        omega
      have by' : y ≤ 9999 := by
        have b₁ := (digit_value y₁ hy₁).2
        have b₂ := (digit_value y₂ hy₂).2
        have b₃ := (digit_value y₃ hy₃).2
        have b₄ := (digit_value y₄ hy₄).2
        rw [← hy, List.map_cons, List.map_cons, List.map_cons, List.map_cons, List.map_nil,
          digitsValue_four]
        omega
      constructor
      · simp only [sortKey, hsplit, nD, nM, nY]
        exact dateValue_small y m d (by omega) (by omega) (by omega) (by omega) (by omega)
          (by omega)
      · intro year month
        have hne : date ≠ "" := by
          intro e
          rw [e] at hdata
          cases hdata
        simp only [dateInMonth, hne, if_false, hsplit, parseInt, List.getElem?_cons_succ,
          List.getElem?_cons_zero, pM, pY, Option.some.injEq, decide_eq_true_eq]
    · cases h
  · cases h

/-! ### The order of the monthly list -/

theorem monthly_entry_key (progress : List (Nat × ProgressRecord)) (activities : List String)
    (year month : Int) (e : MonthlyEntry)
    (he : e ∈ completedInMonth progress activities year month)
    (hfmt : (readDDMMYYYY e.date).isSome = true) :
    ∃ d m y : Nat, readDDMMYYYY e.date = some (d, m, y) ∧ (m : Int) = month ∧
      (y : Int) = year ∧
      sortKey e.date = some (daysFromCivil
        ((if 0 ≤ year ∧ year ≤ 99 then 1900 + year else year) + (month - 1) / 12)
        ((month - 1) % 12) + (d : Int) - 1) := by
  obtain ⟨idx, r, _, hd, rfl⟩ := (mem_completedInMonth _ _ _ _ _).mp he
  cases hread : readDDMMYYYY r.date with
  | none => simp [hread] at hfmt
  | some t =>
    obtain ⟨d, m, y⟩ := t
    obtain ⟨hkey, hmonth⟩ := readDDMMYYYY_spec r.date d m y hread
    obtain ⟨hm, hy⟩ := (hmonth year month).mp hd
    refine ⟨d, m, y, rfl, hm, hy, ?_⟩
    rw [hkey, hm, hy]

/-- C7: the sorted monthly list is a permutation of the records selected for the
month, and when the selected dates have the form DD.MM.YYYY the sort is
defined and orders the list by date: every entry's date is on or before the
date of every entry after it, whatever the activity indices are. -/
theorem sortCompletedInMonth_sorted (progress : List (Nat × ProgressRecord))
    (activities : List String) (year month : Int)
    (hfmt : ∀ e ∈ completedInMonth progress activities year month,
      (readDDMMYYYY e.date).isSome = true) :
    (∀ l sorted, sortCompletedInMonth l = some sorted → sorted.Perm l) ∧
      ∃ sorted, sortCompletedInMonth (completedInMonth progress activities year month)
          = some sorted ∧
        sorted.Perm (completedInMonth progress activities year month) ∧
        sorted.Pairwise (fun a b => onOrBefore a.date b.date) := by
  refine ⟨mem_sortCompletedInMonth, ?_⟩
  have hkeys : (completedInMonth progress activities year month).all
      (fun e => (sortKey e.date).isSome) = true := by
    rw [List.all_eq_true]
    intro e he
    obtain ⟨d, m, y, _, _, _, hk⟩ := monthly_entry_key _ _ _ _ e he (hfmt e he)
    simp [hk]
  have hdef : sortCompletedInMonth (completedInMonth progress activities year month) = some
      ((completedInMonth progress activities year month).insertionSort
        (fun a b => (sortKey a.date).getD 0 ≤ (sortKey b.date).getD 0)) := by
    simp only [sortCompletedInMonth, hkeys, if_true]
  have hperm := mem_sortCompletedInMonth _ _ hdef
  refine ⟨_, hdef, hperm, ?_⟩
  haveI : IsTotal MonthlyEntry
      (fun a b => (sortKey a.date).getD 0 ≤ (sortKey b.date).getD 0) :=
    ⟨fun a b => le_total _ _⟩
  haveI : IsTrans MonthlyEntry
      (fun a b => (sortKey a.date).getD 0 ≤ (sortKey b.date).getD 0) :=
    ⟨fun a b c h₁ h₂ => le_trans h₁ h₂⟩
  have hsorted := List.sorted_insertionSort
    (fun a b : MonthlyEntry => (sortKey a.date).getD 0 ≤ (sortKey b.date).getD 0)
    (completedInMonth progress activities year month)
  refine List.Pairwise.imp_of_mem ?_ hsorted
  intro a b ha hb hab
  have ha' := hperm.mem_iff.mp ha
  have hb' := hperm.mem_iff.mp hb
  obtain ⟨d₁, m₁, y₁, hr₁, hm₁, hy₁, hk₁⟩ := monthly_entry_key _ _ _ _ a ha' (hfmt a ha')
  obtain ⟨d₂, m₂, y₂, hr₂, hm₂, hy₂, hk₂⟩ := monthly_entry_key _ _ _ _ b hb' (hfmt b hb')
  simp only [hk₁, hk₂, Option.getD_some] at hab
  simp only [onOrBefore, hr₁, hr₂]
  right
  refine ⟨by omega, Or.inr ⟨by omega, by omega⟩⟩

/-! ### Double-precision arithmetic -/

theorem log2Fuel_spec (fuel n : Nat) (hn : n ≠ 0) (hf : n ≤ fuel) :
    2 ^ log2Fuel fuel n ≤ n ∧ n < 2 ^ (log2Fuel fuel n + 1) := by
  induction fuel generalizing n with
  | zero => omega
  | succ fuel ih =>
    unfold log2Fuel
    by_cases h2 : n < 2
    · simp only [h2, if_true]
      omega
    · simp only [h2, if_false]
      obtain ⟨h₁, h₂⟩ := ih (n / 2) (by omega) (by omega)
      rw [pow_succ, pow_succ] at *
      constructor <;> omega

theorem ilog2_spec (n : Nat) (hn : n ≠ 0) : 2 ^ ilog2 n ≤ n ∧ n < 2 ^ (ilog2 n + 1) :=
  log2Fuel_spec n n hn (Nat.le_refl n)

/-- The rounded quotient is within one half of the quotient. -/
theorem roundHalfEven_spec (n d : Nat) (hd : 0 < d) :
    2 * (roundHalfEven n d * d) ≤ 2 * n + d ∧ 2 * n ≤ 2 * (roundHalfEven n d * d) + d := by
  have hdiv := Nat.div_add_mod n d
  have hmod := Nat.mod_lt n hd
  have hq : n / d * d = d * (n / d) := Nat.mul_comm _ _
  unfold roundHalfEven
  simp only
  split_ifs <;> (try simp only [Nat.add_mul, Nat.one_mul]) <;> omega

/-- The unit in the last place is small enough: scaled by it, the quotient is
at least 2^52. -/
theorem ulpExponent_normalised (n d : Nat) (hn : 0 < n) (hd : 0 < d) :
    2 ^ 52 * (d * 2 ^ (ulpExponent n d).toNat) ≤ n * 2 ^ (-(ulpExponent n d)).toNat := by
  obtain ⟨hn₁, _⟩ := ilog2_spec n (by omega)
  obtain ⟨_, hd₂⟩ := ilog2_spec d (by omega)
  unfold ulpExponent
  simp only
  split_ifs with hc
  · by_cases hcase : ilog2 d + 53 ≤ ilog2 n
    · have e₁ : ((ilog2 n : Int) - (ilog2 d : Int) - 52 - 1).toNat = ilog2 n - ilog2 d - 53 := by
        omega
      have e₂ : (-((ilog2 n : Int) - (ilog2 d : Int) - 52 - 1)).toNat = 0 := by omega
      rw [e₁, e₂, pow_zero, Nat.mul_one]
      have hpow : 2 ^ 52 * (2 ^ (ilog2 d + 1) * 2 ^ (ilog2 n - ilog2 d - 53)) = 2 ^ ilog2 n := by
        rw [← pow_add, ← pow_add]
        congr 1
        omega
      have hlt : d * 2 ^ (ilog2 n - ilog2 d - 53)
          ≤ 2 ^ (ilog2 d + 1) * 2 ^ (ilog2 n - ilog2 d - 53) :=
        Nat.mul_le_mul_right _ (Nat.le_of_lt hd₂)
      calc 2 ^ 52 * (d * 2 ^ (ilog2 n - ilog2 d - 53))
          ≤ 2 ^ 52 * (2 ^ (ilog2 d + 1) * 2 ^ (ilog2 n - ilog2 d - 53)) :=
            Nat.mul_le_mul_left _ hlt
        _ = 2 ^ ilog2 n := hpow
        _ ≤ n := hn₁
    · have e₁ : ((ilog2 n : Int) - (ilog2 d : Int) - 52 - 1).toNat = 0 := by omega
      have e₂ : (-((ilog2 n : Int) - (ilog2 d : Int) - 52 - 1)).toNat
          = ilog2 d + 53 - ilog2 n := by omega
      rw [e₁, e₂, pow_zero, Nat.mul_one]
      have hpow : 2 ^ ilog2 n * 2 ^ (ilog2 d + 53 - ilog2 n) = 2 ^ 52 * 2 ^ (ilog2 d + 1) := by
        rw [← pow_add, ← pow_add]
        congr 1
        omega
      calc 2 ^ 52 * d ≤ 2 ^ 52 * 2 ^ (ilog2 d + 1) :=
            Nat.mul_le_mul_left _ (Nat.le_of_lt hd₂)
        _ = 2 ^ ilog2 n * 2 ^ (ilog2 d + 53 - ilog2 n) := hpow.symm
        _ ≤ n * 2 ^ (ilog2 d + 53 - ilog2 n) := Nat.mul_le_mul_right _ hn₁
  · exact Nat.le_of_not_lt hc

/-- The relative error of one rounding is at most 2^-53. -/
theorem roundDouble_spec (n d : Nat) (hn : 0 < n) (hd : 0 < d) :
    0 < (roundDouble n d).den ∧
      2 ^ 53 * ((roundDouble n d).num * d) ≤ (2 ^ 53 + 1) * (n * (roundDouble n d).den) ∧
      (2 ^ 53 - 1) * (n * (roundDouble n d).den) ≤ 2 ^ 53 * ((roundDouble n d).num * d) := by
  have hnorm := ulpExponent_normalised n d hn hd
  have hD : 0 < d * 2 ^ (ulpExponent n d).toNat := Nat.mul_pos hd (by positivity)
  obtain ⟨h₁, h₂⟩ := roundHalfEven_spec (n * 2 ^ (-(ulpExponent n d)).toNat)
    (d * 2 ^ (ulpExponent n d).toNat) hD
  have hnum : (roundDouble n d).num * d =
      roundHalfEven (n * 2 ^ (-(ulpExponent n d)).toNat) (d * 2 ^ (ulpExponent n d).toNat)
        * (d * 2 ^ (ulpExponent n d).toNat) := by
    simp only [roundDouble]
    ring
  have hden : n * (roundDouble n d).den = n * 2 ^ (-(ulpExponent n d)).toNat := by
    simp only [roundDouble]
  refine ⟨by simp only [roundDouble]; positivity, ?_, ?_⟩
  · rw [hnum, hden]
    omega
  · rw [hnum, hden]
    omega

theorem frac_le_of_mul_le (a b c d K : ℚ) (hb : 0 < b) (hd : 0 < d) (hK : 0 < K)
    (h : K * (a * d) ≤ (K + 1) * (c * b)) : a / b ≤ (1 + 1 / K) * (c / d) := by
  rw [div_le_iff₀ hb]
  have e : (1 + 1 / K) * (c / d) * b = ((K + 1) * (c * b)) / (K * d) := by
    field_simp
    ring
  rw [e, le_div_iff₀ (by positivity)]
  calc a * (K * d) = K * (a * d) := by ring
    _ ≤ (K + 1) * (c * b) := h

theorem frac_ge_of_mul_le (a b c d K : ℚ) (hb : 0 < b) (hd : 0 < d) (hK : 0 < K)
    (h : (K - 1) * (c * b) ≤ K * (a * d)) : (1 - 1 / K) * (c / d) ≤ a / b := by
  rw [le_div_iff₀ hb]
  have e : (1 - 1 / K) * (c / d) * b = ((K - 1) * (c * b)) / (K * d) := by
    field_simp
    ring
  rw [e, div_le_iff₀ (by positivity)]
  calc (K - 1) * (c * b) ≤ K * (a * d) := h
    _ = a * (K * d) := by ring

/-- The percentage computed in double precision is an integer nearest to
`100 * c / t`: it differs from the exact quotient by one half at most. -/
theorem percentageOf_nearest (c t : Nat) (ht : 0 < t) (hc : c < 2 ^ 44) :
    2 * (percentageOf c t * t) ≤ 200 * c + t ∧ 200 * c ≤ 2 * (percentageOf c t * t) + t := by
  by_cases hc0 : c = 0
  · subst hc0
    have : percentageOf 0 t = 0 := by
      simp [percentageOf, ht, Double.ofDiv, Double.mulNat, Double.round]
    rw [this]
    omega
  have hcpos : 0 < c := Nat.pos_of_ne_zero hc0
  obtain ⟨hb₁, h1a, h1b⟩ := roundDouble_spec c t hcpos ht
  have ha₁ : 0 < (roundDouble c t).num := by
    by_contra h0
    have h0' : (roundDouble c t).num = 0 := by omega
    rw [h0', Nat.zero_mul, Nat.mul_zero] at h1b
    have : 0 < (2 ^ 53 - 1) * (c * (roundDouble c t).den) :=
      Nat.mul_pos (by norm_num) (Nat.mul_pos hcpos hb₁)
    omega
  obtain ⟨hb₂, h2a, h2b⟩ := roundDouble_spec ((roundDouble c t).num * 100) (roundDouble c t).den
    (by omega) hb₁
  have hp : percentageOf c t =
      (2 * (roundDouble ((roundDouble c t).num * 100) (roundDouble c t).den).num
        + (roundDouble ((roundDouble c t).num * 100) (roundDouble c t).den).den)
      / (2 * (roundDouble ((roundDouble c t).num * 100) (roundDouble c t).den).den) := by
    have hne : (roundDouble c t).num * 100 ≠ 0 := by omega
    simp [percentageOf, ht, Double.ofDiv, hc0, Double.mulNat, hne, Double.round]
  generalize percentageOf c t = p at hp ⊢
  generalize roundDouble ((roundDouble c t).num * 100) (roundDouble c t).den = y at *
  generalize roundDouble c t = x at *
  obtain ⟨a₁, b₁⟩ := x
  obtain ⟨a₂, b₂⟩ := y
  simp only at *
  have hdiv := Nat.div_add_mod (2 * a₂ + b₂) (2 * b₂)
  have hmod := Nat.mod_lt (2 * a₂ + b₂) (show 0 < 2 * b₂ by omega)
  rw [← hp] at hdiv
  -- the same facts over the rationals
  have hK : (0 : ℚ) < 9007199254740992 := by norm_num
  have qb₁ : (0 : ℚ) < b₁ := by exact_mod_cast hb₁
  have qb₂ : (0 : ℚ) < b₂ := by exact_mod_cast hb₂
  have qt : (0 : ℚ) < t := by exact_mod_cast ht
  have X_le : (a₁ : ℚ) / b₁ ≤ (1 + 1 / 9007199254740992) * ((c : ℚ) / t) := by
    apply frac_le_of_mul_le _ _ _ _ _ qb₁ qt hK
    norm_num at h1a
    have : (9007199254740992 : ℚ) + 1 = 9007199254740993 := by norm_num
    rw [this]
    exact_mod_cast h1a
  have X_ge : (1 - 1 / 9007199254740992) * ((c : ℚ) / t) ≤ (a₁ : ℚ) / b₁ := by
    apply frac_ge_of_mul_le _ _ _ _ _ qb₁ qt hK
    norm_num at h1b
    have : (9007199254740992 : ℚ) - 1 = 9007199254740991 := by norm_num
    rw [this]
    exact_mod_cast h1b
  have Y_le : (a₂ : ℚ) / b₂ ≤ (1 + 1 / 9007199254740992) * (((a₁ : ℚ) * 100) / b₁) := by
    apply frac_le_of_mul_le _ _ _ _ _ qb₂ qb₁ hK
    norm_num at h2a
    have : (9007199254740992 : ℚ) + 1 = 9007199254740993 := by norm_num
    rw [this]
    exact_mod_cast h2a
  have Y_ge : (1 - 1 / 9007199254740992) * (((a₁ : ℚ) * 100) / b₁) ≤ (a₂ : ℚ) / b₂ := by
    apply frac_ge_of_mul_le _ _ _ _ _ qb₂ qb₁ hK
    norm_num at h2b
    have : (9007199254740992 : ℚ) - 1 = 9007199254740991 := by norm_num
    rw [this]
    exact_mod_cast h2b
  have hX100 : ((a₁ : ℚ) * 100) / b₁ = 100 * ((a₁ : ℚ) / b₁) := by ring
  rw [hX100] at Y_le Y_ge
  -- the rounding to an integer
  have P_le : (p : ℚ) - 1 / 2 ≤ (a₂ : ℚ) / b₂ := by
    rw [le_div_iff₀ qb₂]
    have h : 2 * b₂ * p ≤ 2 * a₂ + b₂ := by omega
    have h' : (2 : ℚ) * b₂ * p ≤ 2 * a₂ + b₂ := by exact_mod_cast h
    linarith
  have P_gt : (a₂ : ℚ) / b₂ < (p : ℚ) + 1 / 2 := by
    rw [div_lt_iff₀ qb₂]
    have h : 2 * a₂ + b₂ < 2 * b₂ * p + 2 * b₂ := by omega
    have h' : (2 : ℚ) * a₂ + b₂ < 2 * b₂ * p + 2 * b₂ := by exact_mod_cast h
    linarith
  -- the quotient and the gap between it and a half-integer
  have hw : (0 : ℚ) < 1 / (2 * t) := by positivity
  have hq : (c : ℚ) / t ≤ 35184372088832 * (1 / (2 * t)) := by
    rw [div_le_iff₀ qt]
    have e : (35184372088832 : ℚ) * (1 / (2 * t)) * t = 17592186044416 := by
      field_simp
      ring
    rw [e]
    have : c ≤ 17592186044416 := by
      have : (2 : Nat) ^ 44 = 17592186044416 := by norm_num
      omega
    exact_mod_cast this
  have hq0 : (0 : ℚ) ≤ (c : ℚ) / t := by positivity
  constructor
  · by_contra hcon
    have h : 200 * c + t + 1 ≤ 2 * (p * t) := by omega
    have h' : (200 : ℚ) * c + t + 1 ≤ 2 * (p * t) := by exact_mod_cast h
    have hP : 100 * ((c : ℚ) / t) + 1 / 2 + 1 / (2 * t) ≤ p := by
      have e : 100 * ((c : ℚ) / t) + 1 / 2 + 1 / (2 * t) = (200 * c + t + 1) / (2 * t) := by
        field_simp
        ring
      rw [e, div_le_iff₀ (by positivity)]
      linarith
    nlinarith
  · by_contra hcon
    have h : 2 * (p * t) + t + 1 ≤ 200 * c := by omega
    have h' : (2 : ℚ) * (p * t) + t + 1 ≤ 200 * c := by exact_mod_cast h
    have hP : (p : ℚ) + 1 / 2 + 1 / (2 * t) ≤ 100 * ((c : ℚ) / t) := by
      have e : 100 * ((c : ℚ) / t) = (200 * c) / (2 * t) := by
        field_simp
        ring
      have e2 : (p : ℚ) + 1 / 2 + 1 / (2 * t) = (2 * (p * t) + t + 1) / (2 * t) := by
        field_simp
        ring
      rw [e, e2]
      exact div_le_div_of_nonneg_right h' (by positivity)
    nlinarith

theorem sortCompletedInMonth_sorted_witness :
    (∀ e ∈ completedInMonth
        [(0, { completed := true, date := "15.03.2024", time := "" }),
         (1, { completed := true, date := "05.03.2024", time := "" }),
         (2, { completed := true, date := "10.04.2024", time := "" })]
        ["Say hello", "Count to ten", "Name colours"] 2024 3,
        (readDDMMYYYY e.date).isSome = true) ∧
      ((∀ l sorted, sortCompletedInMonth l = some sorted → sorted.Perm l) ∧
        ∃ sorted, sortCompletedInMonth (completedInMonth
            [(0, { completed := true, date := "15.03.2024", time := "" }),
             (1, { completed := true, date := "05.03.2024", time := "" }),
             (2, { completed := true, date := "10.04.2024", time := "" })]
            ["Say hello", "Count to ten", "Name colours"] 2024 3) = some sorted ∧
          sorted.Perm (completedInMonth
            [(0, { completed := true, date := "15.03.2024", time := "" }),
             (1, { completed := true, date := "05.03.2024", time := "" }),
             (2, { completed := true, date := "10.04.2024", time := "" })]
            ["Say hello", "Count to ten", "Name colours"] 2024 3) ∧
          sorted.Pairwise (fun a b => onOrBefore a.date b.date)) :=
  ⟨by decide,
    sortCompletedInMonth_sorted
      [(0, { completed := true, date := "15.03.2024", time := "" }),
       (1, { completed := true, date := "05.03.2024", time := "" }),
       (2, { completed := true, date := "10.04.2024", time := "" })]
      ["Say hello", "Count to ten", "Name colours"] 2024 3 (by decide)⟩

/-! ### The monthly percentage -/

/-- C8, as amended: for a student whose plan exists, the total is the length of
the current plan, the completed count is the length of the monthly list, and
the percentage is `Math.round` of the double `(count / total) * 100`: it
is 0 when the plan is empty, and otherwise an integer nearest to
`100 * count / total`, at most one half away from it (counts below 2^44, as
every array length is); 1 of 3 gives 33. -/
theorem monthly_percentage (s : State) (student : Student) (year month : Int)
    (activities : List String)
    (hplan : Obj.get s.planTemplates student.planType = some activities) :
    ∃ summary, monthlySummary s student year month = some summary ∧
      summary.totalCount = activities.length ∧
      summary.completedCount = summary.completedInMonth.length ∧
      summary.percentage = percentageOf summary.completedCount summary.totalCount ∧
      (activities = [] → summary.percentage = 0) ∧
      (0 < summary.totalCount → summary.completedCount < 2 ^ 44 →
        2 * (summary.percentage * summary.totalCount)
            ≤ 200 * summary.completedCount + summary.totalCount ∧
          200 * summary.completedCount
            ≤ 2 * (summary.percentage * summary.totalCount) + summary.totalCount) ∧
      percentageOf 1 3 = 33 := by
  have hsum : monthlySummary s student year month = some
      { completedInMonth :=
          completedInMonth ((Obj.get s.studentProgress student.id).getD []) activities year month
        totalCount := activities.length
        completedCount :=
          (completedInMonth ((Obj.get s.studentProgress student.id).getD []) activities
            year month).length
        percentage :=
          percentageOf (completedInMonth ((Obj.get s.studentProgress student.id).getD [])
            activities year month).length activities.length } := by
    simp only [monthlySummary, hplan]
  refine ⟨_, hsum, rfl, rfl, rfl, ?_, ?_, by decide⟩
  · intro h
    simp [h, percentageOf]
  · intro ht hc
    exact percentageOf_nearest _ _ ht hc

theorem monthly_percentage_witness :
    Obj.get sampleState.planTemplates
        ({ id := 1, name := "Ana", grade := "III", planType := "1" } : Student).planType
      = some ["Say hello", "Count to ten", "Name colours"] ∧
    ∃ summary, monthlySummary sampleState
        { id := 1, name := "Ana", grade := "III", planType := "1" } 2024 3 = some summary ∧
      summary.totalCount = ["Say hello", "Count to ten", "Name colours"].length ∧
      summary.completedCount = summary.completedInMonth.length ∧
      summary.percentage = percentageOf summary.completedCount summary.totalCount ∧
      ((["Say hello", "Count to ten", "Name colours"] : List String) = [] →
        summary.percentage = 0) ∧
      (0 < summary.totalCount → summary.completedCount < 2 ^ 44 →
        2 * (summary.percentage * summary.totalCount)
            ≤ 200 * summary.completedCount + summary.totalCount ∧
          200 * summary.completedCount
            ≤ 2 * (summary.percentage * summary.totalCount) + summary.totalCount) ∧
      percentageOf 1 3 = 33 :=
  ⟨by decide,
    monthly_percentage sampleState { id := 1, name := "Ana", grade := "III", planType := "1" }
      2024 3 ["Say hello", "Count to ten", "Name colours"] (by decide)⟩

set_option maxRecDepth 100000 in
/-- C8 as stated fails: with 23 of the 40 activities of the plan completed in
the month, the code computes `(23 / 40) * 100` as the double just below
57.5 and shows 57 percent, while `round(100 * 23 / 40)` is 58. -/
theorem percentage_23_of_40 :
    (monthlySummary fortyState { id := 1, name := "Ana", grade := "III", planType := "1" }
        2024 3).map (fun summary =>
          (summary.completedCount, summary.totalCount, summary.percentage))
        = some (23, 40, 57) ∧
      exactPercentage 23 40 = 58 ∧
      Double.mulNat (Double.ofDiv 23 40) 100
        = { num := 8092405580431359, den := 140737488355328 } := by
  decide

/-! ### Removing a student from a slot -/

theorem set_of_getElem? {α : Type} (l : List α) (i : Nat) (x : α) (h : l[i]? = some x) :
    l.set i x = l := by
  induction l generalizing i with
  | nil => simp at h
  | cons y l ih =>
    cases i with
    | zero =>
      simp at h
      simp [h]
    | succ i =>
      simp at h
      simp [ih i h]

/-- C22: for an existing cell, `removeStudentFromSlot(day, slot, id)` leaves the
cell holding exactly its previous ids other than `id`, in their previous
order, and leaves every other cell, the roster, the plan templates and the
progress map unchanged; when `id` is not in the cell the whole state is
unchanged. -/
theorem removeStudentFromSlot_frame (s : State) (day : String) (timeIdx : Nat)
    (studentId : Int) (cell : List Int) (hcell : getCell s day timeIdx = some cell) :
    ∃ s₁, removeStudentFromSlot s day timeIdx studentId = some s₁ ∧
      getCell s₁ day timeIdx = some (cell.filter (fun id => decide (id ≠ studentId))) ∧
      (∀ id, id ∈ cell.filter (fun id => decide (id ≠ studentId)) ↔ id ∈ cell ∧ id ≠ studentId) ∧
      (cell.filter (fun id => decide (id ≠ studentId))).Sublist cell ∧
      (∀ d i, (d, i) ≠ (day, timeIdx) → getCell s₁ d i = getCell s d i) ∧
      s₁.students = s.students ∧ s₁.planTemplates = s.planTemplates ∧
      s₁.studentProgress = s.studentProgress ∧
      (studentId ∉ cell → s₁ = s) := by
  unfold getCell at hcell
  cases hday : Obj.get s.schedule day with
  | none => simp [hday] at hcell
  | some slots =>
    simp only [hday] at hcell
    have hidx : timeIdx < slots.length := by
      by_contra hge
      rw [List.getElem?_eq_none (by omega)] at hcell
      cases hcell
    have hrem : removeStudentFromSlot s day timeIdx studentId = some
        { s with
          schedule :=
            Obj.set s.schedule day
              (slots.set timeIdx (cell.filter (fun id => decide (id ≠ studentId)))) } := by
      simp only [removeStudentFromSlot, hday, hcell]
    refine ⟨_, hrem, ?_, ?_, List.filter_sublist _, ?_, rfl, rfl, rfl, ?_⟩
    · rw [getCell_assign]
      simp [hidx]
    · intro id
      simp [List.mem_filter]
    · intro d i hne
      rw [getCell_assign]
      by_cases hd : d = day
      · subst hd
        have hi : timeIdx ≠ i := by
          intro h
          exact hne (by rw [h])
        simp [getCell, hday, List.getElem?_set_ne hi]
      · simp [hd]
    · intro hnot
      have hfilter : cell.filter (fun id => decide (id ≠ studentId)) = cell := by
        rw [List.filter_eq_self]
        intro a ha
        simp only [decide_eq_true_eq]
        intro e
        exact hnot (e ▸ ha)
      rw [hfilter, set_of_getElem? _ _ _ hcell, Obj.set_of_get _ _ _ hday]

theorem removeStudentFromSlot_frame_witness :
    getCell sampleState "monday" 0 = some [1] ∧
      ∃ s₁, removeStudentFromSlot sampleState "monday" 0 1 = some s₁ ∧
        getCell s₁ "monday" 0 = some (([1] : List Int).filter (fun id => decide (id ≠ 1))) ∧
        (∀ id, id ∈ ([1] : List Int).filter (fun id => decide (id ≠ 1)) ↔
          id ∈ ([1] : List Int) ∧ id ≠ 1) ∧
        (([1] : List Int).filter (fun id => decide (id ≠ 1))).Sublist [1] ∧
        (∀ d i, (d, i) ≠ ("monday", 0) → getCell s₁ d i = getCell sampleState d i) ∧
        s₁.students = sampleState.students ∧ s₁.planTemplates = sampleState.planTemplates ∧
        s₁.studentProgress = sampleState.studentProgress ∧
        ((1 : Int) ∉ ([1] : List Int) → s₁ = sampleState) :=
  ⟨by decide, removeStudentFromSlot_frame sampleState "monday" 0 1 [1] (by decide)⟩

/-! ### Deleting and adding one activity -/

/-- C25: for a plan whose list exists (each of 1..6, by the six plan slots) and
an index `idx` within the list, a confirmed `deleteActivity(plan, idx)` removes exactly one
activity: the new list is one shorter, the entries before `idx` are
unchanged, and every position `j ≥ idx` holds the old entry at `j + 1`. -/
theorem deleteActivity_shifts (s : State) (planNum : Int) (activities : List String)
    (hplan : Obj.get s.planTemplates (toString planNum) = some activities) (idx : Nat)
    (hidx : idx < activities.length) :
    ∃ s₁ remaining, deleteActivity s planNum idx true = some s₁ ∧
      Obj.get s₁.planTemplates (toString planNum) = some remaining ∧
      remaining.length + 1 = activities.length ∧
      (∀ j, j < idx → remaining[j]? = activities[j]?) ∧
      (∀ j, idx ≤ j → remaining[j]? = activities[j + 1]?) := by
  have hdel : deleteActivity s planNum idx true = some
      { s with
        planTemplates :=
          Obj.set s.planTemplates (toString planNum) (activities.eraseIdx idx) } := by
    simp only [deleteActivity, hplan, if_true]
  refine ⟨_, activities.eraseIdx idx, hdel, ?_, ?_, ?_, ?_⟩
  · exact Obj.get_set_self _ _ _
  · rw [List.length_eraseIdx_of_lt hidx]
    omega
  · intro j hj
    exact List.getElem?_eraseIdx_of_lt _ _ _ hj
  · intro j hj
    exact List.getElem?_eraseIdx_of_ge _ _ _ hj

theorem deleteActivity_shifts_witness :
    Obj.get sampleState.planTemplates (toString (1 : Int))
        = some ["Say hello", "Count to ten", "Name colours"] ∧
      1 < ["Say hello", "Count to ten", "Name colours"].length ∧
      ∃ s₁ remaining, deleteActivity sampleState 1 1 true = some s₁ ∧
        Obj.get s₁.planTemplates (toString (1 : Int)) = some remaining ∧
        remaining.length + 1 = ["Say hello", "Count to ten", "Name colours"].length ∧
        (∀ j, j < 1 →
          remaining[j]? = (["Say hello", "Count to ten", "Name colours"] : List String)[j]?) ∧
        (∀ j, 1 ≤ j →
          remaining[j]? = (["Say hello", "Count to ten", "Name colours"] : List String)[j + 1]?) :=
  ⟨by decide, by decide,
    deleteActivity_shifts sampleState 1 ["Say hello", "Count to ten", "Name colours"]
      (by decide) 1 (by decide)⟩

/-- C26: for a plan whose list exists (each of 1..6, by the six plan slots),
`addActivity` with a text
that is not blank appends the trimmed text at the end of that plan's list,
the existing entries keeping their indices, and changes nothing else; with
an empty or white-space-only text the call is rejected with an alert and
the state is returned unchanged. -/
theorem addActivity_appends (s : State) (planType : String)
    (activities : List String) (hplan : Obj.get s.planTemplates planType = some activities)
    (text : String) :
    (jsTrim text ≠ "" →
        ∃ s₁, addActivity s planType text = some (s₁, none) ∧
          Obj.get s₁.planTemplates planType = some (activities ++ [jsTrim text]) ∧
          (∀ j, j < activities.length →
            (activities ++ [jsTrim text])[j]? = activities[j]?) ∧
          (activities ++ [jsTrim text])[activities.length]? = some (jsTrim text) ∧
          (∀ k, k ≠ planType → Obj.get s₁.planTemplates k = Obj.get s.planTemplates k) ∧
          s₁.students = s.students ∧ s₁.schedule = s.schedule ∧
          s₁.studentProgress = s.studentProgress) ∧
      (jsTrim text = "" →
        addActivity s planType text = some (s, some "Ве молиме внесете активност")) := by
  constructor
  · intro hne
    have hadd : addActivity s planType text = some
        ({ s with
            planTemplates := Obj.set s.planTemplates planType (activities ++ [jsTrim text]) },
          none) := by
      simp only [addActivity, hne, if_false, hplan]
    refine ⟨_, hadd, Obj.get_set_self _ _ _, ?_, ?_, ?_, rfl, rfl, rfl⟩
    · intro j hj
      exact List.getElem?_append_left hj
    · simp
    · intro k hk₂
      exact Obj.get_set_other _ _ _ _ hk₂
  · intro he
    simp only [addActivity, he, if_true]

theorem addActivity_appends_witness :
    Obj.get sampleState.planTemplates "1"
        = some ["Say hello", "Count to ten", "Name colours"] ∧
      ((jsTrim "  Wave  " ≠ "" →
          ∃ s₁, addActivity sampleState "1" "  Wave  " = some (s₁, none) ∧
            Obj.get s₁.planTemplates "1"
              = some (["Say hello", "Count to ten", "Name colours"] ++ [jsTrim "  Wave  "]) ∧
            (∀ j, j < ["Say hello", "Count to ten", "Name colours"].length →
              (["Say hello", "Count to ten", "Name colours"] ++ [jsTrim "  Wave  "])[j]?
                = (["Say hello", "Count to ten", "Name colours"] : List String)[j]?) ∧
            (["Say hello", "Count to ten", "Name colours"] ++ [jsTrim "  Wave  "])[
                ["Say hello", "Count to ten", "Name colours"].length]?
              = some (jsTrim "  Wave  ") ∧
            (∀ k, k ≠ "1" →
              Obj.get s₁.planTemplates k = Obj.get sampleState.planTemplates k) ∧
            s₁.students = sampleState.students ∧ s₁.schedule = sampleState.schedule ∧
            s₁.studentProgress = sampleState.studentProgress) ∧
        (jsTrim "  Wave  " = "" →
          addActivity sampleState "1" "  Wave  "
            = some (sampleState, some "Ве молиме внесете активност"))) :=
  ⟨by decide,
    addActivity_appends sampleState "1"
      ["Say hello", "Count to ten", "Name colours"] (by decide) "  Wave  "⟩

/-! ### Plan edits and progress -/

/-- A plan operation leaves the roster, the schedule and the progress map. -/
theorem PlanStep.frame (k : String) (s s₁ : State) (h : PlanStep k s s₁) :
    s₁.students = s.students ∧ s₁.schedule = s.schedule ∧
      s₁.studentProgress = s.studentProgress := by
  cases h with
  | addActivity s planType text r h =>
    unfold StudentManager.addActivity at h
    simp only at h
    split at h
    · cases h; exact ⟨rfl, rfl, rfl⟩
    · split at h
      · cases h
      · cases h; exact ⟨rfl, rfl, rfl⟩
  | deleteActivity s planNum idx confirmed s₁ h =>
    unfold StudentManager.deleteActivity at h
    split at h
    · split at h
      · cases h
      · cases h; exact ⟨rfl, rfl, rfl⟩
    · cases h; exact ⟨rfl, rfl, rfl⟩
  | createPlan s planType text =>
    unfold StudentManager.createPlan
    simp only
    split <;> exact ⟨rfl, rfl, rfl⟩
  | savePlanEdit s planNumber text =>
    unfold StudentManager.savePlanEdit
    simp only
    split <;> exact ⟨rfl, rfl, rfl⟩
  | deletePlan s planNumber confirmed =>
    unfold StudentManager.deletePlan
    simp only
    split
    · exact ⟨rfl, rfl, rfl⟩
    · split <;> exact ⟨rfl, rfl, rfl⟩
  | uploadPlanFile s planType file =>
    unfold StudentManager.uploadPlanFile
    split
    · exact ⟨rfl, rfl, rfl⟩
    · exact ⟨rfl, rfl, rfl⟩
    · simp only
      split <;> exact ⟨rfl, rfl, rfl⟩

/-- C28: `deleteActivity`, `addActivity`, `createPlan`, `savePlanEdit` and
`deletePlan` leave `studentProgress`, the roster and the schedule unchanged;
so after the activity at `idx` is deleted, the record that a student has at
an index `j ≥ idx` is still there and index `j` now names the activity that
was at `j + 1` before. -/
theorem plan_edits_keep_progress (s : State) :
    (∀ k s₁, PlanStep k s s₁ →
        s₁.students = s.students ∧ s₁.schedule = s.schedule ∧
        s₁.studentProgress = s.studentProgress) ∧
      (∀ (planNum : Int) (idx : Nat) (s₁ : State),
        deleteActivity s planNum idx true = some s₁ →
        (∀ sid j, recordAt s₁ sid j = recordAt s sid j) ∧
        ∃ activities remaining, Obj.get s.planTemplates (toString planNum) = some activities ∧
          Obj.get s₁.planTemplates (toString planNum) = some remaining ∧
          ∀ j, idx ≤ j → remaining[j]? = activities[j + 1]?) := by
  refine ⟨fun k s₁ h => PlanStep.frame k s s₁ h, ?_⟩
  intro planNum idx s₁ h
  cases hplan : Obj.get s.planTemplates (toString planNum) with
  | none => simp [deleteActivity, hplan] at h
  | some activities =>
    simp only [deleteActivity, hplan, if_true, Option.some.injEq] at h
    subst h
    refine ⟨fun sid j => rfl, activities, activities.eraseIdx idx, rfl, Obj.get_set_self _ _ _, ?_⟩
    intro j hj
    exact List.getElem?_eraseIdx_of_ge _ _ _ hj

theorem plan_edits_keep_progress_witness :
    deleteActivity sampleState 1 0 true = some
        { sampleState with
          planTemplates :=
            [("1", ["Count to ten", "Name colours"]), ("2", []), ("3", []), ("4", []),
             ("5", []), ("6", [])] } ∧
      ((∀ sid j, recordAt
          { sampleState with
            planTemplates :=
              [("1", ["Count to ten", "Name colours"]), ("2", []), ("3", []), ("4", []),
               ("5", []), ("6", [])] } sid j = recordAt sampleState sid j) ∧
        ∃ activities remaining,
          Obj.get sampleState.planTemplates (toString (1 : Int)) = some activities ∧
          Obj.get ({ sampleState with
            planTemplates :=
              [("1", ["Count to ten", "Name colours"]), ("2", []), ("3", []), ("4", []),
               ("5", []), ("6", [])] } : State).planTemplates (toString (1 : Int))
            = some remaining ∧
          ∀ j, 0 ≤ j → remaining[j]? = activities[j + 1]?) :=
  ⟨by decide, (plan_edits_keep_progress sampleState).2 1 0 _ (by decide)⟩

/-! ### The order of date and time -/

/-- C30: `setActivityDate` with a non-empty date leaves the `completed` flag
and the time of the record as they were (`false` and the empty string for
an absent record). So on an absent record `setActivityTime` followed by
`setActivityDate` ends with date and time set and `completed = false`,
while `setActivityDate` followed by `setActivityTime` ends with
`completed = true`. -/
theorem setActivityDate_keeps_flag (s : State) (sid : Int) (i : Nat) (dateValue time : String)
    (hd : dateValue ≠ "") (ht : time ≠ "") :
    (∃ r, recordAt (setActivityDate s sid i dateValue) sid i = some r ∧
        r.completed = ((recordAt s sid i).getD
          { completed := false, date := "", time := "" }).completed ∧
        r.time = ((recordAt s sid i).getD { completed := false, date := "", time := "" }).time ∧
        r.date = reformatDate dateValue) ∧
      (recordAt s sid i = none →
        recordAt (setActivityDate (setActivityTime s sid i time) sid i dateValue) sid i
            = some { completed := false, date := reformatDate dateValue, time := time } ∧
          recordAt (setActivityTime (setActivityDate s sid i dateValue) sid i time) sid i
            = some { completed := true, date := reformatDate dateValue, time := time } ∧
          reformatDate dateValue ≠ "") := by
  constructor
  · refine ⟨{ (recordAt s sid i).getD { completed := false, date := "", time := "" } with
        date := reformatDate dateValue }, ?_, rfl, rfl, rfl⟩
    rw [recordAt_setActivityDate _ _ _ _ hd]
    simp
  · intro hnone
    refine ⟨?_, ?_, reformatDate_ne_empty dateValue⟩
    · rw [recordAt_setActivityDate _ _ _ _ hd, recordAt_setActivityTime _ _ _ _ ht]
      simp [hnone]
    · rw [recordAt_setActivityTime _ _ _ _ ht, recordAt_setActivityDate _ _ _ _ hd]
      simp [hnone, reformatDate_ne_empty dateValue]

theorem setActivityDate_keeps_flag_witness :
    ("2024-03-05" : String) ≠ "" ∧ ("08:00 - 08:20" : String) ≠ "" ∧
      ((∃ r, recordAt (setActivityDate initialState 7 2 "2024-03-05") 7 2 = some r ∧
          r.completed = ((recordAt initialState 7 2).getD
            { completed := false, date := "", time := "" }).completed ∧
          r.time = ((recordAt initialState 7 2).getD
            { completed := false, date := "", time := "" }).time ∧
          r.date = reformatDate "2024-03-05") ∧
        (recordAt initialState 7 2 = none →
          recordAt (setActivityDate (setActivityTime initialState 7 2 "08:00 - 08:20") 7 2
              "2024-03-05") 7 2
              = some { completed := false, date := reformatDate "2024-03-05",
                       time := "08:00 - 08:20" } ∧
            recordAt (setActivityTime (setActivityDate initialState 7 2 "2024-03-05") 7 2
              "08:00 - 08:20") 7 2
              = some { completed := true, date := reformatDate "2024-03-05",
                       time := "08:00 - 08:20" } ∧
            reformatDate "2024-03-05" ≠ "")) :=
  ⟨by decide, by decide,
    setActivityDate_keeps_flag initialState 7 2 "2024-03-05" "08:00 - 08:20" (by decide)
      (by decide)⟩

/-! ### No student twice in a cell -/

/-- The schedule stays free of duplicates when one cell is replaced by a list
without duplicates. -/
theorem cellsNodup_setCell (s : State)
    (h : ∀ p ∈ s.schedule, ∀ slot ∈ p.2, slot.Nodup) (day : String)
    (slots : List (List Int)) (hday : Obj.get s.schedule day = some slots) (timeIdx : Nat)
    (cell : List Int) (hcell : cell.Nodup) :
    ∀ p ∈ Obj.set s.schedule day (slots.set timeIdx cell), ∀ slot ∈ p.2, slot.Nodup := by
  intro p hp slot hslot
  rcases Obj.mem_set _ _ _ _ hp with hp | hp
  · exact h p hp slot hslot
  · subst hp
    rcases List.mem_or_eq_of_mem_set hslot with hs | hs
    · exact h (day, slots) (Obj.mem_of_get _ _ _ hday) slot hs
    · subst hs
      exact hcell

/-- C27: if no cell of the schedule holds an id twice, the same is true after
`deleteStudent`, `removeStudentFromSlot`, `clearSchedule`, and after
`assignStudentsToSlot` with a selection taken, in roster order, from a
roster whose ids are distinct (the state is unchanged when a call throws). -/
theorem cells_stay_duplicate_free (s : State)
    (h : ∀ p ∈ s.schedule, ∀ slot ∈ p.2, slot.Nodup) :
    (∀ id confirmed, ∀ p ∈ (deleteStudent s id confirmed).schedule, ∀ slot ∈ p.2,
        slot.Nodup) ∧
      (∀ day timeIdx studentId,
        ∀ p ∈ ((removeStudentFromSlot s day timeIdx studentId).getD s).schedule,
          ∀ slot ∈ p.2, slot.Nodup) ∧
      (∀ confirmed, ∀ p ∈ (clearSchedule s confirmed).schedule, ∀ slot ∈ p.2, slot.Nodup) ∧
      (∀ currentSlot selectedIds, (s.students.map (fun st => st.id)).Nodup →
        selectedIds.Sublist (s.students.map (fun st => st.id)) →
        ∀ p ∈ ((assignStudentsToSlot s currentSlot selectedIds).getD s).schedule,
          ∀ slot ∈ p.2, slot.Nodup) := by
  refine ⟨?_, ?_, ?_, ?_⟩
  · intro id confirmed
    cases confirmed
    · simpa [deleteStudent] using h
    · intro p hp slot hslot
      simp only [deleteStudent, if_true, List.mem_map] at hp
      obtain ⟨q, hq, rfl⟩ := hp
      simp only [List.mem_map] at hslot
      obtain ⟨old, hold, rfl⟩ := hslot
      exact (h q hq old hold).filter _
  · intro day timeIdx studentId
    unfold removeStudentFromSlot
    split
    · simpa using h
    · next slots hday =>
      split
      · simpa using h
      · next slot hslot =>
        simp only [Option.getD_some]
        apply cellsNodup_setCell s h day slots hday
        exact (h (day, slots) (Obj.mem_of_get _ _ _ hday) slot (List.getElem?_mem hslot)).filter _
  · intro confirmed
    cases confirmed
    · simpa [clearSchedule] using h
    · intro p hp slot hslot
      simp only [clearSchedule, if_true, emptySchedule, emptyDay, List.mem_cons,
        List.mem_singleton, List.not_mem_nil, or_false] at hp
      rcases hp with rfl | rfl | rfl | rfl | rfl <;>
        · simp only [List.mem_cons, List.mem_singleton, List.not_mem_nil, or_false, or_self]
            at hslot
          subst hslot
          exact List.nodup_nil
  · intro currentSlot selectedIds hroster hsel
    unfold assignStudentsToSlot
    split
    · simpa using h
    · next day timeIdx =>
      split
      · simpa using h
      · next slots hday =>
        split
        · simp only [Option.getD_some]
          exact cellsNodup_setCell s h day slots hday timeIdx selectedIds
            (hroster.sublist hsel)
        · simpa using h

theorem cells_stay_duplicate_free_witness :
    (∀ p ∈ sampleState.schedule, ∀ slot ∈ p.2, slot.Nodup) ∧
      ((∀ id confirmed, ∀ p ∈ (deleteStudent sampleState id confirmed).schedule, ∀ slot ∈ p.2,
          slot.Nodup) ∧
        (∀ day timeIdx studentId,
          ∀ p ∈ ((removeStudentFromSlot sampleState day timeIdx studentId).getD
              sampleState).schedule,
            ∀ slot ∈ p.2, slot.Nodup) ∧
        (∀ confirmed, ∀ p ∈ (clearSchedule sampleState confirmed).schedule, ∀ slot ∈ p.2,
          slot.Nodup) ∧
        (∀ currentSlot selectedIds, (sampleState.students.map (fun st => st.id)).Nodup →
          selectedIds.Sublist (sampleState.students.map (fun st => st.id)) →
          ∀ p ∈ ((assignStudentsToSlot sampleState currentSlot selectedIds).getD
              sampleState).schedule,
            ∀ slot ∈ p.2, slot.Nodup)) :=
  ⟨by decide, cells_stay_duplicate_free sampleState (by decide)⟩

/-! ### Bounds of the monthly count and percentage -/

/-- A list of distinct numbers below `n` has at most `n` members. -/
theorem length_le_of_nodup_lt (l : List Nat) (n : Nat) (hl : l.Nodup) (h : ∀ k ∈ l, k < n) :
    l.length ≤ n := by
  have hsub : l.toFinset ⊆ Finset.range n := by
    intro k hk
    exact Finset.mem_range.mpr (h k (List.mem_toFinset.mp hk))
  calc l.length = l.toFinset.card := (List.toFinset_card_of_nodup hl).symm
    _ ≤ (Finset.range n).card := Finset.card_le_card hsub
    _ = n := Finset.card_range n

/-- C29: for a student whose plan exists and whose progress map has all its
indices (the distinct keys of the object) below the length of the plan, the
completed count of every month is at most the plan length and the monthly
percentage is at most 100 (and at least 0, as a natural number); the plan
length is below 2^32, as every array length is. -/
theorem monthly_count_bounded (s : State) (student : Student) (year month : Int)
    (activities : List String)
    (hplan : Obj.get s.planTemplates student.planType = some activities)
    (hkeys : (((Obj.get s.studentProgress student.id).getD []).map Prod.fst).Nodup)
    (hidx : ∀ p ∈ (Obj.get s.studentProgress student.id).getD [], p.1 < activities.length)
    (hlen : activities.length < 2 ^ 32) :
    ∃ summary, monthlySummary s student year month = some summary ∧
      summary.totalCount = activities.length ∧
      summary.completedCount = summary.completedInMonth.length ∧
      summary.completedCount ≤ activities.length ∧
      0 ≤ summary.percentage ∧ summary.percentage ≤ 100 := by
  have hsum : monthlySummary s student year month = some
      { completedInMonth :=
          completedInMonth ((Obj.get s.studentProgress student.id).getD []) activities year month
        totalCount := activities.length
        completedCount :=
          (completedInMonth ((Obj.get s.studentProgress student.id).getD []) activities
            year month).length
        percentage :=
          percentageOf (completedInMonth ((Obj.get s.studentProgress student.id).getD [])
            activities year month).length activities.length } := by
    simp only [monthlySummary, hplan]
  have hcount : (completedInMonth ((Obj.get s.studentProgress student.id).getD []) activities
      year month).length ≤ activities.length := by
    have h1 : (completedInMonth ((Obj.get s.studentProgress student.id).getD []) activities
        year month).length ≤ ((Obj.get s.studentProgress student.id).getD []).length := by
      unfold completedInMonth
      exact List.length_filterMap_le _ _
    have h2 := length_le_of_nodup_lt _ activities.length hkeys (by
      intro k hk
      obtain ⟨p, hp, rfl⟩ := List.mem_map.mp hk
      exact hidx p hp)
    rw [List.length_map] at h2
    exact le_trans h1 h2
  refine ⟨_, hsum, rfl, rfl, hcount, Nat.zero_le _, ?_⟩
  show percentageOf _ activities.length ≤ 100
  by_cases ht : 0 < activities.length
  · have hc : (completedInMonth ((Obj.get s.studentProgress student.id).getD []) activities
        year month).length < 2 ^ 44 := by
      have : (2 : Nat) ^ 32 < 2 ^ 44 := by norm_num
      omega
    have hn := (percentageOf_nearest _ _ ht hc).1
    by_contra hgt
    have hp : 101 ≤ percentageOf (completedInMonth ((Obj.get s.studentProgress student.id).getD [])
        activities year month).length activities.length := by omega
    have := Nat.mul_le_mul_right activities.length hp
    omega
  · have h0 : activities.length = 0 := by omega
    simp [percentageOf, h0]

theorem monthly_count_bounded_witness :
    Obj.get sampleState.planTemplates
        ({ id := 1, name := "Ana", grade := "III", planType := "1" } : Student).planType
      = some ["Say hello", "Count to ten", "Name colours"] ∧
    (((Obj.get sampleState.studentProgress
        ({ id := 1, name := "Ana", grade := "III", planType := "1" } : Student).id).getD
          []).map Prod.fst).Nodup ∧
    (∀ p ∈ (Obj.get sampleState.studentProgress
        ({ id := 1, name := "Ana", grade := "III", planType := "1" } : Student).id).getD [],
      p.1 < ["Say hello", "Count to ten", "Name colours"].length) ∧
    ["Say hello", "Count to ten", "Name colours"].length < 2 ^ 32 ∧
    ∃ summary, monthlySummary sampleState
        { id := 1, name := "Ana", grade := "III", planType := "1" } 2024 3 = some summary ∧
      summary.totalCount = ["Say hello", "Count to ten", "Name colours"].length ∧
      summary.completedCount = summary.completedInMonth.length ∧
      summary.completedCount ≤ ["Say hello", "Count to ten", "Name colours"].length ∧
      0 ≤ summary.percentage ∧ summary.percentage ≤ 100 :=
  ⟨by decide, by decide, by decide, by decide,
    monthly_count_bounded sampleState { id := 1, name := "Ana", grade := "III", planType := "1" }
      2024 3 ["Say hello", "Count to ten", "Name colours"] (by decide) (by decide) (by decide)
      (by decide)⟩

/-! ### Ids of no student in a schedule cell -/

/-- In the option monad `mapM` succeeds when the function does on every member. -/
theorem mapM_eq_some_map {α β : Type} (f : α → Option β) (g : α → β) (l : List α)
    (h : ∀ a ∈ l, f a = some (g a)) : l.mapM f = some (l.map g) := by
  induction l with
  | nil => rfl
  | cons a l ih =>
    rw [List.mapM_cons, h a (List.mem_cons_self a l),
      ih (fun b hb => h b (List.mem_cons_of_mem a hb))]
    rfl

/-- What `students.find` returns is a student of the roster with the id. -/
theorem findStudent_some (s : State) (sid : Int) (student : Student)
    (h : findStudent s sid = some student) : student ∈ s.students ∧ student.id = sid := by
  unfold findStudent at h
  refine ⟨List.mem_of_find?_eq_some h, ?_⟩
  simpa using List.find?_some h

/-- The lookup `students.find` fails exactly for the ids of no student. -/
theorem findStudent_eq_none (s : State) (sid : Int) :
    findStudent s sid = none ↔ sid ∉ s.students.map (fun student => student.id) := by
  unfold findStudent
  simp [List.find?_eq_none]

/-- The students that `students.find` resolves for the ids of a cell have the
ids of the cell that belong to the roster, in the order of the cell. -/
theorem filterMap_findStudent_ids (s : State) (studentIds : List Int) :
    (studentIds.filterMap (findStudent s)).map (fun student => student.id)
      = studentIds.filter (fun sid => decide (sid ∈ s.students.map (fun student => student.id)))
    := by
  induction studentIds with
  | nil => rfl
  | cons sid rest ih =>
    cases hfind : findStudent s sid with
    | none =>
      have hnot := (findStudent_eq_none s sid).mp hfind
      rw [List.filterMap_cons_none hfind, List.filter_cons_of_neg (by simpa using hnot)]
      exact ih
    | some student =>
      have hmem : sid ∈ s.students.map (fun student => student.id) := by
        by_contra hnot
        rw [(findStudent_eq_none s sid).mpr hnot] at hfind
        cases hfind
      rw [List.filterMap_cons_some hfind, List.filter_cons_of_pos (by simpa using hmem),
        List.map_cons, ih, (findStudent_some s sid student hfind).2]


/-- The cells that the report reads for a day of a complete grid. -/
theorem dayCells_of_grid (s : State) (day : String)
    (hday : ∀ timeIdx, timeIdx < 5 → (getCell s day timeIdx).isSome = true) :
    dayCells s day = some ((List.range 5).map (fun timeIdx => (getCell s day timeIdx).getD []))
    := by
  unfold dayCells
  apply mapM_eq_some_map
  intro timeIdx hmem
  have hlt : timeIdx < 5 := by simpa [timeSlots] using List.mem_range.mp hmem
  have := hday timeIdx hlt
  cases hcell : getCell s day timeIdx with
  | none => simp [hcell] at this
  | some cell => rfl

/-- C24: for every state whose grid has its five days of five cells, whatever
ids the cells hold, `generateScheduleReport` produces a report, and for every
cell the report (`slotReport`) and the rendered grid (`renderCell`) list
exactly the students that `students.find` resolves: their ids are the ids of
the cell that belong to a roster student, in the order of the cell; the
other ids leave no trace. -/
theorem orphan_ids_skipped (s : State)
    (hgrid : ∀ day ∈ daysEng, ∀ timeIdx, timeIdx < 5 → (getCell s day timeIdx).isSome = true) :
    (∃ report, generateScheduleReport s = some report) ∧
      (∀ dayIdx, ∀ day ∈ daysEng, ∃ cells, dayCells s day = some cells ∧
        (∀ timeIdx, timeIdx < 5 → cells[timeIdx]? = getCell s day timeIdx) ∧
        ∃ pieces, dayReport s dayIdx day = some pieces ∧
          ∀ p ∈ timeSlots.zip cells, ∀ line ∈ slotReport s p.1 p.2, line ∈ pieces) ∧
      ∀ (time : TimeSlot) (studentIds : List Int),
        ∃ listed : List Student,
          (∀ student ∈ listed, student ∈ s.students) ∧
          listed.map (fun student => student.id)
            = studentIds.filter
                (fun sid => decide (sid ∈ s.students.map (fun student => student.id))) ∧
          renderCell s studentIds
            = listed.map (fun student => (student.id, student.grade ++ " - " ++ student.name)) ∧
          slotReport s time studentIds
            = if studentIds = [] then []
              else (time.label ++ " (" ++ time.early ++ " / " ++ time.late ++ "):\n") ::
                listed.map (fun student =>
                  "  - " ++ student.grade ++ " - " ++ student.name ++ "\n") := by
  have hday : ∀ dayIdx, ∀ day ∈ daysEng, dayReport s dayIdx day = some
      ([(days[dayIdx]?).getD "undefined" ++ "\n" ++ String.mk (List.replicate 30 '=') ++ "\n"]
        ++ ((timeSlots.zip ((List.range 5).map (fun timeIdx =>
              (getCell s day timeIdx).getD []))).map (fun p => slotReport s p.1 p.2)).flatten
        ++ (if ((List.range 5).map (fun timeIdx => (getCell s day timeIdx).getD [])).any
              (fun studentIds => decide (studentIds.length > 0)) then []
            else ["Нема закажани сесии\n"])
        ++ ["\n"]) := by
    intro dayIdx day hmem
    unfold dayReport
    rw [dayCells_of_grid s day (hgrid day hmem)]
    rfl
  refine ⟨?_, ?_, ?_⟩
  · unfold generateScheduleReport
    rw [mapM_eq_some_map _ (fun p => (dayReport s p.1 p.2).getD []) _ (by
      intro p hp
      obtain ⟨dayIdx, day⟩ := p
      have hmem : day ∈ daysEng := by
        rw [(List.mem_enum hp).2]
        exact List.getElem_mem _
      simp only [hday dayIdx day hmem, Option.getD_some])]
    exact ⟨_, rfl⟩
  · intro dayIdx day hmem
    refine ⟨_, dayCells_of_grid s day (hgrid day hmem), ?_, _, hday dayIdx day hmem, ?_⟩
    · intro timeIdx hlt
      have := hgrid day hmem timeIdx hlt
      cases hcell : getCell s day timeIdx with
      | none => simp [hcell] at this
      | some cell => simp [hlt, hcell]
    · intro p hp line hline
      simp only [List.mem_append, List.mem_flatten, List.mem_map]
      exact Or.inl (Or.inl (Or.inr ⟨_, ⟨p, hp, rfl⟩, hline⟩))
  · intro time studentIds
    refine ⟨studentIds.filterMap (findStudent s), ?_, filterMap_findStudent_ids s studentIds,
      ?_, ?_⟩
    · intro student hmem
      obtain ⟨sid, _, hfind⟩ := List.mem_filterMap.mp hmem
      exact (findStudent_some s sid student hfind).1
    · unfold renderCell
      rw [List.map_filterMap]
      apply List.filterMap_congr
      intro sid _
      cases hfind : findStudent s sid with
      | none => rfl
      | some student => simp [(findStudent_some s sid student hfind).2]
    · unfold slotReport
      cases studentIds with
      | nil => rfl
      | cons sid rest =>
        simp only [List.length_cons, gt_iff_lt, Nat.zero_lt_succ, if_true, reduceCtorEq,
          if_false, List.map_filterMap]


set_option maxRecDepth 100000 in
theorem orphan_ids_skipped_witness :
    (∀ day ∈ daysEng, ∀ timeIdx, timeIdx < 5 →
        (getCell orphanState day timeIdx).isSome = true) ∧
      ((∃ report, generateScheduleReport orphanState = some report) ∧
        (∀ dayIdx, ∀ day ∈ daysEng, ∃ cells, dayCells orphanState day = some cells ∧
          (∀ timeIdx, timeIdx < 5 → cells[timeIdx]? = getCell orphanState day timeIdx) ∧
          ∃ pieces, dayReport orphanState dayIdx day = some pieces ∧
            ∀ p ∈ timeSlots.zip cells, ∀ line ∈ slotReport orphanState p.1 p.2, line ∈ pieces) ∧
        ∀ (time : TimeSlot) (studentIds : List Int),
          ∃ listed : List Student,
            (∀ student ∈ listed, student ∈ orphanState.students) ∧
            listed.map (fun student => student.id)
              = studentIds.filter
                  (fun sid => decide (sid ∈ orphanState.students.map (fun student => student.id)))
              ∧
            renderCell orphanState studentIds
              = listed.map (fun student => (student.id, student.grade ++ " - " ++ student.name))
              ∧
            slotReport orphanState time studentIds
              = if studentIds = [] then []
                else (time.label ++ " (" ++ time.early ++ " / " ++ time.late ++ "):\n") ::
                  listed.map (fun student =>
                    "  - " ++ student.grade ++ " - " ++ student.name ++ "\n")) :=
  ⟨by decide, orphan_ids_skipped orphanState (by decide)⟩


/-! ### The placeholder line of the reports -/

/-- The pieces of the schedule report for a day of a complete grid. -/
theorem dayReport_of_grid (s : State) (dayIdx : Nat) (day : String)
    (hday : ∀ timeIdx, timeIdx < 5 → (getCell s day timeIdx).isSome = true) :
    dayReport s dayIdx day = some
      ([(days[dayIdx]?).getD "undefined" ++ "\n" ++ String.mk (List.replicate 30 '=') ++ "\n"]
        ++ ((timeSlots.zip ((List.range 5).map (fun timeIdx =>
              (getCell s day timeIdx).getD []))).map (fun p => slotReport s p.1 p.2)).flatten
        ++ (if ((List.range 5).map (fun timeIdx => (getCell s day timeIdx).getD [])).any
              (fun studentIds => decide (studentIds.length > 0)) then []
            else ["Нема закажани сесии\n"])
        ++ ["\n"]) := by
  unfold dayReport
  rw [dayCells_of_grid s day hday]
  rfl

/-- No piece that the schedule report appends for a time slot is the
placeholder line. -/
theorem slotReport_ne_placeholder (s : State) (time : TimeSlot) (htime : time ∈ timeSlots)
    (studentIds : List Int) (line : String) (hline : line ∈ slotReport s time studentIds) :
    line ≠ "Нема закажани сесии\n" := by
  unfold slotReport at hline
  split at hline
  · rcases List.mem_cons.mp hline with h | h
    · subst h
      simp only [timeSlots, List.mem_cons, List.mem_singleton, List.not_mem_nil, or_false]
        at htime
      rcases htime with rfl | rfl | rfl | rfl | rfl <;> decide
    · obtain ⟨sid, _, hsome⟩ := List.mem_filterMap.mp h
      cases hfind : findStudent s sid with
      | none => simp [hfind] at hsome
      | some student =>
        simp only [hfind, Option.map_some', Option.some.injEq] at hsome
        subst hsome
        intro heq
        have := congrArg String.data heq
        simp [String.data_append] at this
  · simp at hline

/-- The heading of a day in the schedule report is not the placeholder line. -/
theorem heading_ne_placeholder (name : String) :
    name ++ "\n" ++ String.mk (List.replicate 30 '=') ++ "\n" ≠ "Нема закажани сесии\n" := by
  intro heq
  have := congrArg String.length heq
  simp only [String.length_append] at this
  have h30 : (String.mk (List.replicate 30 '=')).length = 30 := by decide
  have h1 : ("\n" : String).length = 1 := by decide
  have h20 : ("Нема закажани сесии\n" : String).length = 20 := by decide
  omega


/-- C23, as amended: for a state whose grid has its five days of five cells
the schedule report is produced, and the pieces of every day contain the
line "Нема закажани сесии" exactly when the five cells of the day are empty
(the pieces are then the heading, that line and an empty line); the report of
the empty schedule has the line five times. The progress report is produced
when every student's plan exists; for a student whose plan has no activities
it prints the count line with total 0 and 0 percent and no placeholder line:
with no progress record the section is the count line and an empty line. -/
theorem report_placeholders (s : State) (student : Student)
    (hgrid : ∀ day ∈ daysEng, ∀ timeIdx, timeIdx < 5 → (getCell s day timeIdx).isSome = true)
    (hplan : Obj.get s.planTemplates student.planType = some []) :
    (∃ report, generateScheduleReport s = some report) ∧
      (∀ dayIdx, ∀ day ∈ daysEng, ∃ pieces, dayReport s dayIdx day = some pieces ∧
        ("Нема закажани сесии\n" ∈ pieces ↔
          ∀ timeIdx, timeIdx < 5 → getCell s day timeIdx = some []) ∧
        ((∀ timeIdx, timeIdx < 5 → getCell s day timeIdx = some []) →
          pieces = [(days[dayIdx]?).getD "undefined" ++ "\n"
                      ++ String.mk (List.replicate 30 '=') ++ "\n",
                    "Нема закажани сесии\n", "\n"])) ∧
      generateScheduleReport initialState = some
        ("Неделен Распоред - Кабинет за слух, говор, глас, алтернатива и аугментативна комуникација\n\n"
          ++ "Пон\n==============================\nНема закажани сесии\n\n"
          ++ "Вто\n==============================\nНема закажани сесии\n\n"
          ++ "Сре\n==============================\nНема закажани сесии\n\n"
          ++ "Чет\n==============================\nНема закажани сесии\n\n"
          ++ "Пет\n==============================\nНема закажани сесии\n\n") ∧
      (∀ month year,
        (∀ other ∈ s.students, (Obj.get s.planTemplates other.planType).isSome = true) →
        ∃ report, generateProgressReport s month year = some report) ∧
      ∃ pieces, progressReportSection s student = some pieces ∧
        pieces.head? = some (student.grade ++ " - " ++ student.name ++ "\nЗавршени активности: "
          ++ toString ((Obj.get s.studentProgress student.id).getD []).length
          ++ "/0 (0%)\n") ∧
        ((Obj.get s.studentProgress student.id).getD [] = [] →
          pieces = [student.grade ++ " - " ++ student.name
                      ++ "\nЗавршени активности: 0/0 (0%)\n", "\n"]) := by
  refine ⟨?_, ?_, by rfl, ?_, ?_⟩
  · unfold generateScheduleReport
    rw [mapM_eq_some_map _ (fun p => (dayReport s p.1 p.2).getD []) _ (by
      intro p hp
      obtain ⟨dayIdx, day⟩ := p
      have hmem : day ∈ daysEng := by
        rw [(List.mem_enum hp).2]
        exact List.getElem_mem _
      simp only [dayReport_of_grid s dayIdx day (hgrid day hmem), Option.getD_some])]
    exact ⟨_, rfl⟩
  · intro dayIdx day hmem
    have hsome : ∀ timeIdx, timeIdx < 5 →
        getCell s day timeIdx = some ((getCell s day timeIdx).getD []) := by
      intro timeIdx hlt
      have := hgrid day hmem timeIdx hlt
      cases hcell : getCell s day timeIdx with
      | none => simp [hcell] at this
      | some cell => rfl
    have hany : ((List.range 5).map (fun timeIdx => (getCell s day timeIdx).getD [])).any
          (fun studentIds => decide (studentIds.length > 0)) = false ↔
        ∀ timeIdx, timeIdx < 5 → getCell s day timeIdx = some [] := by
      rw [List.any_eq_false]
      constructor
      · intro h timeIdx hlt
        have hzero := h ((getCell s day timeIdx).getD [])
          (List.mem_map.mpr ⟨timeIdx, List.mem_range.mpr hlt, rfl⟩)
        rw [hsome timeIdx hlt]
        have hnil : (getCell s day timeIdx).getD [] = [] := by
          apply List.eq_nil_of_length_eq_zero
          simpa using hzero
        rw [hnil]
      · intro h cell hcell
        obtain ⟨timeIdx, hrange, rfl⟩ := List.mem_map.mp hcell
        rw [h timeIdx (List.mem_range.mp hrange)]
        simp
    refine ⟨_, dayReport_of_grid s dayIdx day (hgrid day hmem), ?_, ?_⟩
    · constructor
      · intro hin
        by_contra hnot
        have htrue : ((List.range 5).map (fun timeIdx => (getCell s day timeIdx).getD [])).any
            (fun studentIds => decide (studentIds.length > 0)) = true := by
          cases hb : ((List.range 5).map (fun timeIdx => (getCell s day timeIdx).getD [])).any
            (fun studentIds => decide (studentIds.length > 0)) with
          | true => rfl
          | false => exact absurd (hany.mp hb) hnot
        rw [htrue] at hin
        simp only [if_true, List.append_nil, List.mem_append, List.mem_singleton,
          List.mem_flatten, List.mem_map] at hin
        rcases hin with (hhead | ⟨pieces, ⟨p, hp, rfl⟩, hline⟩) | hlast
        · exact heading_ne_placeholder _ hhead.symm
        · exact slotReport_ne_placeholder s p.1 (List.of_mem_zip hp).1 p.2 _ hline rfl
        · exact absurd hlast (by decide)
      · intro hall
        rw [hany.mpr hall]
        simp
    · intro hall
      rw [hany.mpr hall]
      have hcells : (List.range 5).map (fun timeIdx => (getCell s day timeIdx).getD [])
          = [[], [], [], [], []] := by
        have hr : List.range 5 = [0, 1, 2, 3, 4] := by decide
        rw [hr]
        simp [hall]
      rw [hcells]
      simp [timeSlots, slotReport]
  · intro month year hall
    unfold generateProgressReport
    rw [mapM_eq_some_map _ (fun other => (progressReportSection s other).getD []) _ (by
      intro other hother
      have := hall other hother
      cases hget : Obj.get s.planTemplates other.planType with
      | none => simp [hget] at this
      | some activities => simp [progressReportSection, hget])]
    exact ⟨_, rfl⟩
  · cases hrep : progressReportSection s student with
    | none => simp [progressReportSection, hplan] at hrep
    | some pieces =>
      simp only [progressReportSection, hplan, Option.some.injEq] at hrep
      subst hrep
      refine ⟨_, rfl, ?_, ?_⟩
      · simp only [percentageOf, List.length_nil, gt_iff_lt, Nat.lt_irrefl, if_false,
          List.singleton_append, List.head?_cons, Option.some.injEq, List.cons_append,
          String.append_assoc]
        rfl
      · intro hempty
        simp only [hempty, percentageOf, List.length_nil, gt_iff_lt, Nat.lt_irrefl, if_false,
          List.singleton_append, List.nil_append, List.cons.injEq, and_true,
          String.append_assoc]
        rfl


set_option maxRecDepth 100000 in
theorem report_placeholders_witness :
    (∀ day ∈ daysEng, ∀ timeIdx, timeIdx < 5 →
        (getCell sampleState day timeIdx).isSome = true) ∧
    Obj.get sampleState.planTemplates
        ({ id := 2, name := "Bojan", grade := "IV", planType := "2" } : Student).planType
      = some [] ∧
    ((∃ report, generateScheduleReport sampleState = some report) ∧
      (∀ dayIdx, ∀ day ∈ daysEng, ∃ pieces, dayReport sampleState dayIdx day = some pieces ∧
        ("Нема закажани сесии\n" ∈ pieces ↔
          ∀ timeIdx, timeIdx < 5 → getCell sampleState day timeIdx = some []) ∧
        ((∀ timeIdx, timeIdx < 5 → getCell sampleState day timeIdx = some []) →
          pieces = [(days[dayIdx]?).getD "undefined" ++ "\n"
                      ++ String.mk (List.replicate 30 '=') ++ "\n",
                    "Нема закажани сесии\n", "\n"])) ∧
      generateScheduleReport initialState = some
        ("Неделен Распоред - Кабинет за слух, говор, глас, алтернатива и аугментативна комуникација\n\n"
          ++ "Пон\n==============================\nНема закажани сесии\n\n"
          ++ "Вто\n==============================\nНема закажани сесии\n\n"
          ++ "Сре\n==============================\nНема закажани сесии\n\n"
          ++ "Чет\n==============================\nНема закажани сесии\n\n"
          ++ "Пет\n==============================\nНема закажани сесии\n\n") ∧
      (∀ month year,
        (∀ other ∈ sampleState.students,
          (Obj.get sampleState.planTemplates other.planType).isSome = true) →
        ∃ report, generateProgressReport sampleState month year = some report) ∧
      ∃ pieces, progressReportSection sampleState
          { id := 2, name := "Bojan", grade := "IV", planType := "2" } = some pieces ∧
        pieces.head? = some ("IV" ++ " - " ++ "Bojan" ++ "\nЗавршени активности: "
          ++ toString ((Obj.get sampleState.studentProgress
              ({ id := 2, name := "Bojan", grade := "IV", planType := "2" } : Student).id).getD
                []).length
          ++ "/0 (0%)\n") ∧
        ((Obj.get sampleState.studentProgress
            ({ id := 2, name := "Bojan", grade := "IV", planType := "2" } : Student).id).getD []
              = [] →
          pieces = ["IV" ++ " - " ++ "Bojan"
                      ++ "\nЗавршени активности: 0/0 (0%)\n", "\n"])) :=
  ⟨by decide, by decide,
    report_placeholders sampleState { id := 2, name := "Bojan", grade := "IV", planType := "2" }
      (by decide) (by decide)⟩

set_option maxRecDepth 100000 in
/-- C23 as stated fails for the progress report: the second student of the
sample state has plan 2, which has no activities, and the report prints for
this student the count line and an empty line, with no placeholder line; the
text of `generateProgressReport` has no line for a missing plan or missing
activities at all. -/
theorem empty_plan_prints_no_placeholder :
    Obj.get sampleState.planTemplates "2" = some [] ∧
      progressReportSection sampleState { id := 2, name := "Bojan", grade := "IV", planType := "2" }
        = some ["IV - Bojan\nЗавршени активности: 0/0 (0%)\n", "\n"] ∧
      generateProgressReport sampleState 3 2024 = some
        ("Извештај за Напредок - Кабинет за слух, говор, глас, алтернатива и аугментативна комуникација\n\n"
          ++ "Месец: 3/2024\n\n"
          ++ "III - Ana\nЗавршени активности: 2/3 (67%)\n"
          ++ "Завршени активности:\n"
          ++ "  - Say hello (05.03.2024 08:00-08:20)\n"
          ++ "  - Count to ten (10.04.2024 )\n"
          ++ "\n"
          ++ "IV - Bojan\nЗавршени активности: 0/0 (0%)\n"
          ++ "\n") := by
  refine ⟨by decide, by rfl, by rfl⟩


/-! ### Overall statistics of a student -/

/-- C21, as amended: in the progress report of the client the completed count
of a student is the number of keys of the progress map, whatever the month
and the `completed` flag of the records, the total is the length of the
current plan and the percentage is `Math.round` of the double
`(completed / total) * 100`, an integer nearest to `100 * completed / total`
and 0 for an empty plan; the report computes no `remaining`. The statistics
route of the backend counts as completed only the progress rows of the
student with `completed = true`, whatever their date, so at most the number
of the student's rows; its total is the number of template rows of the
student's plan type, the percentage is computed in the same way, and
`remaining` is `total - completed`. -/
theorem overall_statistics (s : State) (student : Student) (activities : List String)
    (hplan : Obj.get s.planTemplates student.planType = some activities)
    (db : Database) (userId studentId : Int) (row : StudentRow) (others : List StudentRow)
    (hrow : db.students.filter (fun r => r.id == studentId && r.userId == userId)
      = row :: others) :
    (∃ summary pieces, overallSummary s student = some summary ∧
      progressReportSection s student = some pieces ∧
      pieces.head? = some (student.grade ++ " - " ++ student.name ++ "\nЗавршени активности: "
          ++ toString summary.completedCount ++ "/" ++ toString summary.totalCount
          ++ " (" ++ toString summary.percentage ++ "%)\n") ∧
      summary.completedCount = ((Obj.get s.studentProgress student.id).getD []).length ∧
      (∀ year month, (completedInMonth ((Obj.get s.studentProgress student.id).getD [])
        activities year month).length ≤ summary.completedCount) ∧
      summary.totalCount = activities.length ∧
      summary.percentage = percentageOf summary.completedCount summary.totalCount ∧
      (summary.totalCount = 0 → summary.percentage = 0) ∧
      (0 < summary.totalCount → summary.completedCount < 2 ^ 44 →
        2 * (summary.percentage * summary.totalCount)
            ≤ 200 * summary.completedCount + summary.totalCount ∧
          200 * summary.completedCount
            ≤ 2 * (summary.percentage * summary.totalCount) + summary.totalCount)) ∧
      ∃ stats, getStatsRoute db userId studentId false = Except.ok stats ∧
        stats.completedActivities
          = (db.studentProgress.filter (fun progress =>
              progress.studentId == studentId && progress.completed)).length ∧
        stats.completedActivities
          ≤ (db.studentProgress.filter (fun progress =>
              progress.studentId == studentId)).length ∧
        stats.totalActivities
          = (db.planTemplates.filter (fun template =>
              template.planType == row.planType && template.userId == userId)).length ∧
        stats.percentage = percentageOf stats.completedActivities stats.totalActivities ∧
        (stats.totalActivities = 0 → stats.percentage = 0) ∧
        (0 < stats.totalActivities → stats.completedActivities < 2 ^ 44 →
          2 * (stats.percentage * stats.totalActivities)
              ≤ 200 * stats.completedActivities + stats.totalActivities ∧
            200 * stats.completedActivities
              ≤ 2 * (stats.percentage * stats.totalActivities) + stats.totalActivities) ∧
        stats.remaining = (stats.totalActivities : Int) - (stats.completedActivities : Int) := by
  constructor
  · have hsum : overallSummary s student = some
        { completedCount := ((Obj.get s.studentProgress student.id).getD []).length
          totalCount := activities.length
          percentage :=
            percentageOf ((Obj.get s.studentProgress student.id).getD []).length
              activities.length } := by
      simp only [overallSummary, hplan]
    cases hrep : progressReportSection s student with
    | none => simp [progressReportSection, hplan] at hrep
    | some pieces =>
      simp only [progressReportSection, hplan, Option.some.injEq] at hrep
      subst hrep
      refine ⟨_, _, hsum, rfl, by simp, rfl, ?_, rfl, rfl, ?_, ?_⟩
      · intro year month
        unfold completedInMonth
        exact List.length_filterMap_le _ _
      · intro h0
        show percentageOf _ activities.length = 0
        have h0' : activities.length = 0 := h0
        simp [percentageOf, h0']
      · intro ht hc
        exact percentageOf_nearest _ _ ht hc
  · have hstats : getStatsRoute db userId studentId false = Except.ok
        { studentId := studentId
          totalActivities :=
            (db.planTemplates.filter (fun template =>
              template.planType == row.planType && template.userId == userId)).length
          completedActivities :=
            (db.studentProgress.filter (fun progress =>
              progress.studentId == studentId && progress.completed)).length
          percentage :=
            percentageOf
              (db.studentProgress.filter (fun progress =>
                progress.studentId == studentId && progress.completed)).length
              (db.planTemplates.filter (fun template =>
                template.planType == row.planType && template.userId == userId)).length
          remaining :=
            ((db.planTemplates.filter (fun template =>
              template.planType == row.planType && template.userId == userId)).length : Int)
            - ((db.studentProgress.filter (fun progress =>
                progress.studentId == studentId && progress.completed)).length : Int) } := by
      simp only [getStatsRoute, hrow, Bool.false_eq_true, if_false]
    refine ⟨_, hstats, rfl, ?_, rfl, rfl, ?_, ?_, rfl⟩
    · show (db.studentProgress.filter _).length ≤ (db.studentProgress.filter _).length
      have hsub : (db.studentProgress.filter (fun progress =>
            progress.studentId == studentId && progress.completed)).Sublist
          (db.studentProgress.filter (fun progress => progress.studentId == studentId)) := by
        apply List.monotone_filter_right
        intro progress h
        simp only [Bool.and_eq_true] at h
        exact h.1
      exact hsub.length_le
    · intro h0
      show percentageOf _ (db.planTemplates.filter _).length = 0
      have h0' : (db.planTemplates.filter (fun template =>
          template.planType == row.planType && template.userId == userId)).length = 0 := h0
      simp [percentageOf, h0']
    · intro ht hc
      exact percentageOf_nearest _ _ ht hc


set_option maxRecDepth 100000 in
theorem overall_statistics_witness :
    Obj.get sampleState.planTemplates
        ({ id := 1, name := "Ana", grade := "III", planType := "1" } : Student).planType
      = some ["Say hello", "Count to ten", "Name colours"] ∧
    sampleDatabase.students.filter (fun r => r.id == 1 && r.userId == 1)
      = { id := 1, userId := 1, planType := 1 } :: [] ∧
    ((∃ summary pieces,
      overallSummary sampleState { id := 1, name := "Ana", grade := "III", planType := "1" }
        = some summary ∧
      progressReportSection sampleState { id := 1, name := "Ana", grade := "III", planType := "1" }
        = some pieces ∧
      pieces.head? = some ("III" ++ " - " ++ "Ana" ++ "\nЗавршени активности: "
          ++ toString summary.completedCount ++ "/" ++ toString summary.totalCount
          ++ " (" ++ toString summary.percentage ++ "%)\n") ∧
      summary.completedCount = ((Obj.get sampleState.studentProgress
        ({ id := 1, name := "Ana", grade := "III", planType := "1" } : Student).id).getD
          []).length ∧
      (∀ year month, (completedInMonth ((Obj.get sampleState.studentProgress
          ({ id := 1, name := "Ana", grade := "III", planType := "1" } : Student).id).getD [])
        ["Say hello", "Count to ten", "Name colours"] year month).length
          ≤ summary.completedCount) ∧
      summary.totalCount = ["Say hello", "Count to ten", "Name colours"].length ∧
      summary.percentage = percentageOf summary.completedCount summary.totalCount ∧
      (summary.totalCount = 0 → summary.percentage = 0) ∧
      (0 < summary.totalCount → summary.completedCount < 2 ^ 44 →
        2 * (summary.percentage * summary.totalCount)
            ≤ 200 * summary.completedCount + summary.totalCount ∧
          200 * summary.completedCount
            ≤ 2 * (summary.percentage * summary.totalCount) + summary.totalCount)) ∧
      ∃ stats, getStatsRoute sampleDatabase 1 1 false = Except.ok stats ∧
        stats.completedActivities
          = (sampleDatabase.studentProgress.filter (fun progress =>
              progress.studentId == 1 && progress.completed)).length ∧
        stats.completedActivities
          ≤ (sampleDatabase.studentProgress.filter (fun progress =>
              progress.studentId == 1)).length ∧
        stats.totalActivities
          = (sampleDatabase.planTemplates.filter (fun template =>
              template.planType == ({ id := 1, userId := 1, planType := 1 } : StudentRow).planType
                && template.userId == 1)).length ∧
        stats.percentage = percentageOf stats.completedActivities stats.totalActivities ∧
        (stats.totalActivities = 0 → stats.percentage = 0) ∧
        (0 < stats.totalActivities → stats.completedActivities < 2 ^ 44 →
          2 * (stats.percentage * stats.totalActivities)
              ≤ 200 * stats.completedActivities + stats.totalActivities ∧
            200 * stats.completedActivities
              ≤ 2 * (stats.percentage * stats.totalActivities) + stats.totalActivities) ∧
        stats.remaining = (stats.totalActivities : Int) - (stats.completedActivities : Int)) :=
  ⟨by decide, by decide,
    overall_statistics sampleState { id := 1, name := "Ana", grade := "III", planType := "1" }
      ["Say hello", "Count to ten", "Name colours"] (by decide) sampleDatabase 1 1
      { id := 1, userId := 1, planType := 1 } [] (by decide)⟩

set_option maxRecDepth 100000 in
/-- C21 as stated fails for the statistics route of the backend: the student
of the sample database has two progress rows (two keys of the progress map),
one of them with `completed = false`, and the route answers 1 completed of 2,
50 percent, 1 remaining: it counts the rows flagged completed, not the keys
present. -/
theorem stats_route_counts_flagged_rows :
    (sampleDatabase.studentProgress.filter (fun progress => progress.studentId == 1)).length
        = 2 ∧
      getStatsRoute sampleDatabase 1 1 false = Except.ok
        { studentId := 1
          totalActivities := 2
          completedActivities := 1
          percentage := 50
          remaining := 1 } := by
  refine ⟨by decide, by rfl⟩

end StudentManager
